import Mathlib

/-!
# Job lifecycle and reconciliation engine (`md.web/src/pages/JobsList.jsx`)

A shallow embedding of the logic of the `JobStepper` component: the stage flows and the
classification of a status, the validation of stage transitions, the payment arithmetic, the
stock reservation handler, the negotiation and rejection handlers, the service visit
handlers, the wrapper `act` with its logging, and the view cursor with the gates of the stage
panels.

Conventions of the embedding.

* JavaScript numbers are idealised as exact rationals (`ℚ`); `NaN` and rounding are not modelled.
* A form value that is either the empty string / `undefined` or a number is an `Option ℚ`;
  `Number(x || 0)` is `numOr0 x`.
* A string that may be empty is a `String`, the empty string being the falsy value.
* A JavaScript object used as a map (`rolePrices`, `roleDiscounts`) is an association list in
  insertion order.
* A JavaScript object used as a map (`rolePrices`, `roleDiscounts`) lists keys that look like
  integers first; the embedding keeps insertion order, which the sums taken over
  `Object.values` do not depend on.
* `new Date().toISOString()` is a parameter `now` of the handler that reads the clock; the
  reads of the clock made by one handler give one value.
* Each `onClick` handler is embedded as the function that builds the payload it sends to the
  job store; the rendering condition of a button and its `disabled` attribute are embedded as
  `rendered` and `disabled`.
* An `async` function with `try` / `catch` is embedded as a function that returns the state it
  leaves together with the error in flight, if any; the answers of the collaborators it awaits
  are parameters.
-/

namespace JobsList

/-! ## Numbers and small JavaScript idioms -/

/-- The value of `Number(x || 0)` for a form value `x` that is a number or empty. -/
def numOr0 (x : Option ℚ) : ℚ := x.getD 0

/-- The value of `a || b` for numbers: `b` when `a` is zero. -/
def numOrElse (a b : ℚ) : ℚ := if a = 0 then b else a

/-- The value of `s || d` for strings: `d` when `s` is empty. -/
def strOr (s d : String) : String := if s = "" then d else s

/-- Truthiness of a form value that is a number or empty: `0` and the empty value are falsy. -/
def truthyNum (x : Option ℚ) : Bool :=
  match x with
  | some v => decide (v ≠ 0)
  | none => false

/-- Lookup `o[k]` in an object used as a map. -/
def objGet {α : Type} (o : List (String × α)) (k : String) : Option α :=
  (o.find? (fun kv => kv.1 == k)).map (fun kv => kv.2)

/-- Assignment `o[k] = v` on an object used as a map: an existing key keeps its place. -/
def objSet {α : Type} (o : List (String × α)) (k : String) (v : α) : List (String × α) :=
  if o.any (fun kv => kv.1 == k) then o.map (fun kv => if kv.1 == k then (k, v) else kv)
  else o ++ [(k, v)]

/-- The list `Object.values(o)`. -/
def objValues {α : Type} (o : List (String × α)) : List α := o.map (fun kv => kv.2)

/-! ## Stage flows -/

/-- One entry of `STAGE_FLOW` / `SERVICE_STAGE_FLOW`. -/
structure Stage where
  id : String
  label : String
  statuses : List String
  deriving DecidableEq, Repr

def STAGE_FLOW : List Stage :=
  [ { id := "measure", label := "Ölçü/Keşif",
      statuses := ["OLCU_RANDEVU_BEKLIYOR", "OLCU_RANDEVULU", "OLCU_ALINDI",
        "MUSTERI_OLCUSU_BEKLENIYOR", "MUSTERI_OLCUSU_YUKLENDI"] },
    { id := "pricing", label := "Fiyatlandırma", statuses := ["FIYATLANDIRMA", "FIYAT_VERILDI"] },
    { id := "agreement", label := "Anlaşma",
      statuses := ["ANLASMA_YAPILIYOR", "ANLASMA_TAMAMLANDI"] },
    { id := "stock", label := "Stok/Rezervasyon", statuses := ["STOK_BEKLIYOR"] },
    { id := "production", label := "Üretim",
      statuses := ["URETIME_HAZIR", "URETIMDE", "ANLASMADA"] },
    { id := "assembly", label := "Montaj", statuses := ["MONTAJA_HAZIR", "MONTAJ_TERMIN"] },
    { id := "finance", label := "Finans Kapanış", statuses := ["MUHASEBE_BEKLIYOR", "KAPALI"] } ]

def SERVICE_STAGE_FLOW : List Stage :=
  [ { id := "service_schedule", label := "Randevu", statuses := ["SERVIS_RANDEVU_BEKLIYOR"] },
    { id := "service_start", label := "Başlat", statuses := ["SERVIS_RANDEVULU"] },
    { id := "service_work", label := "Servis",
      statuses := ["SERVIS_YAPILIYOR", "SERVIS_DEVAM_EDIYOR"] },
    { id := "service_payment", label := "Ödeme", statuses := ["SERVIS_ODEME_BEKLIYOR"] },
    { id := "service_done", label := "Tamamlandı", statuses := ["SERVIS_KAPALI"] } ]

/-- The stage of `flow` owning `status`, else the first stage (`flow.find(..) || flow[0]`);
`none` only for an empty flow, where JavaScript yields `undefined`. -/
def findStageByStatusForFlow (status : String) (flow : List Stage) : Option Stage :=
  match flow.find? (fun stage => stage.statuses.contains status) with
  | some stage => some stage
  | none => flow.head?

/-- The flow selected by `startType`: `isServiceJob ? SERVICE_STAGE_FLOW : STAGE_FLOW`. -/
def activeFlow (startType : String) : List Stage :=
  if startType = "SERVIS" then SERVICE_STAGE_FLOW else STAGE_FLOW

/-- The module-level `findStageByStatus`: `STAGE_FLOW.find(..) || STAGE_FLOW[0]`. -/
def findStageByStatus (status : String) : Option Stage :=
  match STAGE_FLOW.find? (fun stage => stage.statuses.contains status) with
  | some stage => some stage
  | none => STAGE_FLOW.head?

/-- The value of `l.findIndex(p)`: the index of the first element satisfying `p`, or `-1`. -/
def findIndex {α : Type} (p : α → Bool) (l : List α) : Int :=
  match l.findIdx? p with
  | some i => (i : Int)
  | none => -1

/-! ## Data model -/

/-- A work category of a job; `id` is `none` when the role carries no id. -/
structure Role where
  id : Option String
  name : String
  deriving DecidableEq, Repr

/-- The key `role.id || role.name`. -/
def roleKey (role : Role) : String :=
  match role.id with
  | some i => strOr i role.name
  | none => role.name

/-- The entry `job.roleFiles[roleKey]`: the uploaded drawings of one role. -/
structure RoleFiles where
  measure : List String
  technical : List String
  deriving DecidableEq, Repr

/-- One line of `inputs.chequeLines`. -/
structure ChequeLine where
  amount : Option ℚ
  due : String
  bank : String
  branch : String
  number : String
  deriving DecidableEq, Repr

/-- One entry of `offer.negotiationHistory`. -/
structure NegotiationRecord where
  date : String
  originalTotal : ℚ
  discountTotal : ℚ
  finalTotal : ℚ
  roleDiscounts : List (String × Option ℚ)
  deriving DecidableEq, Repr

mutual
/-- The record `job.offer`; an absent key is `none`. -/
inductive Offer where
  | mk (total : Option ℚ) (rolePrices : Option (List (String × Option ℚ)))
      (notifiedDate : Option String) (negotiationHistory : Option (List NegotiationRecord))
      (agreedDate : Option String) (orderNo : Option String) (cariCode : Option String)
      (reactivatedAt : Option String) (reactivatedFrom : Option Rejection) : Offer
/-- The record `job.rejection`. -/
inductive Rejection where
  | mk (category : String) (reason : String) (followUpDate : Option String) (date : String)
      (lastOffer : Option Offer) : Rejection
end

namespace Offer

/-- The empty object `{}`. -/
def empty : Offer := .mk none none none none none none none none none

def total : Offer → Option ℚ
  | .mk t _ _ _ _ _ _ _ _ => t

def rolePrices : Offer → Option (List (String × Option ℚ))
  | .mk _ r _ _ _ _ _ _ _ => r

def notifiedDate : Offer → Option String
  | .mk _ _ n _ _ _ _ _ _ => n

def negotiationHistory : Offer → Option (List NegotiationRecord)
  | .mk _ _ _ h _ _ _ _ _ => h

def agreedDate : Offer → Option String
  | .mk _ _ _ _ a _ _ _ _ => a

def orderNo : Offer → Option String
  | .mk _ _ _ _ _ o _ _ _ => o

def cariCode : Offer → Option String
  | .mk _ _ _ _ _ _ c _ _ => c

def reactivatedAt : Offer → Option String
  | .mk _ _ _ _ _ _ _ r _ => r

def reactivatedFrom : Offer → Option Rejection
  | .mk _ _ _ _ _ _ _ _ r => r

end Offer

namespace Rejection

def category : Rejection → String
  | .mk c _ _ _ _ => c

def reason : Rejection → String
  | .mk _ r _ _ _ => r

def followUpDate : Rejection → Option String
  | .mk _ _ f _ _ => f

def date : Rejection → String
  | .mk _ _ _ d _ => d

def lastOffer : Rejection → Option Offer
  | .mk _ _ _ _ l => l

end Rejection

/-- One entry of `job.service.visits`. -/
structure Visit where
  id : Nat
  appointmentDate : String
  appointmentTime : String
  note : Option String := none
  visitedAt : Option String := none
  status : String
  workNote : Option String := none
  materials : Option String := none
  extraCost : Option ℚ := none
  completedAt : Option String := none
  deriving DecidableEq, Repr

/-- The record `service.payments`. -/
structure ServicePayments where
  cash : ℚ
  card : ℚ
  transfer : ℚ
  deriving DecidableEq, Repr

/-- The record `service.discount`, `null` being `none`. -/
structure Discount where
  amount : ℚ
  note : String
  deriving DecidableEq, Repr

/-- The record `job.service`; an absent key is `none`. -/
structure Service where
  fixedFee : Option ℚ := none
  note : Option String := none
  visits : Option (List Visit) := none
  totalExtraCost : Option ℚ := none
  totalCost : Option ℚ := none
  payments : Option ServicePayments := none
  discount : Option Discount := none
  paymentStatus : Option String := none
  completedAt : Option String := none
  deriving DecidableEq, Repr

/-- The record `job.approval.paymentPlan`, the payment plan stored when the agreement was
completed; an absent key is `none`. -/
structure ApprovalPlan where
  cash : Option ℚ := none
  card : Option ℚ := none
  cheque : Option ℚ := none
  afterDelivery : Option ℚ := none
  deriving DecidableEq, Repr

/-- The job handed to `JobStepper`. It has gone through `normalizeJob`, so `roles` is a list and
`offer` is an object (`Offer.empty` for `{}`); `status` is the empty string when absent. -/
structure Job where
  id : String
  status : String
  startType : String
  roles : List Role := []
  roleFiles : List (String × RoleFiles) := []
  offer : Offer := Offer.empty
  rejection : Option Rejection := none
  service : Option Service := none
  approval : Option ApprovalPlan := none

/-- The form state `inputs` of `JobStepper`, with the initial values of its `useState`. -/
structure Inputs where
  measureNote : String := ""
  appointment : String := ""
  measureConfirmed : Bool := false
  offerTotal : Option ℚ := none
  pricingNotifiedDate : String := ""
  rejectionReason : String := ""
  rejectionCategory : String := ""
  rejectionFollowUp : String := ""
  showRejectionModal : Bool := false
  roleDiscounts : List (String × Option ℚ) := []
  showNegotiationPanel : Bool := false
  payCash : Option ℚ := none
  payCard : Option ℚ := none
  payAfter : Option ℚ := none
  chequeLines : List ChequeLine := []
  stockReady : Bool := true
  stockNote : String := ""
  productionStatus : String := "URETIMDE"
  agreementDate : String := ""
  rolePrices : List (String × Option ℚ) := []
  serviceAppointmentDate : String := ""
  serviceAppointmentTime : String := "10:00"
  serviceFixedFee : Option ℚ := none
  serviceNote : String := ""
  serviceVisitDate : String := ""
  serviceVisitTime : String := ""
  serviceWorkNote : String := ""
  serviceMaterials : String := ""
  serviceExtraCost : Option ℚ := none
  servicePaymentCash : Option ℚ := none
  servicePaymentCard : Option ℚ := none
  servicePaymentTransfer : Option ℚ := none
  serviceDiscount : Option ℚ := none
  serviceDiscountNote : String := ""
  serviceNewAppointmentDate : String := ""
  serviceNewAppointmentTime : String := "10:00"
  serviceNewAppointmentNote : String := ""
  assemblyDate : String := ""
  assemblyNote : String := ""
  assemblyTeam : String := ""
  financeTotal : Option ℚ := none
  financeCash : Option ℚ := none
  financeCard : Option ℚ := none
  financeCheque : Option ℚ := none
  discountAmount : Option ℚ := none
  discountNote : String := ""

/-! ## Payment arithmetic -/

/-- The memo `chequeTotal`: `inputs.chequeLines.reduce((sum, c) => sum + Number(c.amount || 0), 0)`. -/
def chequeTotal (inputs : Inputs) : ℚ :=
  inputs.chequeLines.foldl (fun sum c => sum + numOr0 c.amount) 0

/-- The memo `paymentTotal`. -/
def paymentTotal (inputs : Inputs) : ℚ :=
  numOr0 inputs.payCash + numOr0 inputs.payCard + chequeTotal inputs + numOr0 inputs.payAfter

/-! ## Updates sent to the job store -/

/-- The second argument of `updateJobStatus(job.id, { ... })`; a key that the handler does not
write is `none`. For `rejection`, `some none` stands for the key written with `null`, which
would clear the record, and `some (some r)` for the key written with the record `r`. -/
structure JobPatch where
  status : Option String := none
  offer : Option Offer := none
  rejection : Option (Option Rejection) := none
  service : Option Service := none

/-- Modelled from the spec: `updateJobStatus(id, {status, ...fields})` of the job store
(`services/dataService`, not part of the sources) "returns the full updated Job snapshot": the
keys carried by the update replace those of the job and every other key of the job is kept. -/
def applyPatch (job : Job) (patch : JobPatch) : Job :=
  { job with
    status := patch.status.getD job.status
    offer := patch.offer.getD job.offer
    rejection := match patch.rejection with
      | some r => r
      | none => job.rejection
    service := match patch.service with
      | some sv => some sv
      | none => job.service }

/-! ## Pricing decision: negotiation, rejection, reactivation -/

/-- The value of `Number(prices[key]) || 0` for an object of prices. -/
def priceOf (prices : List (String × Option ℚ)) (key : String) : ℚ :=
  numOr0 ((objGet prices key).getD none)

/-- The local `rolePrices` of the `FIYAT_VERILDI` block: `job.offer?.rolePrices || {}`. -/
def offerRolePrices (job : Job) : List (String × Option ℚ) :=
  job.offer.rolePrices.getD []

/-- The local `originalTotal` of the `FIYAT_VERILDI` block. -/
def originalTotal (job : Job) : ℚ :=
  numOrElse (numOr0 job.offer.total)
    (job.roles.foldl (fun sum role => sum + priceOf (offerRolePrices job) (roleKey role)) 0)

/-- The local `totalDiscount` of the `FIYAT_VERILDI` block. -/
def totalDiscount (inputs : Inputs) : ℚ :=
  (objValues inputs.roleDiscounts).foldl (fun sum val => sum + numOr0 val) 0

/-- The local `finalTotal` of the `FIYAT_VERILDI` block. -/
def finalTotal (job : Job) (inputs : Inputs) : ℚ :=
  originalTotal job - totalDiscount inputs

/-- The local `history` of the negotiation handler: `job.offer?.negotiationHistory || []`. -/
def negotiationHistoryOf (job : Job) : List NegotiationRecord :=
  job.offer.negotiationHistory.getD []

/-- The record appended by the negotiation handler. -/
def negotiationRecord (job : Job) (inputs : Inputs) (now : String) : NegotiationRecord :=
  { date := now, originalTotal := originalTotal job, discountTotal := totalDiscount inputs,
    finalTotal := finalTotal job inputs, roleDiscounts := inputs.roleDiscounts }

/-- The local `newHistory` of the negotiation handler. -/
def newHistory (job : Job) (inputs : Inputs) (now : String) : List NegotiationRecord :=
  negotiationHistoryOf job ++ [negotiationRecord job inputs now]

/-- The local `newRolePrices` of the negotiation handler, filled role by role. -/
def newRolePrices (job : Job) (inputs : Inputs) : List (String × Option ℚ) :=
  job.roles.foldl
    (fun acc role =>
      objSet acc (roleKey role)
        (some (priceOf (offerRolePrices job) (roleKey role)
          - priceOf inputs.roleDiscounts (roleKey role))))
    []

/-- The update sent by 'Bu Fiyatla Anlaşıldı': the offer is `job.offer` with `total`,
`rolePrices`, `negotiationHistory` and `agreedDate` overwritten. -/
def negotiationPayload (job : Job) (inputs : Inputs) (now : String) : JobPatch :=
  { status := some "ANLASMA_YAPILIYOR",
    offer := some
      (match job.offer with
        | .mk _ _ notified _ _ orderNo cariCode reactivatedAt reactivatedFrom =>
          .mk (some (finalTotal job inputs)) (some (newRolePrices job inputs)) notified
            (some (newHistory job inputs now)) (some now) orderNo cariCode reactivatedAt
            reactivatedFrom) }

/-- The update sent by 'İşi Anlaşılamadı Olarak İşaretle'. -/
def rejectionPayload (job : Job) (inputs : Inputs) (now : String) : JobPatch :=
  { status := some "ANLASILAMADI",
    rejection := some (some
      (.mk inputs.rejectionCategory inputs.rejectionReason
        (if inputs.rejectionFollowUp = "" then none else some inputs.rejectionFollowUp) now
        (some job.offer))) }

/-- The local `lastOffer` of the `ANLASILAMADI` block: `job.rejection?.lastOffer || job.offer`. -/
def lastOffer (job : Job) : Offer :=
  match job.rejection with
  | some r =>
    match r.lastOffer with
    | some o => o
    | none => job.offer
  | none => job.offer

/-- The update sent by 'İşi Yeniden Aktifleştir': the offer is `lastOffer` with the stamps
`reactivatedAt` and `reactivatedFrom` written. -/
def reactivationPayload (job : Job) (now : String) : JobPatch :=
  { status := some "FIYAT_VERILDI",
    offer := some
      (match lastOffer job with
        | .mk total rolePrices notified history agreed orderNo cariCode _ _ =>
          .mk total rolePrices notified history agreed orderNo cariCode (some now)
            job.rejection) }

/-! ## Service visits -/

/-- The copy `[...(job.service?.visits || [])]` taken by the service handlers. -/
def serviceVisits (job : Job) : List Visit :=
  match job.service with
  | some sv => sv.visits.getD []
  | none => []

/-- The spread `{ ...job.service }`. -/
def serviceOf (job : Job) : Service :=
  job.service.getD {}

/-- The assignment `visits[idx] = f(visits[idx])` at `idx = visits.findIndex(p)`, skipped when
no element satisfies `p`. -/
def updateFirst {α : Type} (p : α → Bool) (f : α → α) : List α → List α
  | [] => []
  | a :: rest => if p a then f a :: rest else a :: updateFirst p f rest

/-- The update sent by 'Randevuyu Kaydet ve Onayla' of the schedule stage. -/
def schedulePayload (job : Job) (inputs : Inputs) : JobPatch :=
  { status := some "SERVIS_RANDEVULU",
    service := some
      { serviceOf job with
        fixedFee := some (numOr0 inputs.serviceFixedFee)
        note := some inputs.serviceNote
        visits := some
          [{ id := 1, appointmentDate := inputs.serviceAppointmentDate,
             appointmentTime := strOr inputs.serviceAppointmentTime "10:00",
             status := "scheduled" }] } }

/-- The visits written by 'Servise Başla'; `today` and `clock` are the date and time read from
the system clock. -/
def startVisits (visits : List Visit) (inputs : Inputs) (today clock : String) : List Visit :=
  updateFirst (fun v => v.status == "scheduled")
    (fun v =>
      { v with
        visitedAt := some (strOr inputs.serviceVisitDate today ++ "T"
          ++ strOr inputs.serviceVisitTime clock)
        status := "in_progress" })
    visits

/-- The update sent by 'Servise Başla'. -/
def startPayload (job : Job) (inputs : Inputs) (today clock : String) : JobPatch :=
  { status := some "SERVIS_YAPILIYOR",
    service := some
      { serviceOf job with visits := some (startVisits (serviceVisits job) inputs today clock) } }

/-- The visits written by both completion buttons of the work stage. -/
def completeVisits (visits : List Visit) (inputs : Inputs) (now : String) : List Visit :=
  updateFirst (fun v => v.status == "in_progress")
    (fun v =>
      { v with
        workNote := some inputs.serviceWorkNote
        materials := some inputs.serviceMaterials
        extraCost := some (numOr0 inputs.serviceExtraCost)
        status := "completed"
        completedAt := some now })
    visits

/-- The update sent by 'Servis Devam Ediyor (Yeni Randevu)' of the work stage. -/
def completeContinuePayload (job : Job) (inputs : Inputs) (now : String) : JobPatch :=
  { status := some "SERVIS_DEVAM_EDIYOR",
    service := some
      { serviceOf job with visits := some (completeVisits (serviceVisits job) inputs now) } }

/-- The local `totalExtraCost` of 'Ödemeye Geç'. -/
def visitsExtraCost (visits : List Visit) : ℚ :=
  visits.foldl (fun sum v => sum + numOr0 v.extraCost) 0

/-- The update sent by 'Ödemeye Geç'. -/
def finalizePayload (job : Job) (inputs : Inputs) (now : String) : JobPatch :=
  let visits := completeVisits (serviceVisits job) inputs now
  let totalExtraCost := visitsExtraCost visits
  { status := some "SERVIS_ODEME_BEKLIYOR",
    service := some
      { serviceOf job with
        visits := some visits
        totalExtraCost := some totalExtraCost
        totalCost := some (numOr0 (serviceOf job).fixedFee + totalExtraCost) } }

/-- The local `newVisit` of the new-appointment handler of `SERVIS_DEVAM_EDIYOR`. -/
def newVisit (visits : List Visit) (inputs : Inputs) : Visit :=
  { id := visits.length + 1,
    appointmentDate := inputs.serviceNewAppointmentDate,
    appointmentTime := strOr inputs.serviceNewAppointmentTime "10:00",
    note := some inputs.serviceNewAppointmentNote,
    visitedAt :=
      if inputs.serviceVisitDate = "" then none
      else some (inputs.serviceVisitDate ++ "T" ++ strOr inputs.serviceVisitTime "10:00"),
    status := if inputs.serviceVisitDate = "" then "scheduled" else "in_progress" }

/-- The visits after `visits.push(newVisit)`. -/
def continueVisits (visits : List Visit) (inputs : Inputs) : List Visit :=
  visits ++ [newVisit visits inputs]

/-- The update sent by the new-appointment button of `SERVIS_DEVAM_EDIYOR`. -/
def continuePayload (job : Job) (inputs : Inputs) : JobPatch :=
  { status := some (if inputs.serviceVisitDate = "" then "SERVIS_RANDEVULU" else "SERVIS_YAPILIYOR"),
    service := some
      { serviceOf job with visits := some (continueVisits (serviceVisits job) inputs) } }

/-- The steps of a service job that rewrite the visit list once the first appointment exists:
start a visit, complete a visit (either button) and continue with a new appointment. -/
inductive VisitOp where
  | start (inputs : Inputs) (today clock : String)
  | complete (inputs : Inputs) (now : String)
  | continue (inputs : Inputs)

/-- The visit list after one step. -/
def applyVisitOp (visits : List Visit) : VisitOp → List Visit
  | .start inputs today clock => startVisits visits inputs today clock
  | .complete inputs now => completeVisits visits inputs now
  | .continue inputs => continueVisits visits inputs

/-! ## Stock reservation -/

/-- A stock item as returned by `getStockItems`; `onHand` and `reserved` may be missing. -/
structure RawStockItem where
  id : String
  sku : String
  name : String
  onHand : Option ℚ
  reserved : Option ℚ
  critical : ℚ := 0
  unit : String := ""
  supplier : String := ""
  color : String := ""
  deriving DecidableEq, Repr

/-- A stock item of the `stockItems` state: a raw item with the derived field `available`. -/
structure StockItem where
  id : String
  sku : String
  name : String
  onHand : Option ℚ
  reserved : Option ℚ
  available : ℚ
  critical : ℚ := 0
  unit : String := ""
  supplier : String := ""
  color : String := ""
  deriving DecidableEq, Repr

/-- One line of the `reservedLines` state, as built by `addReservedLine`; `available` is the
availability of the stock item when the line was added. -/
structure ReservedLine where
  id : String
  name : String
  sku : String
  qty : ℚ
  unit : String := ""
  available : ℚ
  supplier : String := ""
  color : String := ""
  deriving DecidableEq, Repr

/-- One entry of `payload.pending`: the object `{ ...l, missing: l.qty - l.available }`. -/
structure PendingLine where
  line : ReservedLine
  missing : ℚ
  deriving DecidableEq, Repr

/-- The value of `payload.purchaseNotes`: the note typed by the operator, or else the summary
text generated from the reserved lines. -/
inductive PurchaseNotes where
  | note (text : String)
  | summary (lines : List ReservedLine)
  deriving DecidableEq, Repr

/-- The payload handed to `updateStockStatus`. -/
structure StockPayload where
  ready : Bool
  purchaseNotes : PurchaseNotes
  items : List ReservedLine
  pending : List PendingLine
  deriving DecidableEq, Repr

/-- The state set by `loadStock` from the payload of `getStockItems`. -/
def loadStock (payload : List RawStockItem) : List StockItem :=
  payload.map (fun item =>
    { id := item.id, sku := item.sku, name := item.name, onHand := item.onHand,
      reserved := item.reserved, critical := item.critical, unit := item.unit,
      supplier := item.supplier, color := item.color,
      available := max 0 (numOr0 item.onHand - numOr0 item.reserved) })

/-- The list `payload.pending` of the reservation save. -/
def pendingLines (reservedLines : List ReservedLine) : List PendingLine :=
  (reservedLines.filter (fun l => decide (l.qty > l.available))).map
    (fun l => { line := l, missing := l.qty - l.available })

/-- The payload built by the reservation save ('Rezervasyonu Kaydet'). -/
def stockPayload (inputs : Inputs) (reservedLines : List ReservedLine) : StockPayload :=
  { ready := inputs.stockReady,
    purchaseNotes :=
      if inputs.stockNote = "" then PurchaseNotes.summary reservedLines
      else PurchaseNotes.note inputs.stockNote,
    items := reservedLines,
    pending := pendingLines reservedLines }

/-- The function mapped over `prev` by the `setStockItems` of the reservation save. -/
def reserveItem (stockReady : Bool) (reservedLines : List ReservedLine) (item : StockItem) :
    StockItem :=
  match reservedLines.find? (fun l => l.id == item.id) with
  | none => item
  | some line =>
    let next : StockItem :=
      if stockReady then { item with onHand := some (max 0 (numOr0 item.onHand - line.qty)) }
      else { item with reserved := some (numOr0 item.reserved + line.qty) }
    { next with available := max 0 (numOr0 next.onHand - numOr0 next.reserved) }

/-- The new `stockItems` state after a reservation save. -/
def saveStockItems (stockReady : Bool) (reservedLines : List ReservedLine)
    (prev : List StockItem) : List StockItem :=
  prev.map (reserveItem stockReady reservedLines)

/-- The two operations that write the `stockItems` state. -/
inductive StockOp where
  | load (payload : List RawStockItem)
  | save (stockReady : Bool) (reservedLines : List ReservedLine)

/-- The `stockItems` state after one operation. -/
def applyStockOp (stockItems : List StockItem) : StockOp → List StockItem
  | .load payload => loadStock payload
  | .save stockReady reservedLines => saveStockItems stockReady reservedLines stockItems

/-- The `stockItems` state after a run of operations from the initial state `[]`. -/
def runStockOps (ops : List StockOp) : List StockItem :=
  ops.foldl applyStockOp []

/-! ## Validation of a stage transition -/

/-- The messages pushed by `validateStageTransition`, with the data they interpolate. -/
inductive ValidationError where
  | measureDrawingMissing (roleName : String)
  | technicalDrawingMissing (roleName : String)
  | measureNotConfirmed
  | offerTotalMissing
  | planMismatch (planTotal offerTotal : ℚ)
  deriving DecidableEq, Repr

/-- The body of the `job.roles.forEach` of the `FIYATLANDIRMA` rule, for one role. -/
def roleFileErrors (job : Job) (role : Role) : List ValidationError :=
  let roleFiles := (objGet job.roleFiles (roleKey role)).getD { measure := [], technical := [] }
  (if roleFiles.measure.length = 0 then [ValidationError.measureDrawingMissing role.name] else [])
    ++ (if roleFiles.technical.length = 0 then [ValidationError.technicalDrawingMissing role.name]
        else [])

/-- The array `errors` built by `validateStageTransition(targetStage)`, which the function stores
with `setValidationErrors`. -/
def validationErrors (job : Job) (inputs : Inputs) (targetStage : String) :
    List ValidationError :=
  let e1 : List ValidationError :=
    if targetStage = "FIYATLANDIRMA" then
      (if job.startType = "MUSTERI_OLCUSU" then
          job.roles.foldl (fun errors role => errors ++ roleFileErrors job role) []
        else [])
        ++ (if job.startType = "OLCU" ∧ inputs.measureConfirmed = false then
              [ValidationError.measureNotConfirmed]
            else [])
    else []
  let e2 : List ValidationError :=
    if targetStage = "TEKLIF_HAZIR" then
      let rolePricesTotal :=
        (objValues inputs.rolePrices).foldl (fun sum val => sum + numOr0 val) 0
      let total := numOrElse rolePricesTotal (numOr0 inputs.offerTotal)
      if total = 0 ∨ total ≤ 0 then [ValidationError.offerTotalMissing] else []
    else []
  let e3 : List ValidationError :=
    if targetStage = "ONAY_BEKLIYOR" then
      let planTotal :=
        numOr0 inputs.payCash + numOr0 inputs.payCard + chequeTotal inputs + numOr0 inputs.payAfter
      let offerTotal := numOr0 job.offer.total
      if |planTotal - offerTotal| > 1 / 100 then [ValidationError.planMismatch planTotal offerTotal]
      else []
    else []
  e1 ++ e2 ++ e3

/-- The result of `validateStageTransition(targetStage)`: `errors.length === 0`. -/
def validateStageTransition (job : Job) (inputs : Inputs) (targetStage : String) : Bool :=
  (validationErrors job inputs targetStage).length == 0

/-! ## Service payment -/

/-- The local `totalCost` of the payment panel:
`job.service?.totalCost || (fixedFee + totalExtraCost)`, all three read from the stored service
record. -/
def servicePaymentTotalCost (job : Job) : ℚ :=
  let fixedFee := numOr0 (serviceOf job).fixedFee
  let totalExtraCost := numOr0 (serviceOf job).totalExtraCost
  numOrElse (numOr0 (serviceOf job).totalCost) (fixedFee + totalExtraCost)

/-- The local `totalReceived` of the payment panel: cash + card + transfer + discount. -/
def serviceTotalReceived (inputs : Inputs) : ℚ :=
  numOr0 inputs.servicePaymentCash + numOr0 inputs.servicePaymentCard
    + numOr0 inputs.servicePaymentTransfer + numOr0 inputs.serviceDiscount

/-- The local `balance` of the payment panel. -/
def serviceBalance (job : Job) (inputs : Inputs) : ℚ :=
  servicePaymentTotalCost job - serviceTotalReceived inputs

/-- The `disabled` attribute of 'Servisi Kapat'. -/
def serviceCloseDisabled (actionLoading : Bool) (job : Job) (inputs : Inputs) : Bool :=
  actionLoading || decide (serviceBalance job inputs ≠ 0)
    || (decide (numOr0 inputs.serviceDiscount > 0) && decide (inputs.serviceDiscountNote = ""))

/-- The value `discount > 0 ? { amount: discount, note } : null` of the payment panel. -/
def serviceDiscountOf (inputs : Inputs) : Option Discount :=
  if numOr0 inputs.serviceDiscount > 0 then
    some { amount := numOr0 inputs.serviceDiscount, note := inputs.serviceDiscountNote }
  else none

/-- The value `payments` written by the payment panel. -/
def servicePaymentsOf (inputs : Inputs) : ServicePayments :=
  { cash := numOr0 inputs.servicePaymentCash, card := numOr0 inputs.servicePaymentCard,
    transfer := numOr0 inputs.servicePaymentTransfer }

/-- The update sent by 'Servis Devam Ediyor' of the payment stage. -/
def paymentContinuePayload (job : Job) (inputs : Inputs) : JobPatch :=
  { status := some "SERVIS_DEVAM_EDIYOR",
    service := some
      { serviceOf job with
        payments := some (servicePaymentsOf inputs)
        discount := serviceDiscountOf inputs } }

/-- The update sent by 'Servisi Kapat'. -/
def serviceClosePayload (job : Job) (inputs : Inputs) (now : String) : JobPatch :=
  { status := some "SERVIS_KAPALI",
    service := some
      { serviceOf job with
        payments := some (servicePaymentsOf inputs)
        discount := serviceDiscountOf inputs
        paymentStatus := some "paid"
        completedAt := some now } }

/-! ## The actions offered by the stepper -/

/-- One entry of the `jobDocuments` state. -/
structure Document where
  id : String
  type : String
  deriving DecidableEq, Repr

/-- The state of the stepper that decides which buttons are shown and enabled: the view cursor
`selectedStage`, the flag `actionLoading`, the form `inputs`, the reserved lines and the
documents of the job. -/
structure View where
  selectedStage : String
  actionLoading : Bool := false
  inputs : Inputs := {}
  reservedLines : List ReservedLine := []
  jobDocuments : List Document := []

/-- The readings of the system clock used by the handlers: `new Date().toISOString()`, its date
part, and `new Date().toTimeString().slice(0, 5)`. -/
structure Clock where
  now : String
  today : String
  time : String

/-- The payment plan sent by the agreement stage. -/
structure PaymentPlan where
  cash : ℚ
  card : ℚ
  cheque : ℚ
  afterDelivery : ℚ
  cheques : List ChequeLine
  deriving DecidableEq, Repr

/-- A call of the job store made by a handler of the stepper, with its payload. -/
inductive Request where
  | updateJobStatus (patch : JobPatch)
  | updateJobMeasure (measureNote : String) (appointment : String) (status : String)
  | updateProductionStatus (status : String) (agreementDate : Option String)
  | startJobApproval (paymentPlan : PaymentPlan) (contractUrl : Option String)
  | updateStockStatus (payload : StockPayload)
  | scheduleAssembly (date : String) (note : String) (team : String)
  | completeAssembly (date : String) (note : String) (team : String)
  | closeFinance (total : ℚ) (cash : ℚ) (card : ℚ) (cheque : ℚ) (discount : Option Discount)

/-- The `status` key of the payload of a request, when the payload has one. -/
def Request.status : Request → Option String
  | .updateJobStatus patch => patch.status
  | .updateJobMeasure _ _ status => some status
  | .updateProductionStatus status _ => some status
  | .startJobApproval _ _ => none
  | .updateStockStatus _ => none
  | .scheduleAssembly _ _ _ => none
  | .completeAssembly _ _ _ => none
  | .closeFinance _ _ _ _ _ => none

/-- The buttons of the stepper whose handler goes through `act`, in the order of the source. -/
inductive Action where
  | saveMeasureAppointment
  | measureTaken
  | goToPricing
  | priceNotified
  | backToPricing
  | confirmNegotiation
  | approvePrice
  | reject
  | reactivate
  | completeAgreement
  | saveReservation
  | updateProduction
  | scheduleAssembly
  | completeAssembly
  | closeFinance
  | scheduleService
  | startService
  | newServiceAppointment
  | completeAndContinue
  | completeAndFinalize
  | paymentContinue
  | closeService
  deriving DecidableEq, Repr

/-- The memo `offerTotalValue`: `local || fromJob || 0`. -/
def offerTotalValue (job : Job) (inputs : Inputs) : ℚ :=
  numOrElse (numOr0 inputs.offerTotal) (numOr0 job.offer.total)

/-- The local `allComplete` of the measure stage: every role has a measurement drawing and a
technical drawing among the documents of the job. -/
def allComplete (job : Job) (jobDocuments : List Document) : Bool :=
  job.roles.all (fun role =>
    jobDocuments.any (fun d => d.type == "measure_" ++ roleKey role)
      && jobDocuments.any (fun d => d.type == "technical_" ++ roleKey role))

/-- The condition under which the button of an action is rendered: the `isStageSelected` gate
of its panel and the conditions on the job inside the panel. -/
def rendered (job : Job) (view : View) : Action → Bool
  | .saveMeasureAppointment =>
    view.selectedStage == "measure" && job.status == "OLCU_RANDEVU_BEKLIYOR"
      && job.startType != "MUSTERI_OLCUSU"
  | .measureTaken => view.selectedStage == "measure" && job.status == "OLCU_RANDEVULU"
  | .goToPricing =>
    view.selectedStage == "measure"
      && (job.status == "OLCU_ALINDI" || job.startType == "MUSTERI_OLCUSU")
      && decide (job.roles.length > 0) && allComplete job view.jobDocuments
  | .priceNotified => view.selectedStage == "pricing" && job.status == "FIYATLANDIRMA"
  | .backToPricing =>
    view.selectedStage == "pricing" && job.status == "FIYAT_VERILDI"
      && decide (originalTotal job = 0)
  | .confirmNegotiation =>
    view.selectedStage == "pricing" && job.status == "FIYAT_VERILDI"
      && (view.inputs.showNegotiationPanel && decide (originalTotal job > 0))
  | .approvePrice =>
    view.selectedStage == "pricing" && job.status == "FIYAT_VERILDI"
      && !(view.inputs.showNegotiationPanel && decide (originalTotal job > 0))
  | .reject =>
    view.selectedStage == "pricing" && job.status == "FIYAT_VERILDI"
      && view.inputs.showRejectionModal
  | .reactivate => view.selectedStage == "pricing" && job.status == "ANLASILAMADI"
  | .completeAgreement => view.selectedStage == "agreement"
  | .saveReservation => view.selectedStage == "approval"
  | .updateProduction => view.selectedStage == "production"
  | .scheduleAssembly => view.selectedStage == "assembly"
  | .completeAssembly => view.selectedStage == "assembly"
  | .closeFinance => view.selectedStage == "finance"
  | .scheduleService => job.startType == "SERVIS" && view.selectedStage == "service_schedule"
  | .startService => job.startType == "SERVIS" && view.selectedStage == "service_start"
  | .newServiceAppointment =>
    job.startType == "SERVIS" && view.selectedStage == "service_work"
      && job.status == "SERVIS_DEVAM_EDIYOR"
  | .completeAndContinue =>
    job.startType == "SERVIS" && view.selectedStage == "service_work"
      && job.status == "SERVIS_YAPILIYOR"
  | .completeAndFinalize =>
    job.startType == "SERVIS" && view.selectedStage == "service_work"
      && job.status == "SERVIS_YAPILIYOR"
  | .paymentContinue => job.startType == "SERVIS" && view.selectedStage == "service_payment"
  | .closeService => job.startType == "SERVIS" && view.selectedStage == "service_payment"

/-- The `disabled` attribute of the button of an action. -/
def disabled (job : Job) (view : View) : Action → Bool
  | .saveMeasureAppointment => view.actionLoading || view.inputs.appointment == ""
  | .priceNotified =>
    view.actionLoading || (objValues view.inputs.rolePrices).all (fun v => !truthyNum v)
  | .reject =>
    view.actionLoading || view.inputs.rejectionReason == ""
      || view.inputs.rejectionCategory == ""
  | .completeAgreement =>
    view.actionLoading || decide (paymentTotal view.inputs ≠ offerTotalValue job view.inputs)
  | .saveReservation => view.actionLoading || view.reservedLines.length == 0
  | .scheduleService =>
    view.actionLoading || view.inputs.serviceAppointmentDate == ""
      || !truthyNum view.inputs.serviceFixedFee
  | .newServiceAppointment =>
    view.actionLoading || view.inputs.serviceNewAppointmentDate == ""
  | .completeAndContinue => view.actionLoading || view.inputs.serviceWorkNote == ""
  | .completeAndFinalize => view.actionLoading || view.inputs.serviceWorkNote == ""
  | .closeService => serviceCloseDisabled view.actionLoading job view.inputs
  | _ => view.actionLoading

/-- An action is offered when its button is rendered and enabled. -/
def offered (job : Job) (view : View) (action : Action) : Bool :=
  rendered job view action && !disabled job view action

/-- The update sent by 'Fiyat Müşteriye Bildirildi'. -/
def pricingPayload (inputs : Inputs) (clock : Clock) : JobPatch :=
  { status := some "FIYAT_VERILDI",
    offer := some
      (.mk (some ((objValues inputs.rolePrices).foldl (fun sum val => sum + numOr0 val) 0))
        (some inputs.rolePrices) (some (strOr inputs.pricingNotifiedDate clock.today))
        none none none none none none) }

/-- The update sent by 'Fiyat Onaylandı': `job.offer` with `agreedDate` written. -/
def approvePayload (job : Job) (clock : Clock) : JobPatch :=
  { status := some "ANLASMA_YAPILIYOR",
    offer := some
      (match job.offer with
        | .mk total rolePrices notified history _ orderNo cariCode reactivatedAt reactivatedFrom =>
          .mk total rolePrices notified history (some clock.now) orderNo cariCode reactivatedAt
            reactivatedFrom) }

/-- The request made by the handler of an action, or the message of the error it throws before
calling the store. The date typed in a date field is already in the form `YYYY-MM-DD`, which
`new Date(..).toISOString().slice(0, 10)` returns unchanged. -/
def request (job : Job) (view : View) (clock : Clock) : Action → Except String Request
  | .saveMeasureAppointment =>
    .ok (.updateJobMeasure view.inputs.measureNote view.inputs.appointment "OLCU_RANDEVULU")
  | .measureTaken => .ok (.updateJobStatus { status := some "OLCU_ALINDI" })
  | .goToPricing => .ok (.updateJobStatus { status := some "FIYATLANDIRMA" })
  | .priceNotified => .ok (.updateJobStatus (pricingPayload view.inputs clock))
  | .backToPricing => .ok (.updateJobStatus { status := some "FIYATLANDIRMA" })
  | .confirmNegotiation => .ok (.updateJobStatus (negotiationPayload job view.inputs clock.now))
  | .approvePrice => .ok (.updateJobStatus (approvePayload job clock))
  | .reject => .ok (.updateJobStatus (rejectionPayload job view.inputs clock.now))
  | .reactivate => .ok (.updateJobStatus (reactivationPayload job clock.now))
  | .completeAgreement =>
    if paymentTotal view.inputs ≠ offerTotalValue job view.inputs then
      .error "Ödeme toplamı teklif tutarıyla eşleşmiyor."
    else if view.inputs.chequeLines.foldl (fun sum c => sum + numOr0 c.amount) 0
        ≠ chequeTotal view.inputs then
      .error "Çek parçaları toplamı hatalı."
    else
      .ok (.startJobApproval
        { cash := numOr0 view.inputs.payCash, card := numOr0 view.inputs.payCard,
          cheque := chequeTotal view.inputs, afterDelivery := numOr0 view.inputs.payAfter,
          cheques := view.inputs.chequeLines }
        ((view.jobDocuments.find? (fun d => d.type == "sozlesme")).map (fun d => d.id)))
  | .saveReservation => .ok (.updateStockStatus (stockPayload view.inputs view.reservedLines))
  | .updateProduction =>
    .ok (.updateProductionStatus view.inputs.productionStatus
      (if view.inputs.productionStatus = "ANLASMADA" ∧ view.inputs.agreementDate ≠ "" then
        some view.inputs.agreementDate
      else none))
  | .scheduleAssembly =>
    .ok (.scheduleAssembly view.inputs.assemblyDate view.inputs.assemblyNote
      view.inputs.assemblyTeam)
  | .completeAssembly =>
    .ok (.completeAssembly view.inputs.assemblyDate view.inputs.assemblyNote
      view.inputs.assemblyTeam)
  | .closeFinance =>
    .ok (.closeFinance
      (match view.inputs.financeTotal with
        | some v => if v = 0 then offerTotalValue job view.inputs else v
        | none => offerTotalValue job view.inputs)
      (numOr0 view.inputs.financeCash) (numOr0 view.inputs.financeCard)
      (numOr0 view.inputs.financeCheque)
      (if numOr0 view.inputs.discountAmount > 0 then
        some { amount := numOr0 view.inputs.discountAmount, note := view.inputs.discountNote }
      else none))
  | .scheduleService => .ok (.updateJobStatus (schedulePayload job view.inputs))
  | .startService =>
    .ok (.updateJobStatus (startPayload job view.inputs clock.today clock.time))
  | .newServiceAppointment => .ok (.updateJobStatus (continuePayload job view.inputs))
  | .completeAndContinue =>
    .ok (.updateJobStatus (completeContinuePayload job view.inputs clock.now))
  | .completeAndFinalize => .ok (.updateJobStatus (finalizePayload job view.inputs clock.now))
  | .paymentContinue => .ok (.updateJobStatus (paymentContinuePayload job view.inputs))
  | .closeService => .ok (.updateJobStatus (serviceClosePayload job view.inputs clock.now))

/-- The status written by an action: the `status` key of the payload of its request. -/
def targetStatus (job : Job) (view : View) (clock : Clock) (action : Action) : Option String :=
  match request job view clock action with
  | .ok r => r.status
  | .error _ => none

/-! ## Position of a status in a flow -/

/-- The position of `status` in the part `flow` of a flow that starts at stage index `i`: the
index of the first stage that lists it and its index in the list of that stage. -/
def flowPositionFrom (i : Nat) : List Stage → String → Option (Nat × Nat)
  | [], _ => none
  | stage :: rest, status =>
    if stage.statuses.contains status then some (i, stage.statuses.indexOf status)
    else flowPositionFrom (i + 1) rest status

/-- The position of `status` in `flow`, `none` for a status that no stage lists. -/
def flowPosition (flow : List Stage) (status : String) : Option (Nat × Nat) :=
  flowPositionFrom 0 flow status

/-- The position `p` lies before `q`: an earlier stage, or an earlier status of the same stage. -/
def liesBefore (p q : Nat × Nat) : Bool :=
  decide (p.1 < q.1) || (decide (p.1 = q.1) && decide (p.2 < q.2))

/-- The transition from `source` to `target` is backward in `flow`: both statuses are listed
and the target lies before the source. -/
def backward (flow : List Stage) (source target : String) : Bool :=
  match flowPosition flow source, flowPosition flow target with
  | some p, some q => liesBefore q p
  | _, _ => false

/-- The setter `markStage(id)` of the view cursor: `setSelectedStage(id)`. -/
def markStage (view : View) (id : String) : View :=
  { view with selectedStage := id }

/-- The stage ids that the process map renders, each with `onClick={() => markStage(stage.id)}`:
the ids of the active flow. -/
def processMapStages (job : Job) : List String :=
  (activeFlow job.startType).map (fun stage => stage.id)

/-- The action is offered and writes a status that lies before the status of the job in the
active flow. -/
def issuesBackward (job : Job) (view : View) (clock : Clock) (action : Action) : Bool :=
  offered job view action &&
    match targetStatus job view clock action with
    | some target => backward (activeFlow job.startType) job.status target
    | none => false

/-- The option groups of the status filter of the list page: the label of each `<optgroup>`
with the values of its `<option>`s, in the order of the source. -/
def STATUS_FILTER_GROUPS : List (String × List String) :=
  [ ("Ölçü/Keşif",
      ["OLCU_RANDEVU_BEKLIYOR", "OLCU_RANDEVULU", "OLCU_ALINDI", "MUSTERI_OLCUSU_BEKLENIYOR"]),
    ("Fiyatlandırma", ["FIYATLANDIRMA", "FIYAT_VERILDI", "ANLASILAMADI"]),
    ("Anlaşma/Stok", ["ANLASMA_YAPILIYOR", "STOK_BEKLIYOR"]),
    ("Üretim", ["URETIME_HAZIR", "URETIMDE", "ANLASMADA"]),
    ("Montaj", ["MONTAJA_HAZIR", "MONTAJ_TERMIN"]),
    ("Finans", ["MUHASEBE_BEKLIYOR", "KAPALI"]),
    ("Servis",
      ["SERVIS_RANDEVU_BEKLIYOR", "SERVIS_RANDEVULU", "SERVIS_YAPILIYOR", "SERVIS_DEVAM_EDIYOR",
        "SERVIS_ODEME_BEKLIYOR", "SERVIS_KAPALI"]) ]

/-- The position of `status` in `flow` with the statuses that the flow table omits ranked as
the status filter groups them: a status that no stage lists takes its place in the stage whose
label is the label of its filter group, after the statuses that the stage lists. This ranks
`ANLASILAMADI` in the stage `pricing`, after `FIYAT_VERILDI`. -/
def flowPositionRanked (flow : List Stage) (status : String) : Option (Nat × Nat) :=
  match flowPosition flow status with
  | some p => some p
  | none =>
    match STATUS_FILTER_GROUPS.find? (fun group => group.2.contains status) with
    | some group =>
      match flow.findIdx? (fun stage => stage.label == group.1),
          flow.find? (fun stage => stage.label == group.1) with
      | some i, some stage => some (i, stage.statuses.length + group.2.indexOf status)
      | _, _ => none
    | none => none

/-- The transition from `source` to `target` is backward in `flow`, statuses ranked by
`flowPositionRanked`. -/
def backwardRanked (flow : List Stage) (source target : String) : Bool :=
  match flowPositionRanked flow source, flowPositionRanked flow target with
  | some p, some q => liesBefore q p
  | _, _ => false

/-- The status of the job after an action: the status that the payload of its request writes,
or, for a request whose payload carries no status, the status `assigned` by the job store. -/
def resultingStatus (job : Job) (view : View) (clock : Clock) (action : Action)
    (assigned : String) : Option String :=
  match request job view clock action with
  | .ok r => some (r.status.getD assigned)
  | .error _ => none

/-- The local `roleFiles` of the `FIYATLANDIRMA` rule: `job.roleFiles?.[roleKey] || {}`, an
absent list of drawings being the empty list. -/
def roleFilesOf (job : Job) (role : Role) : RoleFiles :=
  (objGet job.roleFiles (roleKey role)).getD { measure := [], technical := [] }

/-! ## The current stage and the state of a stage -/

/-- The local `currentStage` of the stepper:
`findStageByStatusForFlow(job.status || 'OLCU_RANDEVU_BEKLIYOR', activeFlow)`. -/
def currentStage (job : Job) : Option Stage :=
  findStageByStatusForFlow (strOr job.status "OLCU_RANDEVU_BEKLIYOR") (activeFlow job.startType)

/-- The body of `stageState(id)` for a given current stage `current` of `flow`. -/
def stageStateAt (flow : List Stage) (current : Stage) (id : String) : String :=
  let currentIndex := findIndex (fun s => s.id == current.id) flow
  let index := findIndex (fun s => s.id == id) flow
  if index < currentIndex then "done"
  else if index = currentIndex then "current"
  else "pending"

/-- The value of `stageState(id)`; `none` stands for the exception that reading
`currentStage.id` would raise if the flow had no stage. -/
def stageState (job : Job) (id : String) : Option String :=
  (currentStage job).map (fun current => stageStateAt (activeFlow job.startType) current id)

/-! ## Finance closure -/

/-- The local `preReceived` of the finance panel: cash + card + cheque of
`job.approval?.paymentPlan`, the after-delivery part left out. -/
def financePreReceived (job : Job) : ℚ :=
  let plan := job.approval.getD {}
  numOr0 plan.cash + numOr0 plan.card + numOr0 plan.cheque

/-- The local `finishReceived` of the finance panel: cash + card + cheque typed at closing. -/
def financeFinishReceived (inputs : Inputs) : ℚ :=
  numOr0 inputs.financeCash + numOr0 inputs.financeCard + numOr0 inputs.financeCheque

/-- The local `diff` of the finance panel:
`offerTotalValue - (preReceived + finishReceived + discount)`. -/
def financeDiff (job : Job) (inputs : Inputs) : ℚ :=
  offerTotalValue job inputs
    - (financePreReceived job + financeFinishReceived inputs + numOr0 inputs.discountAmount)

/-! ## Currency input -/

/-- The value that `CurrencyInput` hands to `onChange` for a typed text: the digits of the text
read as a number (`Number(numericOnly)`), or the empty value when the text has no digit. -/
def currencyInput (typed : String) : Option ℚ :=
  let numericOnly := typed.toList.filter Char.isDigit
  if numericOnly = [] then none
  else some ((numericOnly.foldl (fun n c => 10 * n + (c.toNat - 48)) 0 : Nat) : ℚ)

/-! ## Average cheque term -/

/-- The value of `Math.round(x)`: the nearest whole number, a half rounded up. -/
def jsRound (x : ℚ) : ℤ := ⌊x + 1 / 2⌋

/-- The local `days` of the `avgChequeDays` memo for one cheque line:
`Math.max(0, Math.round((due - today) / (1000 * 60 * 60 * 24)))`, where `due` is `today` for a
line without a due date. `dateOf` gives the time in milliseconds of `new Date(c.due)` and
`today` that of `new Date()`. -/
def chequeDays (dateOf : String → ℚ) (today : ℚ) (c : ChequeLine) : ℤ :=
  let due := if c.due = "" then today else dateOf c.due
  max 0 (jsRound ((due - today) / (1000 * 60 * 60 * 24)))

/-- The memo `avgChequeDays`. -/
def avgChequeDays (dateOf : String → ℚ) (today : ℚ) (inputs : Inputs) : ℤ :=
  let totalAmount := inputs.chequeLines.foldl (fun sum c => sum + numOr0 c.amount) 0
  if totalAmount ≤ 0 then 0
  else
    let weighted :=
      inputs.chequeLines.foldl
        (fun sum c => sum + numOr0 c.amount * (chequeDays dateOf today c : ℚ)) 0
    jsRound (weighted / totalAmount)

/-! ## The calls of the reservation save -/

/-- A call made by the function that 'Rezervasyonu Kaydet' hands to `act`. -/
inductive StockCall where
  | updateStockStatus (payload : StockPayload)
  | applyLocalStockReservation (lines : List ReservedLine) (ready : Bool)
      (note : PurchaseNotes)
  | createLocalPurchaseOrders (pending : List PendingLine)
  | applyLocalJobPatch (pendingPO : List PendingLine)
  | setPendingPO (pendingPO : List PendingLine)
  | pushLog (action : String) (pending : List PendingLine)
  deriving DecidableEq, Repr

/-- The calls made, in order, by the function that 'Rezervasyonu Kaydet' hands to `act`, for a
run in which `updateStockStatus` answers. The two state writes that follow them
(`setStockItems`, embedded as `saveStockItems`, and `setReservedLines([])`) are left out. -/
def saveReservationCalls (inputs : Inputs) (reservedLines : List ReservedLine) :
    List StockCall :=
  let payload := stockPayload inputs reservedLines
  [StockCall.updateStockStatus payload,
    StockCall.applyLocalStockReservation reservedLines inputs.stockReady payload.purchaseNotes]
    ++ (if payload.pending.length > 0 then
          [StockCall.createLocalPurchaseOrders payload.pending,
            StockCall.applyLocalJobPatch payload.pending,
            StockCall.setPendingPO payload.pending,
            StockCall.pushLog "stock_pending" payload.pending]
        else [StockCall.applyLocalJobPatch [], StockCall.setPendingPO []])

/-! ## Running a transition: `act`, `pushLog` and the view cursor -/

/-- A value caught by a `catch`: a falsy value (`null`, `undefined`), a string, or an object
with its `message` and `detail` (the empty string when the key is absent or falsy) and the
text that `JSON.stringify(err)`, or `String(err)` when that throws, gives for it (the empty
string when it gives `undefined`). -/
inductive Thrown where
  | falsy
  | text (s : String)
  | object (message detail json : String)
  deriving DecidableEq, Repr

/-- The module-level `toMessage(err)`. -/
def toMessage : Thrown → String
  | .falsy => "Bilinmeyen hata"
  | .text s => if s = "" then "Bilinmeyen hata" else s
  | .object message detail json =>
    if message ≠ "" then message
    else if detail ≠ "" then detail
    else json

/-- A job as the job store returns it: `roles` is `none` when it is not an array and `offer` is
`none` when the key is absent. -/
structure RawJob where
  id : String
  status : String
  startType : String
  roles : Option (List Role) := none
  roleFiles : List (String × RoleFiles) := []
  offer : Option Offer := none
  rejection : Option Rejection := none
  service : Option Service := none
  approval : Option ApprovalPlan := none

/-- The module-level `normalizeJob`: `roles` becomes a list and `offer` an object. -/
def normalizeJob (job : RawJob) : Job :=
  { id := job.id, status := job.status, startType := job.startType,
    roles := job.roles.getD [], roleFiles := job.roleFiles,
    offer := job.offer.getD Offer.empty, rejection := job.rejection, service := job.service,
    approval := job.approval }

/-- The argument of `addJobLog`. -/
structure LogEntry where
  jobId : String
  action : String
  detail : String
  meta : List (String × String)
  deriving DecidableEq, Repr

/-- The second argument `logMeta` of `act`: the flag `skipAdvance` and its other keys. -/
structure LogMeta where
  skipAdvance : Bool := false
  fields : List (String × String) := []
  deriving DecidableEq, Repr

/-- A call that leaves the stepper during `act`: the call of the job store made by the
transition function, the callback `onUpdated`, and the two calls of the log store. -/
inductive Call where
  | store
  | onUpdated (job : Job)
  | addJobLog (entry : LogEntry)
  | getJobLogs (jobId : String)

/-- The answers of the log store: each call either returns or throws. -/
structure LogStore where
  addJobLog : LogEntry → Except Thrown Unit
  getJobLogs : String → Except Thrown (List LogEntry)

/-- The state of the stepper that `act` reads and writes: the view (cursor and
`actionLoading`), `actionError`, the `logs` state, and the calls made so far. -/
structure StepperState where
  view : View
  actionError : String := ""
  logs : List LogEntry := []
  calls : List Call := []

/-- The `try` block of `pushLog`: the state it leaves and the error in flight when it is left
by a throw. -/
def pushLogTry (store : LogStore) (st : StepperState) (entry : LogEntry) :
    StepperState × Option Thrown :=
  let st1 := { st with calls := st.calls ++ [Call.addJobLog entry] }
  match store.addJobLog entry with
  | .error err => (st1, some err)
  | .ok _ =>
    let st2 := { st1 with calls := st1.calls ++ [Call.getJobLogs entry.jobId] }
    match store.getJobLogs entry.jobId with
    | .error err => (st2, some err)
    | .ok fresh => ({ st2 with logs := fresh }, none)

/-- `pushLog(action, detail, meta)`: the `try` block followed by `catch (_) {}`. The second
component is the error that leaves `pushLog`. -/
def pushLog (store : LogStore) (st : StepperState) (entry : LogEntry) :
    StepperState × Option Thrown :=
  match pushLogTry store st entry with
  | (st1, some _) => (st1, none)
  | (st1, none) => (st1, none)

/-- `advanceToNextStage(updatedJob)`: the cursor moves to the stage of the new status when that
stage is not the current stage of the job the stepper holds. -/
def advanceToNextStage (job : Job) (view : View) (updatedJob : Job) : View :=
  let flow := if updatedJob.startType = "SERVIS" then SERVICE_STAGE_FLOW else STAGE_FLOW
  match findStageByStatusForFlow updatedJob.status flow, currentStage job with
  | some newStage, some current =>
    if newStage.id ≠ current.id then { view with selectedStage := newStage.id } else view
  | _, _ => view

/-- `shouldAutoAdvance(updatedJob, logMeta)`. -/
def shouldAutoAdvance (_updatedJob : Job) (logMeta : LogMeta) : Bool :=
  if logMeta.skipAdvance then false else true

/-- One run of the function `fn` handed to `act`: the error it throws before calling the job
store (the checks of the agreement handler), the answer of the job store to its call, and the
log entries it pushes itself once the store has answered (the stock and assembly handlers). -/
structure Transition where
  guard : Option Thrown := none
  remote : Except Thrown RawJob
  logs : List LogEntry := []

/-- The run of `fn()`: the state it leaves and what it returns or throws. -/
def runTransition (store : LogStore) (st : StepperState) (fn : Transition) :
    StepperState × Except Thrown RawJob :=
  match fn.guard with
  | some err => (st, .error err)
  | none =>
    let st1 := { st with calls := st.calls ++ [Call.store] }
    match fn.remote with
    | .error err => (st1, .error err)
    | .ok updated =>
      (fn.logs.foldl (fun s entry => (pushLog store s entry).1) st1, .ok updated)

/-- The entry that `act` logs: `pushLog('update', 'Aşama: ' + currentStage.label,
{ stage: currentStage.id, ...logMeta })`. -/
def actLogEntry (job : Job) (logMeta : LogMeta) : LogEntry :=
  { jobId := job.id, action := "update",
    detail := "Aşama: " ++ ((currentStage job).map (fun stage => stage.label)).getD "",
    meta :=
      logMeta.fields.foldl (fun acc kv => objSet acc kv.1 kv.2)
        [("stage", ((currentStage job).map (fun stage => stage.id)).getD "")] }

/-- The `try` block of `act`: the state it leaves and the error in flight when it is left by a
throw. The callback `onUpdated` is an `async` function that `act` does not await, so it cannot
throw into `act`. -/
def actTry (store : LogStore) (job : Job) (st : StepperState) (fn : Transition)
    (logMeta : LogMeta) : StepperState × Option Thrown :=
  let st1 := { st with view := { st.view with actionLoading := true } }
  let st2 := { st1 with actionError := "" }
  match runTransition store st2 fn with
  | (st3, .error err) => (st3, some err)
  | (st3, .ok updated) =>
    let normalizedUpdated := normalizeJob updated
    let st4 := { st3 with calls := st3.calls ++ [Call.onUpdated normalizedUpdated] }
    match pushLog store st4 (actLogEntry job logMeta) with
    | (st5, some err) => (st5, some err)
    | (st5, none) =>
      if shouldAutoAdvance normalizedUpdated logMeta then
        ({ st5 with view := advanceToNextStage job st5.view normalizedUpdated }, none)
      else (st5, none)

/-- `act(fn, logMeta)`: the `try` block, the `catch (err)` that sets `actionError` to
`toMessage(err) || 'İşlem başarısız'`, and the `finally` that clears `actionLoading`. -/
def act (store : LogStore) (job : Job) (st : StepperState) (fn : Transition)
    (logMeta : LogMeta) : StepperState :=
  let caught : StepperState :=
    match actTry store job st fn logMeta with
    | (st1, some err) => { st1 with actionError := strOr (toMessage err) "İşlem başarısız" }
    | (st1, none) => st1
  { caught with view := { caught.view with actionLoading := false } }

/-! ## Stage panels -/

/-- The gates of the stage panels in the order of the source: the id tested by
`isStageSelected` and whether the gate also requires `isServiceJob`. -/
def PANEL_GATES : List (String × Bool) :=
  [("measure", false), ("pricing", false), ("agreement", false), ("approval", false),
    ("production", false), ("assembly", false), ("finance", false),
    ("service_schedule", true), ("service_start", true), ("service_work", true),
    ("service_payment", true), ("service_done", true)]

/-- The panel of a gate is rendered. -/
def panelShown (job : Job) (view : View) (gate : String × Bool) : Bool :=
  (!gate.2 || job.startType == "SERVIS") && view.selectedStage == gate.1

/-- The writes of the view cursor: the effect that runs when the job changes, the advance made
by `act` after a transition, and a click on the stage at position `index` of the process
map. -/
inductive CursorOp where
  | jobChanged (job : Job)
  | advance (job updatedJob : Job)
  | mark (job : Job) (index : Nat)

/-- The initial value of the cursor: `useState(currentStage.id)`. -/
def initialView (job : Job) : View :=
  { selectedStage := ((currentStage job).map (fun stage => stage.id)).getD "" }

/-- The view after one write of the cursor. -/
def applyCursorOp (view : View) : CursorOp → View
  | .jobChanged job =>
    { view with selectedStage := ((currentStage job).map (fun stage => stage.id)).getD "" }
  | .advance job updatedJob => advanceToNextStage job view updatedJob
  | .mark job index =>
    match (activeFlow job.startType)[index]? with
    | some stage => markStage view stage.id
    | none => view

/-! ## Scenarios -/

/-- The scenario of claim C3: item with onHand 5 and reserved 2 (available 3), requested 5. -/
def c3Item : StockItem :=
  { id := "S1", sku := "PR-1", name := "Profil", onHand := some 5, reserved := some 2,
    available := 3 }

def c3Line : ReservedLine :=
  { id := "S1", name := "Profil", sku := "PR-1", qty := 5, available := 3 }

/-- The scenario of claim C1: offer total 10000, cash 4000, card 2000, one cheque of 3000 and
1000 after delivery. -/
def c1Job : Job :=
  { id := "J1", status := "ANLASMA_YAPILIYOR", startType := "OLCU",
    offer := .mk (some 10000) none none none none none none none none }

def c1Inputs : Inputs :=
  { payCash := some 4000, payCard := some 2000, payAfter := some 1000,
    chequeLines := [{ amount := some 3000, due := "", bank := "", branch := "", number := "" }] }

/-- A job in `SERVIS_DEVAM_EDIYOR` whose two visits carry the ids 1 and 2. -/
def c5Job : Job :=
  { id := "J5", status := "SERVIS_DEVAM_EDIYOR", startType := "SERVIS",
    service := some
      { fixedFee := some 500,
        visits := some
          [{ id := 1, appointmentDate := "2025-01-10", appointmentTime := "10:00",
             status := "completed" },
           { id := 2, appointmentDate := "2025-01-17", appointmentTime := "10:00",
             status := "completed" }] } }

def c5Inputs : Inputs :=
  { serviceNewAppointmentDate := "2025-01-24" }

/-- An offer of 9000 over two roles, with one negotiation round behind it. -/
def c6Offer : Offer :=
  .mk (some 9000) (some [("pvc", some 6000), ("cam", some 3000)]) (some "2025-02-01")
    (some [{ date := "2025-02-02", originalTotal := 10000, discountTotal := 1000,
             finalTotal := 9000, roleDiscounts := [("pvc", some 1000)] }])
    none none none none none

/-- A rejected job: status `ANLASILAMADI` with its rejection record. -/
def c6Job : Job :=
  { id := "J6", status := "ANLASILAMADI", startType := "OLCU",
    roles := [{ id := some "pvc", name := "PVC" }, { id := some "cam", name := "Cam" }],
    offer := c6Offer,
    rejection := some (.mk "FIYAT_YUKSEK" "pahalı" none "2025-02-03" (some c6Offer)) }

/-- A job in `FIYAT_VERILDI` carrying the offer `c6Offer`, and the reason typed for rejecting
it. -/
def c7Job : Job :=
  { id := "J7", status := "FIYAT_VERILDI", startType := "OLCU",
    roles := [{ id := some "pvc", name := "PVC" }, { id := some "cam", name := "Cam" }],
    offer := c6Offer }

def c7Inputs : Inputs :=
  { rejectionCategory := "ZAMANLAMA", rejectionReason := "tarih uymuyor" }

/-- The job `c7Job` once the store has recorded its rejection at `2025-02-03`. -/
def c7Rejected : Job :=
  { c7Job with
    status := "ANLASILAMADI"
    rejection := some (.mk "ZAMANLAMA" "tarih uymuyor" none "2025-02-03" (some c6Offer)) }

/-- A service job in `SERVIS_YAPILIYOR` with fixed fee 500 and its first visit in progress. -/
def c8Working : Job :=
  { id := "J8", status := "SERVIS_YAPILIYOR", startType := "SERVIS",
    service := some
      { fixedFee := some 500, note := some "kapı ayarı",
        visits := some
          [{ id := 1, appointmentDate := "2025-01-10", appointmentTime := "10:00",
             visitedAt := some "2025-01-10T10:30", status := "in_progress" }] } }

/-- The work form filled with a note and an extra cost of 150. -/
def c8WorkInputs : Inputs :=
  { serviceWorkNote := "menteşe değişti", serviceMaterials := "menteşe",
    serviceExtraCost := some 150 }

/-- The job `c8Working` after 'Servis Devam Ediyor (Yeni Randevu)': the visit is completed with
its extra cost and no total is stored on the service record. -/
def c8Stale : Job :=
  { id := "J8", status := "SERVIS_DEVAM_EDIYOR", startType := "SERVIS",
    service := some
      { fixedFee := some 500, note := some "kapı ayarı",
        visits := some
          [{ id := 1, appointmentDate := "2025-01-10", appointmentTime := "10:00",
             visitedAt := some "2025-01-10T10:30", status := "completed",
             workNote := some "menteşe değişti", materials := some "menteşe",
             extraCost := some 150, completedAt := some "2025-01-10T12:00" }] } }

/-- The job `c8Working` after 'Ödemeye Geç': the totals 150 and 650 are stored. -/
def c8Finalized : Job :=
  { id := "J8", status := "SERVIS_ODEME_BEKLIYOR", startType := "SERVIS",
    service := some
      { fixedFee := some 500, note := some "kapı ayarı",
        visits := some
          [{ id := 1, appointmentDate := "2025-01-10", appointmentTime := "10:00",
             visitedAt := some "2025-01-10T10:30", status := "completed",
             workNote := some "menteşe değişti", materials := some "menteşe",
             extraCost := some 150, completedAt := some "2025-01-10T12:00" }],
        totalExtraCost := some 150, totalCost := some 650 } }

/-- The payment form with 500 in cash. -/
def c8Cash500 : Inputs := { servicePaymentCash := some 500 }

/-- The payment form with 600 in cash and no discount. -/
def c8Cash600 : Inputs := { servicePaymentCash := some 600 }

/-- The payment form with 600 in cash and a discount of 50 with its note. -/
def c8Cash600Discount : Inputs :=
  { servicePaymentCash := some 600, serviceDiscount := some 50,
    serviceDiscountNote := "sadık müşteri" }

/-- The payment form with 600 in cash and a discount of 50 without a note. -/
def c8Cash600NoNote : Inputs :=
  { servicePaymentCash := some 600, serviceDiscount := some 50 }

/-- The clock of the scenarios. -/
def c9Clock : Clock := { now := "2025-03-01T09:00:00.000Z", today := "2025-03-01", time := "09:00" }

/-- A job in `FIYAT_VERILDI` whose offer carries no price. -/
def c9Priced : Job :=
  { id := "J9", status := "FIYAT_VERILDI", startType := "OLCU",
    roles := [{ id := some "pvc", name := "PVC" }] }

/-- The new-appointment form with an appointment date and a visit date. -/
def c9VisitNow : Inputs :=
  { serviceNewAppointmentDate := "2025-01-24", serviceVisitDate := "2025-01-24" }

/-- A job in `ANLASMADA`, waiting for its agreed production date. -/
def c9Agreed : Job :=
  { id := "J9b", status := "ANLASMADA", startType := "OLCU" }

/-- A customer-measure job in `ANLASMA_YAPILIYOR` with the drawings of its role uploaded. -/
def c9CustomerMeasure : Job :=
  { id := "J9c", status := "ANLASMA_YAPILIYOR", startType := "MUSTERI_OLCUSU",
    roles := [{ id := some "pvc", name := "PVC" }] }

def c9Documents : List Document :=
  [{ id := "d1", type := "measure_pvc" }, { id := "d2", type := "technical_pvc" }]

/-- The schedule form with a date and a fee. -/
def c9Schedule : Inputs :=
  { serviceAppointmentDate := "2025-02-01", serviceFixedFee := some 500 }

/-- A closed job of the standard flow. -/
def c10Closed : Job :=
  { id := "J10", status := "KAPALI", startType := "OLCU",
    offer := .mk (some 10000) none none none none none none none none }

/-- A closed service job. -/
def c10ServiceClosed : Job :=
  { id := "J10s", status := "SERVIS_KAPALI", startType := "SERVIS",
    service := some
      { fixedFee := some 500,
        visits := some
          [{ id := 1, appointmentDate := "2025-01-10", appointmentTime := "10:00",
             status := "completed" }],
        totalCost := some 500, paymentStatus := some "paid" } }

/-- A stock item as the store returns it, the operations of a load followed by a soft-hold
save of 5 units, and the item they leave in the state. -/
def c2Raw : RawStockItem :=
  { id := "S1", sku := "PR-1", name := "Profil", onHand := some 5, reserved := some 2 }

def c2Ops : List StockOp :=
  [StockOp.load [c2Raw], StockOp.save false [c3Line]]

def c2Saved : StockItem :=
  { id := "S1", sku := "PR-1", name := "Profil", onHand := some 5, reserved := some 7,
    available := 0 }

/-- The pricing view of `c7Job` with the rejection form open and filled. -/
def c13View : View :=
  { selectedStage := "pricing", inputs := { c7Inputs with showRejectionModal := true } }

/-- A customer-measure job with two roles: the first has a measurement drawing only, the second
has no drawing. -/
def c16Job : Job :=
  { id := "J16", status := "MUSTERI_OLCUSU_BEKLENIYOR", startType := "MUSTERI_OLCUSU",
    roles := [{ id := some "pvc", name := "PVC" }, { id := some "cam", name := "Cam" }],
    roleFiles := [("pvc", { measure := ["olcu.pdf"], technical := [] })] }

/-- A pricing form whose only role price is 0, next to an explicit offer total of 500. -/
def c17Inputs : Inputs :=
  { rolePrices := [("pvc", some 0)], offerTotal := some 500 }

/-- An agreement job whose stored offer total carries half a kuruş: 10000.005. -/
def c18Job : Job :=
  { id := "J18", status := "ANLASMA_YAPILIYOR", startType := "OLCU",
    offer := .mk (some (10000 + 1 / 200)) none none none none none none none none }

/-- The form of `c18Job`: the offer total mirrored from the job and the payment plan
4000 + 2000 + 3000 + 1000. -/
def c18Plan : Inputs :=
  { c1Inputs with offerTotal := some (10000 + 1 / 200) }

/-- A job waiting for its finance closure: offer 10000, of which 9000 was received at the
agreement and 1000 is due after delivery. -/
def c19Job : Job :=
  { id := "J19", status := "MUHASEBE_BEKLIYOR", startType := "OLCU",
    offer := .mk (some 10000) none none none none none none none none,
    approval := some { cash := some 4000, card := some 2000, cheque := some 3000,
                       afterDelivery := some 1000 } }

/-- A priced job with role prices 100 and 300, and a discount of 150 on the first role. -/
def c20Job : Job :=
  { id := "J20", status := "FIYAT_VERILDI", startType := "OLCU",
    roles := [{ id := some "pvc", name := "PVC" }, { id := some "cam", name := "Cam" }],
    offer := .mk (some 400) (some [("pvc", some 100), ("cam", some 300)]) none none none none
      none none none }

def c20Inputs : Inputs :=
  { showNegotiationPanel := true, roleDiscounts := [("pvc", some 150)] }

def c22Line : ReservedLine :=
  { id := "S1", name := "Profil", sku := "PR-1", qty := 2, available := 3 }

/-- The schedule view of a service job: the cursor on `service_schedule` and the form filled. -/
def c30View : View := { selectedStage := "service_schedule", inputs := c9Schedule }

/-- A priced job whose offer carries an explicit total and no role prices. -/
def c21Job : Job :=
  { id := "J21", status := "FIYAT_VERILDI", startType := "OLCU",
    roles := [{ id := some "pvc", name := "PVC" }],
    offer := .mk (some 400) none none none none none none none none }

/-- The negotiation form with a discount of 50 on the role of `c21Job`. -/
def c21Inputs : Inputs :=
  { showNegotiationPanel := true, roleDiscounts := [("pvc", some 50)] }

/-- A priced job whose offer prices a role that the job does not have: 400 = 100 + 300. -/
def c21Stale : Job :=
  { id := "J21b", status := "FIYAT_VERILDI", startType := "OLCU",
    roles := [{ id := some "pvc", name := "PVC" }],
    offer := .mk (some 400) (some [("pvc", some 100), ("cam", some 300)]) none none none none
      none none none }

/-- The time in milliseconds of a due date, counted from the clock reading 0 of the scenario:
`2025-03-11` is 10 days and `2025-03-31` is 30 days after it. -/
def c26DateOf (due : String) : ℚ :=
  if due = "2025-03-11" then 10 * (1000 * 60 * 60 * 24)
  else if due = "2025-03-31" then 30 * (1000 * 60 * 60 * 24)
  else 0

/-- Two cheques: 1000 due in 10 days and 3000 due in 30 days. -/
def c26Inputs : Inputs :=
  { chequeLines :=
      [{ amount := some 1000, due := "2025-03-11", bank := "", branch := "", number := "" },
       { amount := some 3000, due := "2025-03-31", bank := "", branch := "", number := "" }] }

/-- A log store whose `addJobLog` always throws. -/
def c27Store : LogStore :=
  { addJobLog := fun _ => Except.error (Thrown.object "log service down" "" ""),
    getJobLogs := fun _ => Except.ok [] }

/-- The answer of the job store to 'Ölçü Alındı' for `c27Job`. -/
def c27Updated : RawJob :=
  { id := "J27", status := "OLCU_ALINDI", startType := "OLCU" }

/-- A job with its measure appointment given. -/
def c27Job : Job :=
  { id := "J27", status := "OLCU_RANDEVULU", startType := "OLCU" }

/-- The stepper of `c27Job` at rest, with an error left by an earlier action. -/
def c27State : StepperState :=
  { view := { selectedStage := "measure" }, actionError := "eski hata" }

/-- A transition whose call of the job store is refused. -/
def c28Refused : Transition :=
  { remote := Except.error (Thrown.object "Sunucu hatası" "" "") }

/-- A job waiting for its stock reservation. -/
def c29Job : Job :=
  { id := "J29", status := "STOK_BEKLIYOR", startType := "OLCU" }

/-! ## Theorems -/

/-- A left fold that adds `f` of each element is the starting value plus the sum of the list. -/
theorem foldl_add_eq_sum {α : Type} (f : α → ℚ) (l : List α) (init : ℚ) :
    l.foldl (fun sum c => sum + f c) init = init + (l.map f).sum := by
  induction l generalizing init with
  | nil => simp
  | cons a t ih => simp [List.foldl_cons, ih, add_assoc]

/-- C1: `validateStageTransition('ONAY_BEKLIYOR')` accepts (no error recorded, result `true`)
exactly when the plan total `cash + card + Σ cheque amounts + afterDelivery` is within 0.01 of
the offer total; the scenario with offer 10000 and plan 4000 + 2000 + 3000 + 1000 is accepted. -/
theorem validateStageTransition_approval_iff :
    (∀ (job : Job) (inputs : Inputs),
      (validationErrors job inputs "ONAY_BEKLIYOR" = [] ∧
          validateStageTransition job inputs "ONAY_BEKLIYOR" = true) ↔
        |numOr0 inputs.payCash + numOr0 inputs.payCard
            + (inputs.chequeLines.map (fun c => numOr0 c.amount)).sum
            + numOr0 inputs.payAfter - numOr0 job.offer.total| ≤ 1 / 100) ∧
      validationErrors c1Job c1Inputs "ONAY_BEKLIYOR" = [] ∧
      validateStageTransition c1Job c1Inputs "ONAY_BEKLIYOR" = true := by
  have key : ∀ (job : Job) (inputs : Inputs),
      (validationErrors job inputs "ONAY_BEKLIYOR" = [] ∧
          validateStageTransition job inputs "ONAY_BEKLIYOR" = true) ↔
        |numOr0 inputs.payCash + numOr0 inputs.payCard
            + (inputs.chequeLines.map (fun c => numOr0 c.amount)).sum
            + numOr0 inputs.payAfter - numOr0 job.offer.total| ≤ 1 / 100 := by
    intro job inputs
    have hsum : chequeTotal inputs = (inputs.chequeLines.map (fun c => numOr0 c.amount)).sum := by
      simp [chequeTotal, foldl_add_eq_sum]
    simp only [validateStageTransition, validationErrors, hsum]
    by_cases h : |numOr0 inputs.payCash + numOr0 inputs.payCard
            + (inputs.chequeLines.map (fun c => numOr0 c.amount)).sum
            + numOr0 inputs.payAfter - numOr0 job.offer.total| ≤ 1 / 100
    · simp [h, not_lt.mpr h]
    · simp [h, not_le.mp h]
  refine ⟨key, ?_⟩
  have hacc := (key c1Job c1Inputs).mpr (by
    simp [c1Job, c1Inputs, numOr0, Offer.total]
    norm_num)
  exact hacc

/-- The invariant of a stock item: `available = max(0, onHand - reserved)`. -/
theorem reserveItem_available (stockReady : Bool) (reservedLines : List ReservedLine)
    (item : StockItem)
    (h : item.available = max 0 (numOr0 item.onHand - numOr0 item.reserved)) :
    (reserveItem stockReady reservedLines item).available =
      max 0 (numOr0 (reserveItem stockReady reservedLines item).onHand
        - numOr0 (reserveItem stockReady reservedLines item).reserved) := by
  unfold reserveItem
  cases hfind : reservedLines.find? (fun l => l.id == item.id) with
  | none => simpa using h
  | some line => cases stockReady <;> simp

theorem applyStockOp_available (stockItems : List StockItem) (op : StockOp)
    (h : ∀ item ∈ stockItems,
      item.available = max 0 (numOr0 item.onHand - numOr0 item.reserved)) :
    ∀ item ∈ applyStockOp stockItems op,
      item.available = max 0 (numOr0 item.onHand - numOr0 item.reserved) := by
  cases op with
  | load payload =>
    intro item hmem
    simp only [applyStockOp, loadStock, List.mem_map] at hmem
    obtain ⟨raw, _, rfl⟩ := hmem
    rfl
  | save stockReady reservedLines =>
    intro item hmem
    simp only [applyStockOp, saveStockItems, List.mem_map] at hmem
    obtain ⟨old, hold, rfl⟩ := hmem
    exact reserveItem_available stockReady reservedLines old (h old hold)

theorem foldl_applyStockOp_available (ops : List StockOp) (stockItems : List StockItem)
    (h : ∀ item ∈ stockItems,
      item.available = max 0 (numOr0 item.onHand - numOr0 item.reserved)) :
    ∀ item ∈ ops.foldl applyStockOp stockItems,
      item.available = max 0 (numOr0 item.onHand - numOr0 item.reserved) := by
  induction ops generalizing stockItems with
  | nil => simpa using h
  | cons op rest ih =>
    simp only [List.foldl_cons]
    exact ih _ (applyStockOp_available stockItems op h)

/-- C2: after any run of `loadStock` and reservation saves (any reserved lines, either value of
the ready flag) every item of the `stockItems` state has
`available = max(0, onHand - reserved)`, and so a non-negative `available`. -/
theorem stockItems_available_invariant (ops : List StockOp) :
    ∀ item ∈ runStockOps ops,
      item.available = max 0 (numOr0 item.onHand - numOr0 item.reserved) ∧ 0 ≤ item.available := by
  intro item hmem
  have h := foldl_applyStockOp_available ops [] (by simp) item hmem
  exact ⟨h, by rw [h]; exact le_max_left _ _⟩

/-- C2 at a load followed by a soft-hold save of 5 units on an item with onHand 5 and
reserved 2: the item left in the state has reserved 7 and available 0. -/
theorem stockItems_available_invariant_witness :
    c2Saved.available = max 0 (numOr0 c2Saved.onHand - numOr0 c2Saved.reserved) ∧
      0 ≤ c2Saved.available :=
  stockItems_available_invariant c2Ops c2Saved (by
    norm_num [runStockOps, c2Ops, applyStockOp, loadStock, saveStockItems, reserveItem, c2Raw,
      c3Line, c2Saved, numOr0])

/-- C3, as stated, fails at its own scenario (item onHand 5, reserved 2, requested 5): with the
ready flag cleared the save leaves reserved at 2 + 5 = 7, with the flag set it leaves reserved
at 2 and takes onHand to 0; in neither case is reserved 2 + 3 = 5. -/
theorem reserveItem_shortfall_counterexample :
    (reserveItem false [c3Line] c3Item).reserved = some 7 ∧
      (reserveItem true [c3Line] c3Item).reserved = some 2 ∧
      (reserveItem true [c3Line] c3Item).onHand = some 0 ∧
      (reserveItem false [c3Line] c3Item).reserved ≠ some 5 ∧
      (reserveItem true [c3Line] c3Item).reserved ≠ some 5 := by
  have h1 : (reserveItem false [c3Line] c3Item).reserved = some 7 := by
    simp [reserveItem, c3Line, c3Item, numOr0]; norm_num
  have h2 : (reserveItem true [c3Line] c3Item).reserved = some 2 := by
    simp [reserveItem, c3Line, c3Item]
  have h3 : (reserveItem true [c3Line] c3Item).onHand = some 0 := by
    simp [reserveItem, c3Line, c3Item, numOr0]
  refine ⟨h1, h2, h3, ?_, ?_⟩
  · rw [h1]; norm_num
  · rw [h2]; norm_num

/-- C3, amended: for a reserved line whose quantity exceeds the available of its stock item
(the item satisfying `available = max(0, onHand - reserved)` with `reserved ≥ 0`, the line
carrying that available), the save with the ready flag cleared adds the full quantity to
reserved and leaves onHand alone, the save with the flag set leaves reserved alone and lowers
onHand by the quantity, floored at 0; either way available ends at 0, and the pending list
holds the line with `missing = quantity - available`. -/
theorem reserveItem_shortfall (reservedLines : List ReservedLine) (line : ReservedLine)
    (item : StockItem)
    (hfind : reservedLines.find? (fun l => l.id == item.id) = some line)
    (hinv : item.available = max 0 (numOr0 item.onHand - numOr0 item.reserved))
    (hsnap : line.available = item.available)
    (hres : 0 ≤ numOr0 item.reserved)
    (hqty : item.available < line.qty) :
    (reserveItem false reservedLines item).reserved = some (numOr0 item.reserved + line.qty) ∧
      (reserveItem false reservedLines item).onHand = item.onHand ∧
      (reserveItem false reservedLines item).available = 0 ∧
      (reserveItem true reservedLines item).reserved = item.reserved ∧
      (reserveItem true reservedLines item).onHand
        = some (max 0 (numOr0 item.onHand - line.qty)) ∧
      (reserveItem true reservedLines item).available = 0 ∧
      ({ line := line, missing := line.qty - item.available } : PendingLine)
        ∈ pendingLines reservedLines := by
  have hlt : numOr0 item.onHand - numOr0 item.reserved < line.qty :=
    lt_of_le_of_lt (by rw [hinv]; exact le_max_right _ _) hqty
  have hmem : line ∈ reservedLines := List.mem_of_find?_eq_some hfind
  refine ⟨?_, ?_, ?_, ?_, ?_, ?_, ?_⟩
  · simp [reserveItem, hfind]
  · simp [reserveItem, hfind]
  · simp only [reserveItem, hfind, numOr0, Option.getD_some] at *
    simp
    linarith
  · simp [reserveItem, hfind]
  · simp [reserveItem, hfind]
  · simp only [reserveItem, hfind, numOr0, Option.getD_some] at *
    simp only [Bool.true_eq_false, ↓reduceIte]
    apply max_eq_left
    rcases le_total (item.onHand.getD 0 - line.qty) 0 with h | h
    · rw [max_eq_left h]; simp only [Option.getD_some]; linarith
    · rw [max_eq_right h]; simp only [Option.getD_some]; linarith
  · simp only [pendingLines, List.mem_map, List.mem_filter]
    exact ⟨line, ⟨hmem, by simpa [hsnap] using hqty⟩, by simp [hsnap]⟩

/-- The amended C3 at the scenario of the claim: reserved 7 with the flag cleared, onHand 0 and
reserved 2 with the flag set, available 0 and a pending line with missing 2. -/
theorem reserveItem_shortfall_witness :
    (reserveItem false [c3Line] c3Item).reserved = some (numOr0 c3Item.reserved + c3Line.qty) ∧
      (reserveItem false [c3Line] c3Item).onHand = c3Item.onHand ∧
      (reserveItem false [c3Line] c3Item).available = 0 ∧
      (reserveItem true [c3Line] c3Item).reserved = c3Item.reserved ∧
      (reserveItem true [c3Line] c3Item).onHand
        = some (max 0 (numOr0 c3Item.onHand - c3Line.qty)) ∧
      (reserveItem true [c3Line] c3Item).available = 0 ∧
      ({ line := c3Line, missing := c3Line.qty - c3Item.available } : PendingLine)
        ∈ pendingLines [c3Line] :=
  reserveItem_shortfall [c3Line] c3Line c3Item
    (by simp [c3Line, c3Item])
    (by simp [c3Item, numOr0]; norm_num)
    (by simp [c3Line, c3Item])
    (by simp [c3Item, numOr0])
    (by simp [c3Line, c3Item]; norm_num)

/-- C4: the offer sent by 'Bu Fiyatla Anlaşıldı' carries a negotiation history that is the
previous history (empty when absent) followed by exactly one new record: its length is the
previous length plus 1 and its first entries are the previous entries, in the same order. -/
theorem negotiationHistory_append_only (job : Job) (inputs : Inputs) (now : String) :
    ∃ offer history,
      (negotiationPayload job inputs now).offer = some offer ∧
      offer.negotiationHistory = some history ∧
      history = job.offer.negotiationHistory.getD [] ++ [negotiationRecord job inputs now] ∧
      history.length = (job.offer.negotiationHistory.getD []).length + 1 ∧
      history.take (job.offer.negotiationHistory.getD []).length
        = job.offer.negotiationHistory.getD [] := by
  refine ⟨_, newHistory job inputs now, rfl, ?_, ?_, ?_, ?_⟩
  · cases h : job.offer
    simp [Offer.negotiationHistory]
  · rfl
  · simp [newHistory, negotiationHistoryOf]
  · simp [newHistory, negotiationHistoryOf]

theorem updateFirst_map_id (p : Visit → Bool) (f : Visit → Visit)
    (hf : ∀ v, (f v).id = v.id) (visits : List Visit) :
    (updateFirst p f visits).map (fun v => v.id) = visits.map (fun v => v.id) := by
  induction visits with
  | nil => rfl
  | cons a rest ih =>
    unfold updateFirst
    split
    · simp [hf]
    · simp [ih]

theorem continueVisits_ids (visits : List Visit) (inputs : Inputs) (n : Nat)
    (hids : visits.map (fun v => v.id) = List.range' 1 n) :
    (continueVisits visits inputs).map (fun v => v.id) = List.range' 1 (n + 1) := by
  have hlen : visits.length = n := by
    have := congrArg List.length hids
    simpa using this
  simp [continueVisits, newVisit, hids, hlen, List.range'_concat, Nat.add_comm]

theorem applyVisitOp_ids (visits : List Visit) (op : VisitOp) (n : Nat)
    (hids : visits.map (fun v => v.id) = List.range' 1 n) :
    ∃ m, n ≤ m ∧ (applyVisitOp visits op).map (fun v => v.id) = List.range' 1 m := by
  cases op with
  | start inputs today clock =>
    exact ⟨n, le_refl n, by
      simp only [applyVisitOp, startVisits]
      refine (updateFirst_map_id _ _ ?_ visits).trans hids
      intro v
      rfl⟩
  | complete inputs now =>
    exact ⟨n, le_refl n, by
      simp only [applyVisitOp, completeVisits]
      refine (updateFirst_map_id _ _ ?_ visits).trans hids
      intro v
      rfl⟩
  | «continue» inputs =>
    exact ⟨n + 1, Nat.le_succ n, continueVisits_ids visits inputs n hids⟩

theorem foldl_applyVisitOp_ids (ops : List VisitOp) (visits : List Visit) (n : Nat)
    (hids : visits.map (fun v => v.id) = List.range' 1 n) :
    ∃ m, n ≤ m ∧ (ops.foldl applyVisitOp visits).map (fun v => v.id) = List.range' 1 m := by
  induction ops generalizing visits n with
  | nil => exact ⟨n, le_refl n, hids⟩
  | cons op rest ih =>
    obtain ⟨k, hk, hstep⟩ := applyVisitOp_ids visits op n hids
    obtain ⟨m, hm, hrest⟩ := ih (applyVisitOp visits op) k hstep
    exact ⟨m, le_trans hk hm, hrest⟩

/-- C5: for a service job whose visits carry the ids 1..n in list order, the new-appointment
step of `SERVIS_DEVAM_EDIYOR` sends the old visits followed by exactly one visit with id n+1;
and after any run of start, complete and continue steps the ids are still 1..m for some m ≥ n,
all distinct. -/
theorem continue_visit_ids (job : Job) (inputs : Inputs) (n : Nat)
    (hids : (serviceVisits job).map (fun v => v.id) = List.range' 1 n) :
    (∃ sv visits v,
        (continuePayload job inputs).service = some sv ∧ sv.visits = some visits ∧
        visits = serviceVisits job ++ [v] ∧ v.id = n + 1 ∧
        visits.map (fun v => v.id) = List.range' 1 (n + 1)) ∧
      ∀ ops : List VisitOp, ∃ m, n ≤ m ∧
        (ops.foldl applyVisitOp (serviceVisits job)).map (fun v => v.id) = List.range' 1 m ∧
        ((ops.foldl applyVisitOp (serviceVisits job)).map (fun v => v.id)).Nodup := by
  have hlen : (serviceVisits job).length = n := by
    have := congrArg List.length hids
    simpa using this
  refine ⟨⟨_, _, newVisit (serviceVisits job) inputs, rfl, rfl, rfl, ?_, ?_⟩, ?_⟩
  · simp [newVisit, hlen]
  · exact continueVisits_ids (serviceVisits job) inputs n hids
  · intro ops
    obtain ⟨m, hm, hrun⟩ := foldl_applyVisitOp_ids ops (serviceVisits job) n hids
    exact ⟨m, hm, hrun, by rw [hrun]; exact List.nodup_range' 1 m⟩

/-- C5 at a job with visits 1 and 2: the step appends visit 3. -/
theorem continue_visit_ids_witness :
    (∃ sv visits v,
        (continuePayload c5Job c5Inputs).service = some sv ∧ sv.visits = some visits ∧
        visits = serviceVisits c5Job ++ [v] ∧ v.id = 2 + 1 ∧
        visits.map (fun v => v.id) = List.range' 1 (2 + 1)) ∧
      ∀ ops : List VisitOp, ∃ m, 2 ≤ m ∧
        (ops.foldl applyVisitOp (serviceVisits c5Job)).map (fun v => v.id) = List.range' 1 m ∧
        ((ops.foldl applyVisitOp (serviceVisits c5Job)).map (fun v => v.id)).Nodup :=
  continue_visit_ids c5Job c5Inputs 2 (by decide)

/-- C6, as stated, fails: for the rejected job `c6Job` the reactivation update writes no
`rejection` key at all (it neither clears nor replaces the record), and the job that results
from applying the update still carries the rejection record. -/
theorem reactivation_rejection_counterexample :
    (reactivationPayload c6Job "2025-03-01").rejection = none ∧
      (reactivationPayload c6Job "2025-03-01").rejection ≠ some none ∧
      (applyPatch c6Job (reactivationPayload c6Job "2025-03-01")).status = "FIYAT_VERILDI" ∧
      (applyPatch c6Job (reactivationPayload c6Job "2025-03-01")).rejection
        = some (.mk "FIYAT_YUKSEK" "pahalı" none "2025-02-03" (some c6Offer)) ∧
      (applyPatch c6Job (reactivationPayload c6Job "2025-03-01")).rejection ≠ none := by
  refine ⟨rfl, ?_, rfl, rfl, ?_⟩
  · simp [reactivationPayload]
  · simp [applyPatch, reactivationPayload, c6Job]

/-- C6, amended: the update issued by reactivation carries the status `FIYAT_VERILDI` and the
restored offer only; it writes neither `rejection` nor `service`. The offer it carries keeps a
copy of the rejection record in `reactivatedFrom` with the stamp `reactivatedAt`, and the job
that results from applying the update has the rejection record it had before. -/
theorem reactivation_keeps_rejection (job : Job) (now : String) :
    (reactivationPayload job now).status = some "FIYAT_VERILDI" ∧
      (reactivationPayload job now).rejection = none ∧
      (reactivationPayload job now).service = none ∧
      (∃ offer, (reactivationPayload job now).offer = some offer ∧
        offer.reactivatedFrom = job.rejection ∧ offer.reactivatedAt = some now) ∧
      (applyPatch job (reactivationPayload job now)).rejection = job.rejection := by
  refine ⟨rfl, rfl, rfl, ⟨_, rfl, ?_, ?_⟩, rfl⟩
  · cases lastOffer job
    rfl
  · cases lastOffer job
    rfl

/-- C7: the rejection update stores the current offer as `rejection.lastOffer` under the status
`ANLASILAMADI`; and for every job that carries this rejection record, the reactivation update
sets the status `FIYAT_VERILDI` and an offer with the total, role prices, negotiation history
and every other field of the offer held before the rejection, the only difference being the
stamps `reactivatedAt` and `reactivatedFrom`. -/
theorem reject_reactivate_roundtrip (job rejected : Job) (inputs : Inputs) (now later : String)
    (hrej : some rejected.rejection = (rejectionPayload job inputs now).rejection) :
    (rejectionPayload job inputs now).status = some "ANLASILAMADI" ∧
      (∃ r, rejected.rejection = some r ∧ r.lastOffer = some job.offer) ∧
      (reactivationPayload rejected later).status = some "FIYAT_VERILDI" ∧
      ∃ offer, (reactivationPayload rejected later).offer = some offer ∧
        offer.total = job.offer.total ∧
        offer.rolePrices = job.offer.rolePrices ∧
        offer.negotiationHistory = job.offer.negotiationHistory ∧
        offer.notifiedDate = job.offer.notifiedDate ∧
        offer.agreedDate = job.offer.agreedDate ∧
        offer.orderNo = job.offer.orderNo ∧
        offer.cariCode = job.offer.cariCode ∧
        offer.reactivatedAt = some later ∧
        offer.reactivatedFrom = rejected.rejection := by
  have hr : rejected.rejection = some (.mk inputs.rejectionCategory inputs.rejectionReason
      (if inputs.rejectionFollowUp = "" then none else some inputs.rejectionFollowUp) now
      (some job.offer)) := by
    simpa [rejectionPayload] using hrej
  have hlast : lastOffer rejected = job.offer := by
    simp [lastOffer, hr, Rejection.lastOffer]
  refine ⟨rfl, ⟨_, hr, rfl⟩, rfl, ⟨_, rfl, ?_⟩⟩
  rw [hlast]
  cases job.offer
  exact ⟨rfl, rfl, rfl, rfl, rfl, rfl, rfl, rfl, rfl⟩

/-- C7 at the job `c7Job`: rejected at `2025-02-03`, reactivated at `2025-03-01`. -/
theorem reject_reactivate_roundtrip_witness :
    (rejectionPayload c7Job c7Inputs "2025-02-03").status = some "ANLASILAMADI" ∧
      (∃ r, c7Rejected.rejection = some r ∧ r.lastOffer = some c7Job.offer) ∧
      (reactivationPayload c7Rejected "2025-03-01").status = some "FIYAT_VERILDI" ∧
      ∃ offer, (reactivationPayload c7Rejected "2025-03-01").offer = some offer ∧
        offer.total = c7Job.offer.total ∧
        offer.rolePrices = c7Job.offer.rolePrices ∧
        offer.negotiationHistory = c7Job.offer.negotiationHistory ∧
        offer.notifiedDate = c7Job.offer.notifiedDate ∧
        offer.agreedDate = c7Job.offer.agreedDate ∧
        offer.orderNo = c7Job.offer.orderNo ∧
        offer.cariCode = c7Job.offer.cariCode ∧
        offer.reactivatedAt = some "2025-03-01" ∧
        offer.reactivatedFrom = c7Rejected.rejection :=
  reject_reactivate_roundtrip c7Job c7Rejected c7Inputs "2025-02-03" "2025-03-01" (by
    simp [rejectionPayload, c7Rejected, c7Job, c7Inputs])

theorem visitsExtraCost_eq_sum (visits : List Visit) :
    visitsExtraCost visits = (visits.map (fun v => numOr0 v.extraCost)).sum := by
  simp [visitsExtraCost, foldl_add_eq_sum]

/-- C8, evaluated on the code. The payment panel takes the total cost from the service record
(`service.totalCost`, or `fixedFee + service.totalExtraCost` when that is absent or 0) and never
from the visits. `c8Stale` is what 'Servis Devam Ediyor (Yeni Randevu)' writes for a job with
fixed fee 500 whose visit cost 150 extra: no total is stored on it, so with the view cursor
moved to the payment stage the panel takes 500 as the total and offers 'Servisi Kapat' with 500
paid in cash, although `fixedFee + Σ extraCost - received` is 650 - 500 = 150. Apart from that:
with no action in flight the button is enabled exactly when the balance of the panel is 0 and
a positive discount comes with a non-empty note, and on a service record written by
'Ödemeye Geç' that balance is `fixedFee + Σ visits.extraCost - (cash + card + transfer +
discount)`. For fixed fee 500 and one visit with extra cost 150 finalized to the payment stage
the total is 650: cash 600 leaves balance 50 and closing is refused, a discount of 50 with a
note gives balance 0 and closing is accepted, and the same discount without a note is
refused. -/
theorem serviceClose_unfinalized_total :
    ((completeContinuePayload c8Working c8WorkInputs "2025-01-10T12:00").service
          = c8Stale.service ∧
        "service_payment" ∈ processMapStages c8Stale ∧
        (markStage { selectedStage := "service_work", inputs := c8Cash500 }
          "service_payment").selectedStage = "service_payment" ∧
        servicePaymentTotalCost c8Stale = 500 ∧
        offered c8Stale { selectedStage := "service_payment", inputs := c8Cash500 }
          Action.closeService = true ∧
        numOr0 (serviceOf c8Stale).fixedFee
            + ((serviceVisits c8Stale).map (fun v => numOr0 v.extraCost)).sum
            - serviceTotalReceived c8Cash500 = 150) ∧
    (∀ (job : Job) (inputs : Inputs),
      serviceCloseDisabled false job inputs = false ↔
        (serviceBalance job inputs = 0 ∧
          (numOr0 inputs.serviceDiscount > 0 → inputs.serviceDiscountNote ≠ ""))) ∧
    (∀ (job : Job) (inputs : Inputs) (now : String) (payment : Inputs),
      serviceBalance { job with service := (finalizePayload job inputs now).service } payment
        = numOr0 (serviceOf job).fixedFee
          + ((completeVisits (serviceVisits job) inputs now).map
              (fun v => numOr0 v.extraCost)).sum
          - (numOr0 payment.servicePaymentCash + numOr0 payment.servicePaymentCard
              + numOr0 payment.servicePaymentTransfer + numOr0 payment.serviceDiscount)) ∧
    ((finalizePayload c8Working c8WorkInputs "2025-01-10T12:00").service = c8Finalized.service ∧
      servicePaymentTotalCost c8Finalized = 650 ∧
      serviceBalance c8Finalized c8Cash600 = 50 ∧
      serviceCloseDisabled false c8Finalized c8Cash600 = true ∧
      serviceBalance c8Finalized c8Cash600Discount = 0 ∧
      serviceCloseDisabled false c8Finalized c8Cash600Discount = false ∧
      serviceCloseDisabled false c8Finalized c8Cash600NoNote = true) := by
  have hiff : ∀ (job : Job) (inputs : Inputs),
      serviceCloseDisabled false job inputs = false ↔
        (serviceBalance job inputs = 0 ∧
          (numOr0 inputs.serviceDiscount > 0 → inputs.serviceDiscountNote ≠ "")) := by
    intro job inputs
    simp only [serviceCloseDisabled, Bool.false_or, Bool.or_eq_false_iff, Bool.and_eq_false_iff,
      decide_eq_false_iff_not, not_not, ne_eq, gt_iff_lt]
    constructor
    · rintro ⟨hb, hd⟩
      refine ⟨hb, fun hpos hnote => ?_⟩
      rcases hd with h | h
      · exact h hpos
      · exact h hnote
    · rintro ⟨hb, hd⟩
      refine ⟨hb, ?_⟩
      by_cases hpos : 0 < numOr0 inputs.serviceDiscount
      · exact Or.inr (hd hpos)
      · exact Or.inl hpos
  have hfinal : ∀ (job : Job) (inputs : Inputs) (now : String),
      servicePaymentTotalCost { job with service := (finalizePayload job inputs now).service }
        = numOr0 (serviceOf job).fixedFee
          + ((completeVisits (serviceVisits job) inputs now).map
              (fun v => numOr0 v.extraCost)).sum := by
    intro job inputs now
    simp only [servicePaymentTotalCost, finalizePayload, serviceOf, Option.getD_some,
      visitsExtraCost_eq_sum, numOrElse]
    split <;> simp_all [numOr0]
  have hstale : servicePaymentTotalCost c8Stale = 500 := by
    simp [servicePaymentTotalCost, serviceOf, numOr0, numOrElse, c8Stale]
  have htotal : servicePaymentTotalCost c8Finalized = 650 := by
    simp [servicePaymentTotalCost, serviceOf, numOr0, numOrElse, c8Finalized]
  have hb50 : serviceBalance c8Finalized c8Cash600 = 50 := by
    simp [serviceBalance, htotal, serviceTotalReceived, numOr0, c8Cash600]
    norm_num
  have hb0 : serviceBalance c8Finalized c8Cash600Discount = 0 := by
    simp [serviceBalance, htotal, serviceTotalReceived, numOr0, c8Cash600Discount]
    norm_num
  have hb0n : serviceBalance c8Finalized c8Cash600NoNote = 0 := by
    simp [serviceBalance, htotal, serviceTotalReceived, numOr0, c8Cash600NoNote]
    norm_num
  refine ⟨⟨?_, ?_, rfl, hstale, ?_, ?_⟩, hiff, ?_, ⟨?_, htotal, hb50, ?_, hb0, ?_, ?_⟩⟩
  · simp [completeContinuePayload, completeVisits, updateFirst, serviceOf, serviceVisits,
      c8Working, c8WorkInputs, c8Stale, numOr0]
  · decide
  · simp [offered, rendered, disabled, serviceCloseDisabled, serviceBalance,
      servicePaymentTotalCost, serviceTotalReceived, serviceOf, numOr0, numOrElse, c8Stale,
      c8Cash500]
  · norm_num [serviceOf, serviceVisits, serviceTotalReceived, numOr0, c8Stale, c8Cash500]
  · intro job inputs now payment
    rw [serviceBalance, hfinal]
    rfl
  · simp [finalizePayload, completeVisits, updateFirst, visitsExtraCost, serviceOf,
      serviceVisits, c8Working, c8WorkInputs, c8Finalized, numOr0]
    norm_num
  · simp [serviceCloseDisabled, hb50]
  · exact (hiff _ _).mpr ⟨hb0, fun _ => by simp [c8Cash600Discount]⟩
  · simp [serviceCloseDisabled, hb0n, numOr0, c8Cash600NoNote]

theorem activeFlow_cases (startType : String) :
    activeFlow startType = SERVICE_STAGE_FLOW ∨ activeFlow startType = STAGE_FLOW := by
  unfold activeFlow
  split
  · exact Or.inl rfl
  · exact Or.inr rfl

theorem not_backwardRanked_of_both (startType source target : String)
    (hstd : backwardRanked STAGE_FLOW source target = false)
    (hsrv : backwardRanked SERVICE_STAGE_FLOW source target = false) :
    backwardRanked (activeFlow startType) source target = false := by
  rcases activeFlow_cases startType with h | h <;> rw [h] <;> assumption

theorem flowPositionRanked_service (source : String) (p : Nat × Nat)
    (h : flowPositionRanked SERVICE_STAGE_FLOW source = some p) :
    p.1 < 4 ∨ p = (4, 0) := by
  unfold flowPositionRanked at h
  cases hpos : flowPosition SERVICE_STAGE_FLOW source with
  | some q =>
    rw [hpos] at h
    simp only [Option.some.injEq] at h
    subst h
    simp [flowPosition, flowPositionFrom, SERVICE_STAGE_FLOW] at hpos
    split_ifs at hpos
    all_goals (simp only [Option.some.injEq] at hpos; subst hpos; simp_all)
  | none =>
    rw [hpos] at h
    simp only at h
    cases hfind : STATUS_FILTER_GROUPS.find? (fun group => group.2.contains source) with
    | none =>
      rw [hfind] at h
      exact absurd h (by simp)
    | some group =>
      rw [hfind] at h
      simp only at h
      have hmem : group ∈ STATUS_FILTER_GROUPS := List.mem_of_find?_eq_some hfind
      have hall : ∀ g ∈ STATUS_FILTER_GROUPS,
          ∀ i ∈ SERVICE_STAGE_FLOW.findIdx? (fun stage => stage.label == g.1), i < 4 := by
        decide
      cases hidx : SERVICE_STAGE_FLOW.findIdx? (fun stage => stage.label == group.1) with
      | none =>
        rw [hidx] at h
        exact absurd h (by simp)
      | some i =>
        rw [hidx] at h
        have hi : i < 4 := hall group hmem i (by rw [hidx]; rfl)
        cases hstage : SERVICE_STAGE_FLOW.find? (fun stage => stage.label == group.1) with
        | none =>
          rw [hstage] at h
          exact absurd h (by simp)
        | some stage =>
          rw [hstage] at h
          simp only [Option.some.injEq] at h
          subst h
          exact Or.inl hi

theorem not_backwardRanked_closed (startType source : String) :
    backwardRanked (activeFlow startType) source "SERVIS_KAPALI" = false := by
  apply not_backwardRanked_of_both
  · have ht : flowPositionRanked STAGE_FLOW "SERVIS_KAPALI" = none := by decide
    unfold backwardRanked
    rw [ht]
    cases flowPositionRanked STAGE_FLOW source <;> rfl
  · have ht : flowPositionRanked SERVICE_STAGE_FLOW "SERVIS_KAPALI" = some (4, 0) := by decide
    unfold backwardRanked
    rw [ht]
    cases hs : flowPositionRanked SERVICE_STAGE_FLOW source with
    | none => rfl
    | some p =>
      rcases flowPositionRanked_service source p hs with h | h
      · simp [liesBefore]
        omega
      · subst h
        decide

/-- C9, as stated, fails: the stepper offers transitions other than the reactivation whose
target lies before the source in the flow order. From `FIYAT_VERILDI` with no price it offers
the return to `FIYATLANDIRMA`; from `SERVIS_ODEME_BEKLIYOR` the payment stage offers
`SERVIS_DEVAM_EDIYOR`; from `SERVIS_DEVAM_EDIYOR` the new appointment goes to
`SERVIS_RANDEVULU` or `SERVIS_YAPILIYOR`; from `ANLASMADA` the production panel goes to
`URETIMDE`; and with the view cursor moved to an earlier stage the measure panel of a
customer-measure job, the schedule panel and the start panel go back as well. -/
theorem reactivation_not_sole_backward_counterexample :
    (issuesBackward c9Priced { selectedStage := "pricing" } c9Clock Action.backToPricing = true ∧
      targetStatus c9Priced { selectedStage := "pricing" } c9Clock Action.backToPricing
        = some "FIYATLANDIRMA") ∧
    (issuesBackward c8Finalized { selectedStage := "service_payment" } c9Clock
        Action.paymentContinue = true ∧
      targetStatus c8Finalized { selectedStage := "service_payment" } c9Clock
        Action.paymentContinue = some "SERVIS_DEVAM_EDIYOR") ∧
    (issuesBackward c5Job { selectedStage := "service_work", inputs := c5Inputs } c9Clock
        Action.newServiceAppointment = true ∧
      targetStatus c5Job { selectedStage := "service_work", inputs := c5Inputs } c9Clock
        Action.newServiceAppointment = some "SERVIS_RANDEVULU") ∧
    (issuesBackward c5Job { selectedStage := "service_work", inputs := c9VisitNow } c9Clock
        Action.newServiceAppointment = true ∧
      targetStatus c5Job { selectedStage := "service_work", inputs := c9VisitNow } c9Clock
        Action.newServiceAppointment = some "SERVIS_YAPILIYOR") ∧
    (issuesBackward c9Agreed { selectedStage := "production" } c9Clock
        Action.updateProduction = true ∧
      targetStatus c9Agreed { selectedStage := "production" } c9Clock Action.updateProduction
        = some "URETIMDE") ∧
    issuesBackward c9CustomerMeasure { selectedStage := "measure", jobDocuments := c9Documents }
      c9Clock Action.goToPricing = true ∧
    issuesBackward c8Working { selectedStage := "service_schedule", inputs := c9Schedule }
      c9Clock Action.scheduleService = true ∧
    issuesBackward c8Finalized { selectedStage := "service_start" } c9Clock
      Action.startService = true := by
  refine ⟨⟨?_, rfl⟩, ⟨?_, rfl⟩, ⟨?_, rfl⟩, ⟨?_, rfl⟩, ⟨?_, rfl⟩, ?_, ?_, ?_⟩
  · simp [issuesBackward, offered, rendered, disabled, targetStatus, request, Request.status,
      c9Priced, originalTotal, numOrElse, numOr0, Offer.total, Offer.empty, offerRolePrices,
      Offer.rolePrices, priceOf, objGet, activeFlow]
    decide
  · decide
  · decide
  · decide
  · decide
  · decide
  · simp [issuesBackward, offered, rendered, disabled, targetStatus, request, Request.status,
      schedulePayload, truthyNum, c8Working, c9Schedule, activeFlow]
    decide
  · decide

/-- C9, amended: the reactivation is a backward transition but not the only one. With
`ANLASILAMADI` ranked where the status filter of the file groups it (a pricing status, after
`FIYAT_VERILDI`; the flow table omits it), every transition that the stepper offers for a job
whose status is not terminal and whose resulting status lies before the status of the job in
the active flow (an earlier stage, or an earlier status of the same stage) is the reactivation
from `ANLASILAMADI` to `FIYAT_VERILDI`, or the return from `FIYAT_VERILDI` to `FIYATLANDIRMA`,
or the new appointment from `SERVIS_DEVAM_EDIYOR` to `SERVIS_RANDEVULU` or `SERVIS_YAPILIYOR`,
or belongs to a panel that is shown whenever the view cursor selects its stage: the measure
panel of a customer-measure job, the production update, the service schedule, the service
start, 'Servis Devam Ediyor' of the payment stage, and the agreement, assembly and finance
panels, whose payload carries no status, so that the resulting status is the one assigned by
the job store. Every other transition keeps or advances the position. The resulting status is
the status written by the payload, or any status `assigned` by the store when the payload
carries none; the cursor is on a stage of the process map. -/
theorem backward_transitions (job : Job) (view : View) (clock : Clock) (action : Action)
    (assigned target : String)
    (hoff : offered job view action = true)
    (hres : resultingStatus job view clock action assigned = some target)
    (hsel : view.selectedStage ∈ processMapStages job)
    (hterm : job.status ≠ "KAPALI" ∧ job.status ≠ "SERVIS_KAPALI")
    (hback : backwardRanked (activeFlow job.startType) job.status target = true) :
    (action = Action.reactivate ∧ job.status = "ANLASILAMADI" ∧ target = "FIYAT_VERILDI") ∨
      (action = Action.backToPricing ∧ job.status = "FIYAT_VERILDI" ∧
        target = "FIYATLANDIRMA") ∨
      (action = Action.newServiceAppointment ∧ job.status = "SERVIS_DEVAM_EDIYOR" ∧
        (target = "SERVIS_RANDEVULU" ∨ target = "SERVIS_YAPILIYOR")) ∨
      (action = Action.goToPricing ∧ job.startType = "MUSTERI_OLCUSU") ∨
      action = Action.updateProduction ∨ action = Action.scheduleService ∨
      action = Action.startService ∨ action = Action.paymentContinue ∨
      ((action = Action.completeAgreement ∨ action = Action.scheduleAssembly ∨
          action = Action.completeAssembly ∨ action = Action.closeFinance) ∧
        targetStatus job view clock action = none ∧ target = assigned) := by
  have _ := hterm
  have key : ∀ s t : String, job.status = s → target = t →
      backwardRanked STAGE_FLOW s t = false → backwardRanked SERVICE_STAGE_FLOW s t = false →
      False := by
    intro s t hs ht h1 h2
    have := not_backwardRanked_of_both job.startType s t h1 h2
    rw [← hs, ← ht, hback] at this
    exact Bool.noConfusion this
  cases action
  case saveMeasureAppointment =>
    simp [offered, rendered, disabled] at hoff
    simp [resultingStatus, request, Request.status] at hres
    exact (key _ _ hoff.1.1.2 hres.symm (by decide) (by decide)).elim
  case measureTaken =>
    simp [offered, rendered, disabled] at hoff
    simp [resultingStatus, request, Request.status] at hres
    exact (key _ _ hoff.1.2 hres.symm (by decide) (by decide)).elim
  case goToPricing =>
    simp [offered, rendered, disabled] at hoff
    simp [resultingStatus, request, Request.status] at hres
    rcases hoff.1.1.1.2 with hs | hs
    · exact (key _ _ hs hres.symm (by decide) (by decide)).elim
    · exact Or.inr (Or.inr (Or.inr (Or.inl ⟨rfl, hs⟩)))
  case priceNotified =>
    simp [offered, rendered, disabled] at hoff
    simp [resultingStatus, request, Request.status, pricingPayload] at hres
    exact (key _ _ hoff.1.2 hres.symm (by decide) (by decide)).elim
  case backToPricing =>
    simp [offered, rendered, disabled] at hoff
    simp [resultingStatus, request, Request.status] at hres
    exact Or.inr (Or.inl ⟨rfl, hoff.1.1.2, hres.symm⟩)
  case confirmNegotiation =>
    simp [offered, rendered, disabled] at hoff
    simp [resultingStatus, request, Request.status, negotiationPayload] at hres
    exact (key _ _ hoff.1.1.2 hres.symm (by decide) (by decide)).elim
  case approvePrice =>
    simp [offered, rendered, disabled] at hoff
    simp [resultingStatus, request, Request.status, approvePayload] at hres
    exact (key _ _ hoff.1.1.2 hres.symm (by decide) (by decide)).elim
  case reject =>
    simp [offered, rendered, disabled] at hoff
    simp [resultingStatus, request, Request.status, rejectionPayload] at hres
    exact (key _ _ hoff.1.1.2 hres.symm (by decide) (by decide)).elim
  case reactivate =>
    simp [offered, rendered, disabled] at hoff
    simp [resultingStatus, request, Request.status, reactivationPayload] at hres
    exact Or.inl ⟨rfl, hoff.1.2, hres.symm⟩
  case completeAgreement =>
    refine Or.inr (Or.inr (Or.inr (Or.inr (Or.inr (Or.inr (Or.inr (Or.inr
      ⟨Or.inl rfl, ?_, ?_⟩)))))))
    · simp only [targetStatus, request]
      split_ifs <;> rfl
    · simp only [resultingStatus, request] at hres
      split_ifs at hres
      simp [Request.status] at hres
      exact hres.symm
  case saveReservation =>
    simp [offered, rendered, disabled] at hoff
    rw [hoff.1] at hsel
    unfold processMapStages at hsel
    rcases activeFlow_cases job.startType with h | h <;> rw [h] at hsel <;>
      exact absurd hsel (by decide)
  case updateProduction => simp
  case scheduleAssembly =>
    refine Or.inr (Or.inr (Or.inr (Or.inr (Or.inr (Or.inr (Or.inr (Or.inr
      ⟨Or.inr (Or.inl rfl), rfl, ?_⟩)))))))
    simp [resultingStatus, request, Request.status] at hres
    exact hres.symm
  case completeAssembly =>
    refine Or.inr (Or.inr (Or.inr (Or.inr (Or.inr (Or.inr (Or.inr (Or.inr
      ⟨Or.inr (Or.inr (Or.inl rfl)), rfl, ?_⟩)))))))
    simp [resultingStatus, request, Request.status] at hres
    exact hres.symm
  case closeFinance =>
    refine Or.inr (Or.inr (Or.inr (Or.inr (Or.inr (Or.inr (Or.inr (Or.inr
      ⟨Or.inr (Or.inr (Or.inr rfl)), rfl, ?_⟩)))))))
    simp [resultingStatus, request, Request.status] at hres
    exact hres.symm
  case scheduleService => simp
  case startService => simp
  case newServiceAppointment =>
    simp [offered, rendered, disabled] at hoff
    simp [resultingStatus, request, Request.status, continuePayload] at hres
    refine Or.inr (Or.inr (Or.inl ⟨rfl, hoff.1.2, ?_⟩))
    split_ifs at hres
    · exact Or.inl hres.symm
    · exact Or.inr hres.symm
  case completeAndContinue =>
    simp [offered, rendered, disabled] at hoff
    simp [resultingStatus, request, Request.status, completeContinuePayload] at hres
    exact (key _ _ hoff.1.2 hres.symm (by decide) (by decide)).elim
  case completeAndFinalize =>
    simp [offered, rendered, disabled] at hoff
    simp [resultingStatus, request, Request.status, finalizePayload] at hres
    exact (key _ _ hoff.1.2 hres.symm (by decide) (by decide)).elim
  case paymentContinue => simp
  case closeService =>
    simp [resultingStatus, request, Request.status, serviceClosePayload] at hres
    rw [← hres, not_backwardRanked_closed] at hback
    exact Bool.noConfusion hback

/-- The amended C9 at the rejected job `c7Rejected` with the cursor on `pricing`: the
reactivation is offered, its target `FIYAT_VERILDI` lies before `ANLASILAMADI`, and it is the
first kind of the list. -/
theorem backward_transitions_witness :
    backwardRanked (activeFlow c7Rejected.startType) c7Rejected.status "FIYAT_VERILDI" = true ∧
      ((Action.reactivate = Action.reactivate ∧ c7Rejected.status = "ANLASILAMADI" ∧
          "FIYAT_VERILDI" = "FIYAT_VERILDI") ∨
        (Action.reactivate = Action.backToPricing ∧ c7Rejected.status = "FIYAT_VERILDI" ∧
          "FIYAT_VERILDI" = "FIYATLANDIRMA") ∨
        (Action.reactivate = Action.newServiceAppointment ∧
          c7Rejected.status = "SERVIS_DEVAM_EDIYOR" ∧
          ("FIYAT_VERILDI" = "SERVIS_RANDEVULU" ∨ "FIYAT_VERILDI" = "SERVIS_YAPILIYOR")) ∨
        (Action.reactivate = Action.goToPricing ∧ c7Rejected.startType = "MUSTERI_OLCUSU") ∨
        Action.reactivate = Action.updateProduction ∨
        Action.reactivate = Action.scheduleService ∨
        Action.reactivate = Action.startService ∨
        Action.reactivate = Action.paymentContinue ∨
        ((Action.reactivate = Action.completeAgreement ∨
            Action.reactivate = Action.scheduleAssembly ∨
            Action.reactivate = Action.completeAssembly ∨
            Action.reactivate = Action.closeFinance) ∧
          targetStatus c7Rejected { selectedStage := "pricing" } c9Clock Action.reactivate
            = none ∧ "FIYAT_VERILDI" = "")) :=
  ⟨by decide,
    backward_transitions c7Rejected { selectedStage := "pricing" } c9Clock Action.reactivate ""
      "FIYAT_VERILDI" (by decide) rfl (by decide) (by decide) (by decide)⟩

/-- C10, evaluated on the code: for the closed job `c10Closed` (status `KAPALI`) the process
map lets the view cursor select `production`, where 'Güncelle' is enabled and sends
`updateProductionStatus` with status `URETIMDE`; for the closed service job `c10ServiceClosed`
(status `SERVIS_KAPALI`) the cursor can select `service_start`, where 'Servise Başla' is
enabled and sends `updateJobStatus` with status `SERVIS_YAPILIYOR`. Both updates carry a status
other than the terminal one of the job. -/
theorem closed_job_offers_updates :
    c10Closed.status = "KAPALI" ∧
      "production" ∈ processMapStages c10Closed ∧
      (markStage { selectedStage := "finance" } "production").selectedStage = "production" ∧
      offered c10Closed { selectedStage := "production" } Action.updateProduction = true ∧
      targetStatus c10Closed { selectedStage := "production" } c9Clock Action.updateProduction
        = some "URETIMDE" ∧
      c10ServiceClosed.status = "SERVIS_KAPALI" ∧
      "service_start" ∈ processMapStages c10ServiceClosed ∧
      (markStage { selectedStage := "service_done" } "service_start").selectedStage
        = "service_start" ∧
      offered c10ServiceClosed { selectedStage := "service_start" } Action.startService = true ∧
      targetStatus c10ServiceClosed { selectedStage := "service_start" } c9Clock
        Action.startService = some "SERVIS_YAPILIYOR" := by
  refine ⟨rfl, ?_, rfl, ?_, rfl, rfl, ?_, rfl, ?_, rfl⟩ <;> decide

/-- C11: for every status and every non-empty flow, `findStageByStatusForFlow` returns a
stage of the flow (it never fails): when some stage lists the status it is the first stage of
the flow that lists it, and when no stage lists the status it is the first stage of the flow.
The module-level `findStageByStatus` is the same function at `STAGE_FLOW`. -/
theorem findStageByStatusForFlow_classifies (status : String) (flow : List Stage) (hne : flow ≠ []) :
    ∃ stage, findStageByStatusForFlow status flow = some stage ∧ stage ∈ flow ∧
      ((∃ s ∈ flow, status ∈ s.statuses) →
        status ∈ stage.statuses ∧
          ∃ before after, flow = before ++ stage :: after ∧
            ∀ s ∈ before, status ∉ s.statuses) ∧
      ((∀ s ∈ flow, status ∉ s.statuses) → flow.head? = some stage) ∧
      findStageByStatus status = findStageByStatusForFlow status STAGE_FLOW := by
  unfold findStageByStatusForFlow
  cases hfind : flow.find? (fun stage => stage.statuses.contains status) with
  | some stage =>
    refine ⟨stage, rfl, List.mem_of_find?_eq_some hfind, ?_, ?_, rfl⟩
    · intro _
      rw [List.find?_eq_some] at hfind
      obtain ⟨hp, before, after, hsplit, hbefore⟩ := hfind
      refine ⟨by simpa using hp, before, after, hsplit, ?_⟩
      intro s hs
      simpa using hbefore s hs
    · intro hnone
      have := List.find?_some hfind
      exact absurd (by simpa using this) (hnone stage (List.mem_of_find?_eq_some hfind))
  | none =>
    cases flow with
    | nil => exact absurd rfl hne
    | cons first rest =>
      refine ⟨first, rfl, List.mem_cons_self _ _, ?_, ?_, rfl⟩
      · rintro ⟨s, hs, hmem⟩
        rw [List.find?_eq_none] at hfind
        exact absurd (by simpa using hmem) (hfind s hs)
      · intro _
        rfl

/-- C11 at `STAGE_FLOW`, a non-empty flow, and the status `FIYAT_VERILDI`. -/
theorem findStageByStatusForFlow_classifies_witness :
    ∃ stage, findStageByStatusForFlow "FIYAT_VERILDI" STAGE_FLOW = some stage ∧
      stage ∈ STAGE_FLOW ∧
      ((∃ s ∈ STAGE_FLOW, "FIYAT_VERILDI" ∈ s.statuses) →
        "FIYAT_VERILDI" ∈ stage.statuses ∧
          ∃ before after, STAGE_FLOW = before ++ stage :: after ∧
            ∀ s ∈ before, "FIYAT_VERILDI" ∉ s.statuses) ∧
      ((∀ s ∈ STAGE_FLOW, "FIYAT_VERILDI" ∉ s.statuses) → STAGE_FLOW.head? = some stage) ∧
      findStageByStatus "FIYAT_VERILDI" = findStageByStatusForFlow "FIYAT_VERILDI" STAGE_FLOW :=
  findStageByStatusForFlow_classifies "FIYAT_VERILDI" STAGE_FLOW (by decide)

/-- C12: in `STAGE_FLOW` and in `SERVICE_STAGE_FLOW` every stage has a non-empty list of
statuses, the stage ids of the two flows are pairwise distinct, and the statuses of the two
flows are pairwise distinct (no status twice in a stage, in two stages of a flow, or in both
flows); hence for every status listed by a stage, classification in the flow of that stage
returns that stage, and it is the only stage of either flow that lists the status. -/
theorem stage_flows_well_formed :
    (∀ stage ∈ STAGE_FLOW, stage.statuses ≠ []) ∧
    (∀ stage ∈ SERVICE_STAGE_FLOW, stage.statuses ≠ []) ∧
    ((STAGE_FLOW ++ SERVICE_STAGE_FLOW).map (fun stage => stage.id)).Nodup ∧
    ((STAGE_FLOW ++ SERVICE_STAGE_FLOW).flatMap (fun stage => stage.statuses)).Nodup ∧
    (∀ stage ∈ STAGE_FLOW, ∀ status ∈ stage.statuses,
      findStageByStatusForFlow status STAGE_FLOW = some stage ∧
        ∀ other ∈ STAGE_FLOW ++ SERVICE_STAGE_FLOW, status ∈ other.statuses → other = stage) ∧
    (∀ stage ∈ SERVICE_STAGE_FLOW, ∀ status ∈ stage.statuses,
      findStageByStatusForFlow status SERVICE_STAGE_FLOW = some stage ∧
        ∀ other ∈ STAGE_FLOW ++ SERVICE_STAGE_FLOW, status ∈ other.statuses → other = stage) := by
  decide

theorem stageStateAt_STAGE_FLOW :
    ∀ c, c < STAGE_FLOW.length → ∀ i, i < STAGE_FLOW.length →
      ∀ current ∈ STAGE_FLOW[c]?, ∀ stage ∈ STAGE_FLOW[i]?,
        findIndex (fun s => s.id == stage.id) STAGE_FLOW = (i : Int) ∧
        stageStateAt STAGE_FLOW current stage.id =
          (if i < c then "done" else if i = c then "current" else "pending") := by
  decide

theorem stageStateAt_SERVICE_STAGE_FLOW :
    ∀ c, c < SERVICE_STAGE_FLOW.length → ∀ i, i < SERVICE_STAGE_FLOW.length →
      ∀ current ∈ SERVICE_STAGE_FLOW[c]?, ∀ stage ∈ SERVICE_STAGE_FLOW[i]?,
        findIndex (fun s => s.id == stage.id) SERVICE_STAGE_FLOW = (i : Int) ∧
        stageStateAt SERVICE_STAGE_FLOW current stage.id =
          (if i < c then "done" else if i = c then "current" else "pending") := by
  decide

theorem stageStateAt_activeFlow (startType : String) (c i : Nat) (current stage : Stage)
    (hc : (activeFlow startType)[c]? = some current)
    (hi : (activeFlow startType)[i]? = some stage) :
    findIndex (fun s => s.id == stage.id) (activeFlow startType) = (i : Int) ∧
      stageStateAt (activeFlow startType) current stage.id =
        (if i < c then "done" else if i = c then "current" else "pending") := by
  have hcl : c < (activeFlow startType).length := (List.getElem?_eq_some.mp hc).1
  have hil : i < (activeFlow startType).length := (List.getElem?_eq_some.mp hi).1
  rcases activeFlow_cases startType with h | h
  · rw [h] at hc hi hcl hil ⊢
    exact stageStateAt_SERVICE_STAGE_FLOW c hcl i hil current hc stage hi
  · rw [h] at hc hi hcl hil ⊢
    exact stageStateAt_STAGE_FLOW c hcl i hil current hc stage hi

theorem findStage_first (status : String) (flow : List Stage) (hne : flow ≠ []) :
    ∃ stage, findStageByStatusForFlow status flow = some stage := by
  unfold findStageByStatusForFlow
  cases hfind : flow.find? (fun stage => stage.statuses.contains status) with
  | some stage => exact ⟨stage, rfl⟩
  | none =>
    cases flow with
    | nil => exact absurd rfl hne
    | cons first rest => exact ⟨first, rfl⟩

theorem findStage_mem (status : String) (flow : List Stage) (stage : Stage)
    (h : findStageByStatusForFlow status flow = some stage) : stage ∈ flow := by
  unfold findStageByStatusForFlow at h
  cases hfind : flow.find? (fun stage => stage.statuses.contains status) with
  | some found =>
    rw [hfind] at h
    cases h
    exact List.mem_of_find?_eq_some hfind
  | none =>
    rw [hfind] at h
    exact List.mem_of_mem_head? h

theorem activeFlow_ne_nil (startType : String) : activeFlow startType ≠ [] := by
  rcases activeFlow_cases startType with h | h <;> rw [h] <;> decide

/-- C14: the current stage of a job is a stage of its active flow, at some index `c`, and
`stageState(id)` is 'done' exactly when the index of `id` in the flow is below the index of the
current stage, 'current' exactly when the two are equal and 'pending' exactly when it is above.
For the stage at index `i` of the flow, whose index by id is `i`, the state is 'done' for
`i < c`, 'current' for `i = c` and 'pending' for `i > c`; so the stage at `c` is the only one
that is 'current'. -/
theorem stageState_by_index (job : Job) :
    ∃ c current, c < (activeFlow job.startType).length ∧
      currentStage job = some current ∧ (activeFlow job.startType)[c]? = some current ∧
      (∀ id, stageState job id = some (stageStateAt (activeFlow job.startType) current id)) ∧
      (∀ id,
        (stageState job id = some "done" ↔
          findIndex (fun s => s.id == id) (activeFlow job.startType)
            < findIndex (fun s => s.id == current.id) (activeFlow job.startType)) ∧
        (stageState job id = some "current" ↔
          findIndex (fun s => s.id == id) (activeFlow job.startType)
            = findIndex (fun s => s.id == current.id) (activeFlow job.startType)) ∧
        (stageState job id = some "pending" ↔
          findIndex (fun s => s.id == id) (activeFlow job.startType)
            > findIndex (fun s => s.id == current.id) (activeFlow job.startType))) ∧
      ∀ (i : Nat) (stage : Stage), (activeFlow job.startType)[i]? = some stage →
        (findIndex (fun s => s.id == stage.id) (activeFlow job.startType) = (i : Int)) ∧
        stageState job stage.id
          = some (if i < c then "done" else if i = c then "current" else "pending") ∧
        (stageState job stage.id = some "current" ↔ i = c) := by
  have hne := activeFlow_ne_nil job.startType
  obtain ⟨current, hcur⟩ :=
    findStage_first (strOr job.status "OLCU_RANDEVU_BEKLIYOR") (activeFlow job.startType) hne
  have hcur' : currentStage job = some current := hcur
  have hmem : current ∈ activeFlow job.startType := findStage_mem _ _ _ hcur
  obtain ⟨c, hc⟩ := List.mem_iff_getElem?.mp hmem
  have hstate : ∀ id, stageState job id
      = some (stageStateAt (activeFlow job.startType) current id) := by
    intro id
    simp [stageState, hcur']
  refine ⟨c, current, (List.getElem?_eq_some.mp hc).1, hcur', hc, hstate, ?_, ?_⟩
  · intro id
    rw [hstate id]
    simp only [stageStateAt, Option.some.injEq]
    refine ⟨?_, ?_, ?_⟩
    · split_ifs with h1 h2 <;> simp_all
    · split_ifs with h1 h2 <;> simp_all
      all_goals omega
    · split_ifs with h1 h2 <;> simp_all
      all_goals omega
  · intro i stage hi
    obtain ⟨hidx, hst⟩ := stageStateAt_activeFlow job.startType c i current stage hc hi
    refine ⟨hidx, by rw [hstate, hst], ?_⟩
    rw [hstate, hst]
    split_ifs with h1 h2 <;> simp_all
    all_goals omega

theorem standard_flow_of_stage (job : Job) (view : View) (stageId : String)
    (hsel : view.selectedStage ∈ processMapStages job)
    (heq : view.selectedStage = stageId)
    (hstd : stageId ∈ STAGE_FLOW.map (fun stage => stage.id)) :
    activeFlow job.startType = STAGE_FLOW := by
  rcases activeFlow_cases job.startType with h | h
  · exfalso
    rw [processMapStages, h, heq] at hsel
    have hdisjoint : ∀ x ∈ SERVICE_STAGE_FLOW.map (fun stage => stage.id),
        x ∉ STAGE_FLOW.map (fun stage => stage.id) := by decide
    exact hdisjoint _ hsel hstd
  · exact h

theorem written_status_listed_cases (job : Job) (view : View) (clock : Clock) (action : Action)
    (target : String)
    (hoff : offered job view action = true)
    (htgt : targetStatus job view clock action = some target)
    (hsel : view.selectedStage ∈ processMapStages job)
    (hprod : view.inputs.productionStatus ∈ ["URETIMDE", "MONTAJA_HAZIR", "ANLASMADA"])
    (hrej : action ≠ Action.reject) :
    ∃ stage, findStageByStatusForFlow target (activeFlow job.startType) = some stage ∧
      target ∈ stage.statuses := by
  have std : ∀ stageId t : String, view.selectedStage = stageId → target = t →
      stageId ∈ STAGE_FLOW.map (fun stage => stage.id) →
      (∃ stage, findStageByStatusForFlow t STAGE_FLOW = some stage ∧ t ∈ stage.statuses) →
      ∃ stage, findStageByStatusForFlow target (activeFlow job.startType) = some stage ∧
        target ∈ stage.statuses := by
    intro stageId t hs ht hmem hex
    rw [standard_flow_of_stage job view stageId hsel hs hmem, ht]
    exact hex
  have srv : ∀ t : String, job.startType = "SERVIS" → target = t →
      (∃ stage, findStageByStatusForFlow t SERVICE_STAGE_FLOW = some stage ∧
        t ∈ stage.statuses) →
      ∃ stage, findStageByStatusForFlow target (activeFlow job.startType) = some stage ∧
        target ∈ stage.statuses := by
    intro t hs ht hex
    rw [ht]
    simpa [activeFlow, hs] using hex
  cases action
  case saveMeasureAppointment =>
    simp [offered, rendered, disabled] at hoff
    simp [targetStatus, request, Request.status] at htgt
    exact std "measure" _ hoff.1.1.1 htgt.symm (by decide) ⟨_, rfl, by decide⟩
  case measureTaken =>
    simp [offered, rendered, disabled] at hoff
    simp [targetStatus, request, Request.status] at htgt
    exact std "measure" _ hoff.1.1 htgt.symm (by decide) ⟨_, rfl, by decide⟩
  case goToPricing =>
    simp [offered, rendered, disabled] at hoff
    simp [targetStatus, request, Request.status] at htgt
    exact std "measure" _ hoff.1.1.1.1 htgt.symm (by decide) ⟨_, rfl, by decide⟩
  case priceNotified =>
    simp [offered, rendered, disabled] at hoff
    simp [targetStatus, request, Request.status, pricingPayload] at htgt
    exact std "pricing" _ hoff.1.1 htgt.symm (by decide) ⟨_, rfl, by decide⟩
  case backToPricing =>
    simp [offered, rendered, disabled] at hoff
    simp [targetStatus, request, Request.status] at htgt
    exact std "pricing" _ hoff.1.1.1 htgt.symm (by decide) ⟨_, rfl, by decide⟩
  case confirmNegotiation =>
    simp [offered, rendered, disabled] at hoff
    simp [targetStatus, request, Request.status, negotiationPayload] at htgt
    exact std "pricing" _ hoff.1.1.1 htgt.symm (by decide) ⟨_, rfl, by decide⟩
  case approvePrice =>
    simp [offered, rendered, disabled] at hoff
    simp [targetStatus, request, Request.status, approvePayload] at htgt
    exact std "pricing" _ hoff.1.1.1 htgt.symm (by decide) ⟨_, rfl, by decide⟩
  case reject => exact absurd rfl hrej
  case reactivate =>
    simp [offered, rendered, disabled] at hoff
    simp [targetStatus, request, Request.status, reactivationPayload] at htgt
    exact std "pricing" _ hoff.1.1 htgt.symm (by decide) ⟨_, rfl, by decide⟩
  case completeAgreement =>
    simp only [targetStatus, request] at htgt
    split at htgt
    · rename_i r h
      split_ifs at h
      cases h
      simp [Request.status] at htgt
    · simp at htgt
  case saveReservation => simp [targetStatus, request, Request.status] at htgt
  case updateProduction =>
    simp [offered, rendered, disabled] at hoff
    simp [targetStatus, request, Request.status] at htgt
    simp only [List.mem_cons, List.mem_singleton, List.not_mem_nil, or_false] at hprod
    rcases hprod with h | h | h
    · exact std "production" _ hoff.1 (htgt.symm.trans h) (by decide) ⟨_, rfl, by decide⟩
    · exact std "production" _ hoff.1 (htgt.symm.trans h) (by decide) ⟨_, rfl, by decide⟩
    · exact std "production" _ hoff.1 (htgt.symm.trans h) (by decide) ⟨_, rfl, by decide⟩
  case scheduleAssembly => simp [targetStatus, request, Request.status] at htgt
  case completeAssembly => simp [targetStatus, request, Request.status] at htgt
  case closeFinance => simp [targetStatus, request, Request.status] at htgt
  case scheduleService =>
    simp [offered, rendered, disabled] at hoff
    simp [targetStatus, request, Request.status, schedulePayload] at htgt
    exact srv _ hoff.1.1 htgt.symm ⟨_, rfl, by decide⟩
  case startService =>
    simp [offered, rendered, disabled] at hoff
    simp [targetStatus, request, Request.status, startPayload] at htgt
    exact srv _ hoff.1.1 htgt.symm ⟨_, rfl, by decide⟩
  case newServiceAppointment =>
    simp [offered, rendered, disabled] at hoff
    simp [targetStatus, request, Request.status, continuePayload] at htgt
    split_ifs at htgt
    · exact srv _ hoff.1.1.1 htgt.symm ⟨_, rfl, by decide⟩
    · exact srv _ hoff.1.1.1 htgt.symm ⟨_, rfl, by decide⟩
  case completeAndContinue =>
    simp [offered, rendered, disabled] at hoff
    simp [targetStatus, request, Request.status, completeContinuePayload] at htgt
    exact srv _ hoff.1.1.1 htgt.symm ⟨_, rfl, by decide⟩
  case completeAndFinalize =>
    simp [offered, rendered, disabled] at hoff
    simp [targetStatus, request, Request.status, finalizePayload] at htgt
    exact srv _ hoff.1.1.1 htgt.symm ⟨_, rfl, by decide⟩
  case paymentContinue =>
    simp [offered, rendered, disabled] at hoff
    simp [targetStatus, request, Request.status, paymentContinuePayload] at htgt
    exact srv _ hoff.1.1 htgt.symm ⟨_, rfl, by decide⟩
  case closeService =>
    have hr : rendered job view Action.closeService = true := by
      simp only [offered, Bool.and_eq_true] at hoff
      exact hoff.1
    simp [rendered] at hr
    simp [targetStatus, request, Request.status, serviceClosePayload] at htgt
    exact srv _ hr.1 htgt.symm ⟨_, rfl, by decide⟩

/-- C13, evaluated on the code: the rejection button offered for `c7Job` writes the status
`ANLASILAMADI`, which no stage of either flow lists. The rejected job `c7Rejected` is therefore
classified by the fallback as the first stage `measure`, where the panel of the rejected job is
not rendered (it is rendered under `pricing`). The production target `MONTAJA_HAZIR` is listed
by the stage `assembly`, and every status written by an offered action other than the
rejection is listed by a stage of the active flow of the job. -/
theorem rejected_status_unlisted :
    (offered c7Job c13View Action.reject = true ∧
      targetStatus c7Job c13View c9Clock Action.reject = some "ANLASILAMADI") ∧
    (∀ stage ∈ STAGE_FLOW ++ SERVICE_STAGE_FLOW, "ANLASILAMADI" ∉ stage.statuses) ∧
    c7Rejected.status = "ANLASILAMADI" ∧
    currentStage c7Rejected = STAGE_FLOW.head? ∧
    (currentStage c7Rejected).map (fun stage => stage.id) = some "measure" ∧
    rendered c7Rejected { selectedStage := "measure" } Action.reactivate = false ∧
    rendered c7Rejected { selectedStage := "pricing" } Action.reactivate = true ∧
    (findStageByStatusForFlow "MONTAJA_HAZIR" STAGE_FLOW).map (fun stage => stage.id)
      = some "assembly" ∧
    (∀ (job : Job) (view : View) (clock : Clock) (action : Action) (target : String),
      offered job view action = true →
      targetStatus job view clock action = some target →
      view.selectedStage ∈ processMapStages job →
      view.inputs.productionStatus ∈ ["URETIMDE", "MONTAJA_HAZIR", "ANLASMADA"] →
      action ≠ Action.reject →
      ∃ stage, findStageByStatusForFlow target (activeFlow job.startType) = some stage ∧
        target ∈ stage.statuses) := by
  refine ⟨⟨?_, rfl⟩, ?_, rfl, ?_, ?_, ?_, ?_, ?_, ?_⟩
  · decide
  · decide
  · decide
  · decide
  · decide
  · decide
  · decide
  · intro job view clock action target hoff htgt hsel hprod hrej
    exact written_status_listed_cases job view clock action target hoff htgt hsel hprod hrej

theorem foldl_append_eq_flatMap {α β : Type} (f : α → List β) (l : List α) (init : List β) :
    l.foldl (fun acc a => acc ++ f a) init = init ++ l.flatMap f := by
  induction l generalizing init with
  | nil => simp
  | cons a t ih => simp [List.foldl_cons, ih, List.flatMap_cons, List.append_assoc]

theorem validationErrors_pricing (job : Job) (inputs : Inputs) :
    validationErrors job inputs "FIYATLANDIRMA" =
      (if job.startType = "MUSTERI_OLCUSU" then job.roles.flatMap (roleFileErrors job) else [])
        ++ (if job.startType = "OLCU" ∧ inputs.measureConfirmed = false then
              [ValidationError.measureNotConfirmed]
            else []) := by
  simp [validationErrors, foldl_append_eq_flatMap]

/-- C15: `validateStageTransition('FIYATLANDIRMA')` accepts (no error recorded, result `true`)
exactly when, for a job started with `MUSTERI_OLCUSU`, every role has at least one measurement
drawing and at least one technical drawing under its role key in `job.roleFiles`, and, for a
job started with `OLCU`, the measurement is marked confirmed. -/
theorem validateStageTransition_pricing_iff (job : Job) (inputs : Inputs) :
    (validationErrors job inputs "FIYATLANDIRMA" = [] ∧
        validateStageTransition job inputs "FIYATLANDIRMA" = true) ↔
      ((job.startType = "MUSTERI_OLCUSU" →
          ∀ role ∈ job.roles,
            (roleFilesOf job role).measure ≠ [] ∧ (roleFilesOf job role).technical ≠ []) ∧
        (job.startType = "OLCU" → inputs.measureConfirmed = true)) := by
  have hok : validateStageTransition job inputs "FIYATLANDIRMA" = true ↔
      validationErrors job inputs "FIYATLANDIRMA" = [] := by
    simp [validateStageTransition]
  rw [hok, and_self, validationErrors_pricing]
  simp only [List.append_eq_nil]
  constructor
  · rintro ⟨h1, h2⟩
    refine ⟨fun hs role hrole => ?_, fun hs => ?_⟩
    · rw [if_pos hs] at h1
      have := (List.flatMap_eq_nil_iff.mp h1) role hrole
      simp only [roleFileErrors, ← roleFilesOf.eq_1, List.append_eq_nil] at this
      constructor
      · intro hm
        have := this.1
        simp [hm] at this
      · intro ht
        have := this.2
        simp [ht] at this
    · by_contra hc
      have hc' : inputs.measureConfirmed = false := by simpa using hc
      rw [if_pos ⟨hs, hc'⟩] at h2
      exact absurd h2 (by simp)
  · rintro ⟨h1, h2⟩
    constructor
    · split_ifs with hs
      · rw [List.flatMap_eq_nil_iff]
        intro role hrole
        obtain ⟨hm, ht⟩ := h1 hs role hrole
        simp [roleFileErrors, ← roleFilesOf.eq_1, hm, ht]
      · rfl
    · split_ifs with hs
      · have := h2 hs.1
        rw [hs.2] at this
        exact absurd this (by decide)
      · rfl

theorem roleFileErrors_eq (job : Job) (role : Role) :
    roleFileErrors job role =
      (if (roleFilesOf job role).measure = [] then
          [ValidationError.measureDrawingMissing role.name] else [])
        ++ (if (roleFilesOf job role).technical = [] then
              [ValidationError.technicalDrawingMissing role.name] else []) := by
  simp [roleFileErrors, roleFilesOf]

theorem length_flatMap_roleFileErrors (job : Job) (roles : List Role) :
    (roles.flatMap (roleFileErrors job)).length =
      roles.countP (fun role => decide ((roleFilesOf job role).measure = []))
        + roles.countP (fun role => decide ((roleFilesOf job role).technical = [])) := by
  induction roles with
  | nil => rfl
  | cons role rest ih =>
    rw [List.flatMap_cons, List.length_append, ih, roleFileErrors_eq, List.countP_cons,
      List.countP_cons]
    by_cases hm : (roleFilesOf job role).measure = [] <;>
      by_cases ht : (roleFilesOf job role).technical = [] <;> simp [hm, ht] <;> omega

/-- C16: for a job started with `MUSTERI_OLCUSU` the errors of
`validateStageTransition('FIYATLANDIRMA')` are, role by role in the order of `job.roles`, the
measurement message when the role has no measurement drawing followed by the technical message
when it has no technical drawing; so their number is the number of roles without a measurement
drawing plus the number of roles without a technical drawing. -/
theorem validation_lists_every_drawing (job : Job) (inputs : Inputs)
    (hs : job.startType = "MUSTERI_OLCUSU") :
    validationErrors job inputs "FIYATLANDIRMA" =
        job.roles.flatMap (fun role =>
          (if (roleFilesOf job role).measure = [] then
              [ValidationError.measureDrawingMissing role.name] else [])
            ++ (if (roleFilesOf job role).technical = [] then
                  [ValidationError.technicalDrawingMissing role.name] else [])) ∧
      (validationErrors job inputs "FIYATLANDIRMA").length =
        job.roles.countP (fun role => decide ((roleFilesOf job role).measure = []))
          + job.roles.countP (fun role => decide ((roleFilesOf job role).technical = [])) := by
  have hno : ¬ (job.startType = "OLCU" ∧ inputs.measureConfirmed = false) := by
    rintro ⟨h, _⟩
    rw [hs] at h
    exact absurd h (by decide)
  have herr : validationErrors job inputs "FIYATLANDIRMA"
      = job.roles.flatMap (roleFileErrors job) := by
    rw [validationErrors_pricing, if_pos hs, if_neg hno, List.append_nil]
  refine ⟨?_, ?_⟩
  · rw [herr]
    congr 1
    funext role
    exact roleFileErrors_eq job role
  · rw [herr]
    exact length_flatMap_roleFileErrors job job.roles

/-- C16 at `c16Job`: the first role lacks its technical drawing and the second lacks both, which
gives three messages. -/
theorem validation_lists_every_drawing_witness :
    validationErrors c16Job {} "FIYATLANDIRMA" =
        c16Job.roles.flatMap (fun role =>
          (if (roleFilesOf c16Job role).measure = [] then
              [ValidationError.measureDrawingMissing role.name] else [])
            ++ (if (roleFilesOf c16Job role).technical = [] then
                  [ValidationError.technicalDrawingMissing role.name] else [])) ∧
      (validationErrors c16Job {} "FIYATLANDIRMA").length =
        c16Job.roles.countP (fun role => decide ((roleFilesOf c16Job role).measure = []))
          + c16Job.roles.countP (fun role => decide ((roleFilesOf c16Job role).technical = [])) :=
  validation_lists_every_drawing c16Job {} (by decide)

theorem truthyNum_eq_false (v : Option ℚ) : truthyNum v = false ↔ numOr0 v = 0 := by
  cases v with
  | none => simp [truthyNum, numOr0]
  | some x => simp [truthyNum, numOr0]

theorem sum_numOr0_eq_zero (values : List (Option ℚ))
    (hnonneg : ∀ v ∈ values, 0 ≤ numOr0 v) :
    (values.map numOr0).sum = 0 ↔ ∀ v ∈ values, truthyNum v = false := by
  induction values with
  | nil => simp
  | cons a rest ih =>
    have ha : 0 ≤ numOr0 a := hnonneg a (List.mem_cons_self _ _)
    have hrest : ∀ v ∈ rest, 0 ≤ numOr0 v := fun v hv => hnonneg v (List.mem_cons_of_mem _ hv)
    have hsum : 0 ≤ (rest.map numOr0).sum :=
      List.sum_nonneg (by
        intro x hx
        obtain ⟨v, hv, rfl⟩ := List.mem_map.mp hx
        exact hrest v hv)
    simp only [List.map_cons, List.sum_cons, List.mem_cons, forall_eq_or_imp,
      truthyNum_eq_false a]
    constructor
    · intro h
      have h1 : numOr0 a = 0 := by linarith
      have h2 : (rest.map numOr0).sum = 0 := by linarith
      exact ⟨h1, (ih hrest).mp h2⟩
    · rintro ⟨h1, h2⟩
      rw [h1, (ih hrest).mpr h2, add_zero]

/-- C17, as stated, fails: with a role price present and equal to 0 and an explicit offer total
of 500, the sum of the role prices is 0, yet `validateStageTransition('TEKLIF_HAZIR')` accepts,
because it then takes the explicit total. -/
theorem validateStageTransition_offer_counterexample :
    c17Inputs.rolePrices ≠ [] ∧
      ((objValues c17Inputs.rolePrices).map numOr0).sum = 0 ∧
      validationErrors c1Job c17Inputs "TEKLIF_HAZIR" = [] ∧
      validateStageTransition c1Job c17Inputs "TEKLIF_HAZIR" = true := by
  refine ⟨by simp [c17Inputs], by simp [c17Inputs, objValues, numOr0], ?_, ?_⟩
  · simp [validationErrors, c17Inputs, objValues, numOr0, numOrElse]
  · simp [validateStageTransition, validationErrors, c17Inputs, objValues, numOr0, numOrElse]

theorem validationErrors_offer (job : Job) (inputs : Inputs) :
    (validationErrors job inputs "TEKLIF_HAZIR" = [] ∧
        validateStageTransition job inputs "TEKLIF_HAZIR" = true) ↔
      0 < (if ((objValues inputs.rolePrices).map numOr0).sum = 0 then numOr0 inputs.offerTotal
          else ((objValues inputs.rolePrices).map numOr0).sum) := by
  have hok : validateStageTransition job inputs "TEKLIF_HAZIR" = true ↔
      validationErrors job inputs "TEKLIF_HAZIR" = [] := by
    simp [validateStageTransition]
  rw [hok, and_self]
  have hsum : (objValues inputs.rolePrices).foldl (fun sum val => sum + numOr0 val) 0
      = ((objValues inputs.rolePrices).map numOr0).sum := by
    rw [foldl_add_eq_sum]; simp
  simp only [validationErrors, hsum, numOrElse]
  simp only [show ("TEKLIF_HAZIR" = "FIYATLANDIRMA") = False from by decide,
    show ("TEKLIF_HAZIR" = "ONAY_BEKLIYOR") = False from by decide, if_false, if_true,
    List.nil_append, List.append_nil]
  constructor
  · intro h
    by_contra hc
    rw [not_lt] at hc
    rw [if_pos (Or.inr hc)] at h
    exact absurd h (by simp)
  · intro h
    rw [if_neg]
    rintro (h0 | hle)
    · rw [h0] at h; exact lt_irrefl _ h
    · exact absurd h (not_lt.mpr hle)

/-- C17, amended: `validateStageTransition('TEKLIF_HAZIR')` accepts exactly when total > 0,
where total is the sum of the role prices when that sum is not 0 and the explicit offer total
otherwise. For role prices that are not negative the sum is 0 exactly when no role price is
entered (every value empty or 0), whether or not the map of role prices has keys. -/
theorem validateStageTransition_offer_iff :
    (∀ (job : Job) (inputs : Inputs),
      (validationErrors job inputs "TEKLIF_HAZIR" = [] ∧
          validateStageTransition job inputs "TEKLIF_HAZIR" = true) ↔
        0 < (if ((objValues inputs.rolePrices).map numOr0).sum = 0 then
              numOr0 inputs.offerTotal
            else ((objValues inputs.rolePrices).map numOr0).sum)) ∧
    (∀ inputs : Inputs, (∀ v ∈ objValues inputs.rolePrices, 0 ≤ numOr0 v) →
      (((objValues inputs.rolePrices).map numOr0).sum = 0 ↔
        ∀ v ∈ objValues inputs.rolePrices, truthyNum v = false)) :=
  ⟨validationErrors_offer, fun inputs h => sum_numOr0_eq_zero (objValues inputs.rolePrices) h⟩

theorem int_tolerance (m n : ℤ) : |(m : ℚ) - n| ≤ 1 / 100 ↔ (m : ℚ) = n := by
  constructor
  · intro h
    by_contra hne
    have hne' : m - n ≠ 0 := by
      intro h0
      apply hne
      have : m = n := by omega
      rw [this]
    have h1 : (1 : ℤ) ≤ |m - n| := Int.one_le_abs hne'
    have h2 : ((1 : ℤ) : ℚ) ≤ ((|m - n| : ℤ) : ℚ) := by exact_mod_cast h1
    have h3 : ((|m - n| : ℤ) : ℚ) = |(m : ℚ) - n| := by push_cast; rfl
    rw [h3] at h2
    norm_num at h2
    linarith
  · intro h
    rw [h]
    norm_num

/-- C18, evaluated on the code. For `c18Job`, whose stored offer total is 10000.005, and the
plan 4000 + 2000 + 3000 + 1000 the plan total is within 0.01 of the offer total, the cheque
lines sum to the cheque total and `validateStageTransition('ONAY_BEKLIYOR')` accepts; yet
'Anlaşmayı Tamamla' is disabled and its handler throws before any approval request is made,
because button and handler compare with strict equality. In general, with the cursor on the
agreement stage and no action in flight the button is enabled exactly when the payment total
equals the offer total value; then the handler sends the approval request with the plan, and
otherwise the button is disabled and the handler throws before calling the store. The offer
total value is `job.offer.total` whenever the form mirrors the offer of the job, and for
whole-number amounts exact equality and equality within 0.01 are the same, so there the claim
holds: the plan 4000 + 2000 + 3000 + 1000 for the offer of 10000 is accepted. -/
theorem agreement_closure_strict :
    (paymentTotal c18Plan = 10000 ∧
        numOr0 c18Job.offer.total = 10000 + 1 / 200 ∧
        |paymentTotal c18Plan - numOr0 c18Job.offer.total| ≤ 1 / 100 ∧
        c18Plan.chequeLines.foldl (fun sum c => sum + numOr0 c.amount) 0
          = chequeTotal c18Plan ∧
        validationErrors c18Job c18Plan "ONAY_BEKLIYOR" = [] ∧
        validateStageTransition c18Job c18Plan "ONAY_BEKLIYOR" = true ∧
        offered c18Job { selectedStage := "agreement", inputs := c18Plan }
          Action.completeAgreement = false ∧
        request c18Job { selectedStage := "agreement", inputs := c18Plan } c9Clock
          Action.completeAgreement
            = Except.error "Ödeme toplamı teklif tutarıyla eşleşmiyor.") ∧
    (∀ (job : Job) (view : View), view.selectedStage = "agreement" →
      view.actionLoading = false →
      (offered job view Action.completeAgreement = true ↔
        paymentTotal view.inputs = offerTotalValue job view.inputs)) ∧
    (∀ (job : Job) (view : View) (clock : Clock),
      paymentTotal view.inputs = offerTotalValue job view.inputs →
      request job view clock Action.completeAgreement =
        Except.ok (Request.startJobApproval
          { cash := numOr0 view.inputs.payCash, card := numOr0 view.inputs.payCard,
            cheque := chequeTotal view.inputs, afterDelivery := numOr0 view.inputs.payAfter,
            cheques := view.inputs.chequeLines }
          ((view.jobDocuments.find? (fun d => d.type == "sozlesme")).map (fun d => d.id)))) ∧
    (∀ (job : Job) (view : View) (clock : Clock),
      paymentTotal view.inputs ≠ offerTotalValue job view.inputs →
      offered job view Action.completeAgreement = false ∧
      request job view clock Action.completeAgreement =
        Except.error "Ödeme toplamı teklif tutarıyla eşleşmiyor.") ∧
    (∀ (job : Job) (inputs : Inputs),
      inputs.offerTotal = job.offer.total ∨ inputs.offerTotal = none →
      offerTotalValue job inputs = numOr0 job.offer.total) ∧
    (∀ (job : Job) (inputs : Inputs) (m n : ℤ),
      paymentTotal inputs = (m : ℚ) → offerTotalValue job inputs = (n : ℚ) →
      (|paymentTotal inputs - offerTotalValue job inputs| ≤ 1 / 100 ↔
        paymentTotal inputs = offerTotalValue job inputs)) ∧
    offered c1Job { selectedStage := "agreement", inputs := c1Inputs }
      Action.completeAgreement = true := by
  have hpay : paymentTotal c18Plan = 10000 := by
    norm_num [paymentTotal, chequeTotal, c18Plan, c1Inputs, numOr0]
  have hoffer : offerTotalValue c18Job c18Plan = 10000 + 1 / 200 := by
    norm_num [offerTotalValue, c18Job, c18Plan, numOr0, numOrElse, Offer.total]
  have htot : numOr0 c18Job.offer.total = 10000 + 1 / 200 := by
    norm_num [c18Job, numOr0, Offer.total]
  have hclose : |paymentTotal c18Plan - numOr0 c18Job.offer.total| ≤ 1 / 100 := by
    rw [hpay, htot]
    norm_num [abs_le]
  have herrs : validationErrors c18Job c18Plan "ONAY_BEKLIYOR" = [] := by
    have hplan : numOr0 c18Plan.payCash + numOr0 c18Plan.payCard + chequeTotal c18Plan
        + numOr0 c18Plan.payAfter = paymentTotal c18Plan := rfl
    have hclose' : |paymentTotal c18Plan - numOr0 c18Job.offer.total| ≤ 100⁻¹ := by
      simpa using hclose
    simp only [validationErrors, hplan]
    simp [hclose']
  refine ⟨⟨hpay, htot, hclose, rfl, herrs, ?_, ?_, ?_⟩, ?_, ?_, ?_, ?_, ?_, ?_⟩
  · simp [validateStageTransition, herrs]
  · simp [offered, rendered, disabled, hpay, hoffer]
  · simp [request, hpay, hoffer]
  · intro job view hsel hload
    simp [offered, rendered, disabled, hsel, hload]
  · intro job view clock heq
    simp [request, heq, chequeTotal]
  · intro job view clock hne
    refine ⟨?_, ?_⟩
    · simp [offered, disabled, hne]
    · simp [request, hne]
  · intro job inputs h
    rcases h with h | h
    · simp only [offerTotalValue, numOrElse, h]
      split_ifs with h0
      · rfl
      · rfl
    · simp [offerTotalValue, numOrElse, h, numOr0]
  · intro job inputs m n hm hn
    rw [hm, hn]
    exact int_tolerance m n
  · have hpay1 : paymentTotal c1Inputs = 10000 := by
      norm_num [paymentTotal, chequeTotal, c1Inputs, numOr0]
    have hoffer1 : offerTotalValue c1Job c1Inputs = 10000 := by
      norm_num [offerTotalValue, c1Job, c1Inputs, numOr0, numOrElse, Offer.total]
    simp [offered, rendered, disabled, hpay1, hoffer1]

/-- C19, evaluated on the code: for `c19Job` (offer 10000, 9000 received at the agreement) and
nothing entered at closing the balance of the finance panel is 1000, yet 'İşi Kapat' is enabled
and its handler sends the close request. The button is enabled whenever the cursor is on the
finance stage and no action is in flight, and its handler always sends the request: neither
reads the balance. -/
theorem finance_close_unguarded :
    financePreReceived c19Job = 9000 ∧
      financeFinishReceived {} = 0 ∧
      financeDiff c19Job {} = 1000 ∧
      offered c19Job { selectedStage := "finance" } Action.closeFinance = true ∧
      request c19Job { selectedStage := "finance" } c9Clock Action.closeFinance =
        Except.ok (Request.closeFinance 10000 0 0 0 none) ∧
      (∀ (job : Job) (view : View), view.selectedStage = "finance" →
        view.actionLoading = false → offered job view Action.closeFinance = true) ∧
      (∀ (job : Job) (view : View) (clock : Clock),
        ∃ r, request job view clock Action.closeFinance = Except.ok r) := by
  have hpre : financePreReceived c19Job = 9000 := by
    norm_num [financePreReceived, c19Job, numOr0]
  have hfin : financeFinishReceived {} = 0 := by
    norm_num [financeFinishReceived, numOr0]
  have hoffer : offerTotalValue c19Job {} = 10000 := by
    norm_num [offerTotalValue, c19Job, numOr0, numOrElse, Offer.total]
  refine ⟨hpre, hfin, ?_, ?_, ?_, ?_, ?_⟩
  · norm_num [financeDiff, hpre, hfin, hoffer, numOr0]
  · decide
  · simp [request, hoffer, numOr0]
  · intro job view hsel hload
    simp [offered, rendered, disabled, hsel, hload]
  · intro job view clock
    exact ⟨_, rfl⟩

theorem objGet_nil {α : Type} (k : String) : objGet ([] : List (String × α)) k = none := rfl

theorem objGet_cons {α : Type} (kv : String × α) (rest : List (String × α)) (k : String) :
    objGet (kv :: rest) k = if kv.1 = k then some kv.2 else objGet rest k := by
  by_cases h : kv.1 = k
  · simp [objGet, List.find?_cons, h]
  · simp [objGet, List.find?_cons, h]

theorem objGet_map_self {α : Type} (o : List (String × α)) (k : String) (v : α)
    (hany : o.any (fun kv => kv.1 == k) = true) :
    objGet (o.map (fun kv => if kv.1 == k then (k, v) else kv)) k = some v := by
  induction o with
  | nil => simp at hany
  | cons kv rest ih =>
    rw [List.map_cons, objGet_cons]
    by_cases hk : kv.1 = k
    · simp [hk]
    · have hany' : rest.any (fun kv => kv.1 == k) = true := by
        simpa [hk] using hany
      have hrest := ih hany'
      have hk' : ¬ (if (kv.1 == k) = true then (k, v) else kv).1 = k := by simp [hk]
      rw [if_neg hk']
      exact hrest

theorem objGet_map_other {α : Type} (o : List (String × α)) (k k' : String) (v : α)
    (hne : k' ≠ k) :
    objGet (o.map (fun kv => if kv.1 == k then (k, v) else kv)) k' = objGet o k' := by
  induction o with
  | nil => rfl
  | cons kv rest ih =>
    rw [List.map_cons, objGet_cons, objGet_cons, ih]
    by_cases hk : kv.1 = k
    · have hk' : ¬ kv.1 = k' := fun h => hne (h.symm.trans hk)
      have hkk : ¬ k = k' := fun h => hne h.symm
      simp [hk, hk', hkk]
    · simp [hk]

theorem objGet_append_self {α : Type} (o : List (String × α)) (k : String) (v : α)
    (hany : ¬ o.any (fun kv => kv.1 == k) = true) :
    objGet (o ++ [(k, v)]) k = some v := by
  induction o with
  | nil => simp [objGet_cons]
  | cons kv rest ih =>
    have hk : ¬ kv.1 = k := by
      intro h
      apply hany
      simp [h]
    have hany' : ¬ rest.any (fun kv => kv.1 == k) = true := by
      intro h
      apply hany
      simp only [List.any_cons, h, Bool.or_true]
    rw [List.cons_append, objGet_cons, if_neg hk, ih hany']

theorem objGet_append_other {α : Type} (o : List (String × α)) (k k' : String) (v : α)
    (hne : k' ≠ k) : objGet (o ++ [(k, v)]) k' = objGet o k' := by
  induction o with
  | nil => simp [objGet_cons, objGet_nil, hne.symm]
  | cons kv rest ih => rw [List.cons_append, objGet_cons, objGet_cons, ih]

theorem objGet_objSet_self {α : Type} (o : List (String × α)) (k : String) (v : α) :
    objGet (objSet o k v) k = some v := by
  unfold objSet
  split
  · rename_i hany
    exact objGet_map_self o k v hany
  · rename_i hany
    exact objGet_append_self o k v hany

theorem objGet_objSet_other {α : Type} (o : List (String × α)) (k k' : String) (v : α)
    (hne : k' ≠ k) : objGet (objSet o k v) k' = objGet o k' := by
  unfold objSet
  split
  · exact objGet_map_other o k k' v hne
  · exact objGet_append_other o k k' v hne

theorem objGet_foldl_objSet (g : String → Option ℚ) (keys : List String)
    (acc : List (String × Option ℚ)) (k : String)
    (hk : k ∈ keys ∨ objGet acc k = some (g k)) :
    objGet (keys.foldl (fun acc key => objSet acc key (g key)) acc) k = some (g k) := by
  induction keys generalizing acc with
  | nil =>
    rcases hk with h | h
    · simp at h
    · simpa using h
  | cons key rest ih =>
    rw [List.foldl_cons]
    apply ih
    by_cases hkey : k = key
    · right
      rw [hkey, objGet_objSet_self]
    · rcases hk with h | h
      · left
        simpa [hkey] using h
      · right
        rw [objGet_objSet_other _ _ _ _ hkey, h]

theorem newRolePrices_eq (job : Job) (inputs : Inputs) :
    newRolePrices job inputs =
      (job.roles.map roleKey).foldl
        (fun acc key => objSet acc key
          (some (priceOf (offerRolePrices job) key - priceOf inputs.roleDiscounts key))) [] := by
  simp [newRolePrices, List.foldl_map]

/-- C20: on confirming a negotiation the discount total is the sum of the role discounts, the
final total is the original total minus the discount total, and for every role of the job the
new role price is its price minus its discount, without clamping (price 100 with discount 150
gives -50). The record appended to the history carries the original total, the discount total,
the final total and the role discounts; the total of the new offer is the final total of the
record, and the new status `ANLASMA_YAPILIYOR` is listed by the stage `agreement`. -/
theorem negotiation_arithmetic (job : Job) (inputs : Inputs) (now : String) :
    totalDiscount inputs = ((objValues inputs.roleDiscounts).map numOr0).sum ∧
      finalTotal job inputs = originalTotal job - totalDiscount inputs ∧
      (∀ role ∈ job.roles,
        objGet (newRolePrices job inputs) (roleKey role) =
          some (some (priceOf (offerRolePrices job) (roleKey role)
            - priceOf inputs.roleDiscounts (roleKey role)))) ∧
      (∃ offer record,
        (negotiationPayload job inputs now).offer = some offer ∧
        offer.total = some (finalTotal job inputs) ∧
        offer.rolePrices = some (newRolePrices job inputs) ∧
        offer.negotiationHistory = some (job.offer.negotiationHistory.getD [] ++ [record]) ∧
        record.originalTotal = originalTotal job ∧
        record.discountTotal = totalDiscount inputs ∧
        record.finalTotal = finalTotal job inputs ∧
        record.roleDiscounts = inputs.roleDiscounts ∧
        offer.total = some record.finalTotal) ∧
      (negotiationPayload job inputs now).status = some "ANLASMA_YAPILIYOR" ∧
      (∃ stage, findStageByStatusForFlow "ANLASMA_YAPILIYOR" STAGE_FLOW = some stage ∧
        stage.id = "agreement" ∧ "ANLASMA_YAPILIYOR" ∈ stage.statuses) ∧
      objGet (newRolePrices c20Job c20Inputs) "pvc" = some (some (-50)) ∧
      finalTotal c20Job c20Inputs = 250 := by
  have hprices : ∀ (job : Job) (inputs : Inputs), ∀ role ∈ job.roles,
      objGet (newRolePrices job inputs) (roleKey role) =
        some (some (priceOf (offerRolePrices job) (roleKey role)
          - priceOf inputs.roleDiscounts (roleKey role))) := by
    intro job inputs role hrole
    rw [newRolePrices_eq]
    exact objGet_foldl_objSet
      (fun key => some (priceOf (offerRolePrices job) key - priceOf inputs.roleDiscounts key))
      (job.roles.map roleKey) [] (roleKey role) (Or.inl (List.mem_map_of_mem _ hrole))
  refine ⟨?_, rfl, hprices job inputs, ?_, rfl, ⟨_, rfl, by decide, by decide⟩, ?_, ?_⟩
  · rw [totalDiscount, foldl_add_eq_sum]
    simp
  · refine ⟨_, negotiationRecord job inputs now, rfl, ?_, ?_, ?_, rfl, rfl, rfl, rfl, ?_⟩
    · cases job.offer; rfl
    · cases job.offer; rfl
    · cases h : job.offer
      simp [Offer.negotiationHistory, newHistory, negotiationHistoryOf, h]
    · cases job.offer; rfl
  · have h := hprices c20Job c20Inputs { id := some "pvc", name := "PVC" } (by simp [c20Job])
    have hkey : roleKey { id := some "pvc", name := "PVC" } = "pvc" := by decide
    rw [hkey] at h
    rw [h]
    norm_num [priceOf, objGet, offerRolePrices, Offer.rolePrices, c20Job, c20Inputs, numOr0]
  · norm_num [finalTotal, originalTotal, totalDiscount, c20Job, c20Inputs, objValues, numOr0,
      numOrElse, Offer.total]

/-- C22: for a stock item satisfying `available = max(0, onHand - reserved)` with a reserved
count that is not negative, and its reserved line (the first line with the id of the item) of
positive quantity at most the available of the item, the reservation save with the ready flag
set lowers onHand by exactly the quantity and leaves reserved as it is, and with the flag
cleared raises reserved by exactly the quantity and leaves onHand as it is; either way
available drops by the quantity. An item with no matching reserved line is returned unchanged,
and the save keeps the number and the order of the stock items. -/
theorem reserveItem_sufficient (reservedLines : List ReservedLine) (line : ReservedLine)
    (item : StockItem)
    (hfind : reservedLines.find? (fun l => l.id == item.id) = some line)
    (hinv : item.available = max 0 (numOr0 item.onHand - numOr0 item.reserved))
    (hres : 0 ≤ numOr0 item.reserved)
    (hpos : 0 < line.qty)
    (hqty : line.qty ≤ item.available) :
    (reserveItem true reservedLines item).onHand = some (numOr0 item.onHand - line.qty) ∧
      (reserveItem true reservedLines item).reserved = item.reserved ∧
      (reserveItem false reservedLines item).reserved
        = some (numOr0 item.reserved + line.qty) ∧
      (reserveItem false reservedLines item).onHand = item.onHand ∧
      (∀ stockReady : Bool,
        (reserveItem stockReady reservedLines item).available = item.available - line.qty) ∧
      (∀ (stockReady : Bool) (other : StockItem),
        reservedLines.find? (fun l => l.id == other.id) = none →
        reserveItem stockReady reservedLines other = other) ∧
      (∀ (stockReady : Bool) (prev : List StockItem),
        (saveStockItems stockReady reservedLines prev).length = prev.length ∧
        ∀ (i : Nat) (other : StockItem), prev[i]? = some other →
          (saveStockItems stockReady reservedLines prev)[i]?
            = some (reserveItem stockReady reservedLines other)) := by
  have havail : 0 < item.available := lt_of_lt_of_le hpos hqty
  have hdiff : item.available = numOr0 item.onHand - numOr0 item.reserved := by
    rw [hinv] at havail ⊢
    rcases max_cases (0 : ℚ) (numOr0 item.onHand - numOr0 item.reserved) with ⟨h, _⟩ | ⟨h, _⟩
    · rw [h] at havail
      exact absurd havail (lt_irrefl _)
    · exact h
  have hge : line.qty ≤ numOr0 item.onHand - numOr0 item.reserved := hdiff ▸ hqty
  refine ⟨?_, ?_, ?_, ?_, ?_, ?_, ?_⟩
  · simp only [reserveItem, hfind, if_true]
    congr 1
    apply max_eq_right
    linarith
  · simp [reserveItem, hfind]
  · simp [reserveItem, hfind]
  · simp [reserveItem, hfind]
  · intro stockReady
    have hsome : ∀ x : ℚ, numOr0 (some x) = x := fun _ => rfl
    cases stockReady
    · have h : (reserveItem false reservedLines item).available
          = max 0 (numOr0 item.onHand - (numOr0 item.reserved + line.qty)) := by
        simp [reserveItem, hfind, hsome]
      rw [h, max_eq_right (by linarith), hdiff]
      ring
    · have h : (reserveItem true reservedLines item).available
          = max 0 (max 0 (numOr0 item.onHand - line.qty) - numOr0 item.reserved) := by
        simp [reserveItem, hfind, hsome]
      rw [h, max_eq_right (a := (0 : ℚ)) (b := numOr0 item.onHand - line.qty) (by linarith),
        max_eq_right (by linarith), hdiff]
      ring
  · intro stockReady other hnone
    simp [reserveItem, hnone]
  · intro stockReady prev
    refine ⟨by simp [saveStockItems], ?_⟩
    intro i other hi
    simp [saveStockItems, List.getElem?_map, hi]

/-- C22 at the item with onHand 5 and reserved 2 (available 3) and a reserved line of 2. -/
theorem reserveItem_sufficient_witness :
    (reserveItem true [c22Line] c3Item).onHand = some (numOr0 c3Item.onHand - c22Line.qty) ∧
      (reserveItem true [c22Line] c3Item).reserved = c3Item.reserved ∧
      (reserveItem false [c22Line] c3Item).reserved
        = some (numOr0 c3Item.reserved + c22Line.qty) ∧
      (reserveItem false [c22Line] c3Item).onHand = c3Item.onHand ∧
      (∀ stockReady : Bool,
        (reserveItem stockReady [c22Line] c3Item).available
          = c3Item.available - c22Line.qty) ∧
      (∀ (stockReady : Bool) (other : StockItem),
        [c22Line].find? (fun l => l.id == other.id) = none →
        reserveItem stockReady [c22Line] other = other) ∧
      (∀ (stockReady : Bool) (prev : List StockItem),
        (saveStockItems stockReady [c22Line] prev).length = prev.length ∧
        ∀ (i : Nat) (other : StockItem), prev[i]? = some other →
          (saveStockItems stockReady [c22Line] prev)[i]?
            = some (reserveItem stockReady [c22Line] other)) :=
  reserveItem_sufficient [c22Line] c22Line c3Item (by decide)
    (by norm_num [c3Item, numOr0]) (by norm_num [c3Item, numOr0])
    (by norm_num [c22Line]) (by norm_num [c22Line, c3Item])

/-- C23: the pending list of the reservation save is the list of the reserved lines with
`qty > available`, in their original order, each with `missing = qty - available`; so every
pending line has `missing > 0`, a line with `qty ≤ available` gives no pending line and every
line with `qty > available` gives one. In a run in which `updateStockStatus` answers, the
handler calls `createLocalPurchaseOrders` exactly when the pending list is not empty, and then
with that list. -/
theorem pendingLines_exact (inputs : Inputs) (reservedLines : List ReservedLine) :
    (stockPayload inputs reservedLines).pending = pendingLines reservedLines ∧
      (pendingLines reservedLines).map (fun p => p.line)
        = reservedLines.filter (fun l => decide (l.qty > l.available)) ∧
      (∀ p ∈ pendingLines reservedLines,
        p.line ∈ reservedLines ∧ p.missing = p.line.qty - p.line.available ∧ 0 < p.missing ∧
          p.line.available < p.line.qty) ∧
      (∀ l ∈ reservedLines, l.qty ≤ l.available →
        ∀ p ∈ pendingLines reservedLines, p.line ≠ l) ∧
      (∀ l ∈ reservedLines, l.available < l.qty →
        ({ line := l, missing := l.qty - l.available } : PendingLine)
          ∈ pendingLines reservedLines) ∧
      (StockCall.createLocalPurchaseOrders (pendingLines reservedLines)
          ∈ saveReservationCalls inputs reservedLines ↔ pendingLines reservedLines ≠ []) ∧
      (∀ pending, StockCall.createLocalPurchaseOrders pending
          ∈ saveReservationCalls inputs reservedLines →
        pending = pendingLines reservedLines ∧ pending ≠ []) := by
  have hmem : ∀ p ∈ pendingLines reservedLines,
      p.line ∈ reservedLines ∧ p.missing = p.line.qty - p.line.available ∧
        p.line.available < p.line.qty := by
    intro p hp
    simp only [pendingLines, List.mem_map, List.mem_filter, decide_eq_true_eq] at hp
    obtain ⟨l, ⟨hl, hgt⟩, rfl⟩ := hp
    exact ⟨hl, rfl, hgt⟩
  refine ⟨rfl, ?_, ?_, ?_, ?_, ?_, ?_⟩
  · simp [pendingLines, List.map_map, Function.comp_def]
  · intro p hp
    obtain ⟨h1, h2, h3⟩ := hmem p hp
    exact ⟨h1, h2, by rw [h2]; linarith, h3⟩
  · intro l _ hle p hp heq
    obtain ⟨_, _, h3⟩ := hmem p hp
    rw [heq] at h3
    exact absurd hle (not_le.mpr h3)
  · intro l hl hlt
    simp only [pendingLines, List.mem_map, List.mem_filter, decide_eq_true_eq]
    exact ⟨l, ⟨hl, hlt⟩, rfl⟩
  · by_cases h : pendingLines reservedLines = []
    · simp [saveReservationCalls, stockPayload, h]
    · have hlen : 0 < (pendingLines reservedLines).length := List.length_pos.mpr h
      simp [saveReservationCalls, stockPayload, hlen, h]
  · intro pending hp
    by_cases h : pendingLines reservedLines = []
    · simp [saveReservationCalls, stockPayload, h] at hp
    · have hlen : 0 < (pendingLines reservedLines).length := List.length_pos.mpr h
      simp [saveReservationCalls, stockPayload, hlen] at hp
      exact ⟨hp, hp ▸ h⟩

theorem updateFirst_split {α : Type} (p : α → Bool) (f : α → α) (pre : List α) (a : α)
    (post : List α) (hpre : ∀ x ∈ pre, p x = false) (ha : p a = true) :
    updateFirst p f (pre ++ a :: post) = pre ++ f a :: post := by
  induction pre with
  | nil => simp [updateFirst, ha]
  | cons x rest ih =>
    have hx : p x = false := hpre x (List.mem_cons_self _ _)
    have hrest : ∀ y ∈ rest, p y = false := fun y hy => hpre y (List.mem_cons_of_mem _ hy)
    simp [updateFirst, hx, ih hrest]

theorem updateFirst_getElem? {α : Type} (p : α → Bool) (f : α → α) (l : List α) (i : Nat)
    (v : α) (h : l[i]? = some v) :
    (updateFirst p f l)[i]? = some v ∨ (p v = true ∧ (updateFirst p f l)[i]? = some (f v)) := by
  induction l generalizing i with
  | nil => simp at h
  | cons a rest ih =>
    unfold updateFirst
    by_cases ha : p a = true
    · rw [if_pos ha]
      cases i with
      | zero =>
        simp only [List.getElem?_cons_zero, Option.some.injEq] at h
        subst h
        right
        exact ⟨ha, by simp⟩
      | succ j =>
        left
        simpa using h
    · rw [if_neg ha]
      cases i with
      | zero =>
        left
        simpa using h
      | succ j =>
        have hj : rest[j]? = some v := by simpa using h
        simpa using ih j hj

theorem visits_of_serviceOf (job : Job) :
    (serviceOf job).visits.getD [] = serviceVisits job := by
  unfold serviceOf serviceVisits
  cases job.service <;> rfl

theorem currencyInput_nonneg (typed : String) : 0 ≤ numOr0 (currencyInput typed) := by
  unfold currencyInput
  simp only []
  split_ifs
  · simp [numOr0]
  · simp only [numOr0, Option.getD_some]
    exact Nat.cast_nonneg _

/-- C25: for every job and form, 'Ödemeye Geç' sends the status `SERVIS_ODEME_BEKLIYOR` and a
service record whose visits are the visits after the completion of the visit in progress,
whose `totalExtraCost` is the sum of `extraCost` over those visits and whose `totalCost` is
`fixedFee + totalExtraCost`. When the job has a visit in progress, the sum is that of the
other visits plus the extra cost typed for the visit just completed. For fixed fee 500 and one
visit completed with 150 the totals are 150 and 650. -/
theorem finalize_stores_totals (job : Job) (view : View) (clock : Clock) :
    ∃ sv,
      request job view clock Action.completeAndFinalize
        = Except.ok (Request.updateJobStatus (finalizePayload job view.inputs clock.now)) ∧
      (finalizePayload job view.inputs clock.now).status = some "SERVIS_ODEME_BEKLIYOR" ∧
      (finalizePayload job view.inputs clock.now).service = some sv ∧
      sv.visits = some (completeVisits (serviceVisits job) view.inputs clock.now) ∧
      sv.totalExtraCost
        = some (((completeVisits (serviceVisits job) view.inputs clock.now).map
            (fun v => numOr0 v.extraCost)).sum) ∧
      sv.totalCost
        = some (numOr0 (serviceOf job).fixedFee
            + ((completeVisits (serviceVisits job) view.inputs clock.now).map
                (fun v => numOr0 v.extraCost)).sum) ∧
      (∀ (pre : List Visit) (v : Visit) (post : List Visit),
        serviceVisits job = pre ++ v :: post →
        (∀ x ∈ pre, x.status ≠ "in_progress") → v.status = "in_progress" →
        sv.totalExtraCost
          = some ((pre.map (fun v => numOr0 v.extraCost)).sum
              + numOr0 view.inputs.serviceExtraCost
              + (post.map (fun v => numOr0 v.extraCost)).sum)) ∧
      (∃ svc,
        (finalizePayload c8Working c8WorkInputs "2025-01-10T12:00").service = some svc ∧
        svc.totalExtraCost = some 150 ∧ svc.totalCost = some 650) := by
  refine ⟨_, rfl, rfl, rfl, rfl, ?_, ?_, ?_, ?_⟩
  · simp [visitsExtraCost_eq_sum]
  · simp [visitsExtraCost_eq_sum]
  · intro pre v post hsplit hpre hv
    have hcomplete : completeVisits (serviceVisits job) view.inputs clock.now
        = pre ++ { v with
            workNote := some view.inputs.serviceWorkNote
            materials := some view.inputs.serviceMaterials
            extraCost := some (numOr0 view.inputs.serviceExtraCost)
            status := "completed"
            completedAt := some clock.now } :: post := by
      rw [hsplit]
      unfold completeVisits
      exact updateFirst_split _ _ pre v post (by
        intro x hx
        simpa using hpre x hx) (by simpa using hv)
    simp only [visitsExtraCost_eq_sum, hcomplete, List.map_append, List.map_cons,
      List.sum_append, List.sum_cons, zero_add]
    congr 1
    simp only [numOr0, Option.getD_some]
    ring
  · refine ⟨_, rfl, ?_, ?_⟩
    · norm_num [finalizePayload, visitsExtraCost, completeVisits, updateFirst, serviceVisits,
        c8Working, c8WorkInputs, numOr0]
    · norm_num [finalizePayload, visitsExtraCost, completeVisits, updateFirst, serviceVisits,
        serviceOf, c8Working, c8WorkInputs, numOr0]

theorem startVisits_ids (visits : List Visit) (inputs : Inputs) (today clock : String) :
    (startVisits visits inputs today clock).map (fun v => v.id)
      = visits.map (fun v => v.id) := by
  unfold startVisits
  refine updateFirst_map_id _ _ ?_ visits
  intro v
  rfl

theorem completeVisits_ids (visits : List Visit) (inputs : Inputs) (now : String) :
    (completeVisits visits inputs now).map (fun v => v.id) = visits.map (fun v => v.id) := by
  unfold completeVisits
  refine updateFirst_map_id _ _ ?_ visits
  intro v
  rfl

theorem applyVisitOp_forward (visits : List Visit) (op : VisitOp) (i : Nat) (v : Visit)
    (h : visits[i]? = some v) :
    ∃ w, (applyVisitOp visits op)[i]? = some w ∧ w.id = v.id ∧
      (w.status = v.status ∨ (v.status = "scheduled" ∧ w.status = "in_progress") ∨
        (v.status = "in_progress" ∧ w.status = "completed")) := by
  cases op with
  | start inputs today clock =>
    simp only [applyVisitOp, startVisits]
    rcases updateFirst_getElem? (fun v => v.status == "scheduled") _ visits i v h with h1 | ⟨hp, h1⟩
    · exact ⟨_, h1, rfl, Or.inl rfl⟩
    · exact ⟨_, h1, rfl, Or.inr (Or.inl ⟨by simpa using hp, rfl⟩)⟩
  | complete inputs now =>
    simp only [applyVisitOp, completeVisits]
    rcases updateFirst_getElem? (fun v => v.status == "in_progress") _ visits i v h
      with h1 | ⟨hp, h1⟩
    · exact ⟨_, h1, rfl, Or.inl rfl⟩
    · exact ⟨_, h1, rfl, Or.inr (Or.inr ⟨by simpa using hp, rfl⟩)⟩
  | «continue» inputs =>
    refine ⟨v, ?_, rfl, Or.inl rfl⟩
    simp only [applyVisitOp, continueVisits]
    have hlt : i < visits.length := by
      by_contra hge
      rw [List.getElem?_eq_none (not_lt.mp hge)] at h
      exact absurd h (by simp)
    rw [List.getElem?_append_left hlt]
    exact h

/-- C24, evaluated on the code. Both completion buttons are enabled only with a non-empty work
note and write `completeVisits`, which rewrites the first visit in progress with the work note,
the materials, the extra cost, `completedAt` and the status 'completed' and leaves every other
visit, the order and the ids as they are; the extra cost typed through `CurrencyInput` is never
negative. The start, complete and continue steps keep every visit at its place with its id
and leave its status unchanged or move it one step forward, and the payment updates keep the
visits. The appointment save of the schedule stage does not: offered for `c8Stale` once the
cursor is on `service_schedule`, it replaces the completed visit 1 by a visit 1 with status
'scheduled'. -/
theorem complete_visit_status_order :
    (∀ (job : Job) (view : View),
      (offered job view Action.completeAndContinue = true ∨
        offered job view Action.completeAndFinalize = true) →
      view.inputs.serviceWorkNote ≠ "") ∧
    (∀ (job : Job) (inputs : Inputs) (now : String),
      (∃ sv, (completeContinuePayload job inputs now).service = some sv ∧
        sv.visits = some (completeVisits (serviceVisits job) inputs now)) ∧
      (∃ sv, (finalizePayload job inputs now).service = some sv ∧
        sv.visits = some (completeVisits (serviceVisits job) inputs now))) ∧
    (∀ (pre : List Visit) (v : Visit) (post : List Visit) (inputs : Inputs) (now : String),
      (∀ x ∈ pre, x.status ≠ "in_progress") → v.status = "in_progress" →
      completeVisits (pre ++ v :: post) inputs now
        = pre ++ { v with
            workNote := some inputs.serviceWorkNote
            materials := some inputs.serviceMaterials
            extraCost := some (numOr0 inputs.serviceExtraCost)
            status := "completed"
            completedAt := some now } :: post) ∧
    (∀ typed : String, 0 ≤ numOr0 (currencyInput typed)) ∧
    (∀ (visits : List Visit) (op : VisitOp),
      (applyVisitOp visits op).map (fun v => v.id)
          = visits.map (fun v => v.id)
            ++ ((applyVisitOp visits op).drop visits.length).map (fun v => v.id) ∧
      ∀ (i : Nat) (v : Visit), visits[i]? = some v →
        ∃ w, (applyVisitOp visits op)[i]? = some w ∧ w.id = v.id ∧
          (w.status = v.status ∨ (v.status = "scheduled" ∧ w.status = "in_progress") ∨
            (v.status = "in_progress" ∧ w.status = "completed"))) ∧
    (∀ (job : Job) (inputs : Inputs) (now : String),
      (∃ sv, (paymentContinuePayload job inputs).service = some sv ∧
        sv.visits.getD [] = serviceVisits job) ∧
      (∃ sv, (serviceClosePayload job inputs now).service = some sv ∧
        sv.visits.getD [] = serviceVisits job)) ∧
    ("service_schedule" ∈ processMapStages c8Stale ∧
      offered c8Stale c30View Action.scheduleService = true ∧
      request c8Stale c30View c9Clock Action.scheduleService
        = Except.ok (Request.updateJobStatus (schedulePayload c8Stale c9Schedule)) ∧
      (serviceVisits c8Stale).map (fun v => (v.id, v.status)) = [(1, "completed")] ∧
      ((schedulePayload c8Stale c9Schedule).service.map
          (fun sv => (sv.visits.getD []).map (fun v => (v.id, v.status))))
        = some [(1, "scheduled")]) := by
  refine ⟨?_, ?_, ?_, ?_, ?_, ?_, ?_⟩
  · intro job view h
    rcases h with h | h
    · simp only [offered, rendered, disabled, Bool.and_eq_true, Bool.not_eq_true',
        Bool.or_eq_false_iff] at h
      intro hempty
      have := h.2.2
      simp [hempty] at this
    · simp only [offered, rendered, disabled, Bool.and_eq_true, Bool.not_eq_true',
        Bool.or_eq_false_iff] at h
      intro hempty
      have := h.2.2
      simp [hempty] at this
  · intro job inputs now
    exact ⟨⟨_, rfl, rfl⟩, ⟨_, rfl, rfl⟩⟩
  · intro pre v post inputs now hpre hv
    unfold completeVisits
    exact updateFirst_split _ _ pre v post (by
      intro x hx
      simpa using hpre x hx) (by simpa using hv)
  · exact currencyInput_nonneg
  · intro visits op
    refine ⟨?_, applyVisitOp_forward visits op⟩
    cases op with
    | start inputs today clock =>
      have hid : (startVisits visits inputs today clock).map (fun v => v.id)
          = visits.map (fun v => v.id) := startVisits_ids visits inputs today clock
      have hlen : (startVisits visits inputs today clock).length = visits.length := by
        simpa using congrArg List.length hid
      simp only [applyVisitOp]
      rw [List.drop_of_length_le (le_of_eq hlen), hid]
      simp
    | complete inputs now =>
      have hid : (completeVisits visits inputs now).map (fun v => v.id)
          = visits.map (fun v => v.id) := completeVisits_ids visits inputs now
      have hlen : (completeVisits visits inputs now).length = visits.length := by
        simpa using congrArg List.length hid
      simp only [applyVisitOp]
      rw [List.drop_of_length_le (le_of_eq hlen), hid]
      simp
    | «continue» inputs =>
      simp [applyVisitOp, continueVisits]
  · intro job inputs now
    exact ⟨⟨_, rfl, visits_of_serviceOf job⟩, ⟨_, rfl, visits_of_serviceOf job⟩⟩
  · refine ⟨by decide, by decide, rfl, by decide, ?_⟩
    simp [schedulePayload, c9Schedule, strOr]

/-- C30, evaluated on the code: for `c5Job`, whose visits carry the ids 1 and 2, the cursor can
be moved to `service_schedule` on the process map, 'Randevuyu Kaydet ve Onayla' is then offered,
and the update it sends carries a single new visit with id 1: the two visits are discarded and
id 1 is handed out again. The save always writes exactly one visit with id 1. Every other
service operation keeps the ids of the visits of the job: start, complete and finalize keep
them all, the new appointment appends one id, and the payment updates keep the visits. -/
theorem schedule_discards_visits :
    ("service_schedule" ∈ processMapStages c5Job ∧
      markStage { selectedStage := "service_work", inputs := c9Schedule } "service_schedule"
        = c30View ∧
      offered c5Job c30View Action.scheduleService = true ∧
      request c5Job c30View c9Clock Action.scheduleService
        = Except.ok (Request.updateJobStatus (schedulePayload c5Job c9Schedule)) ∧
      (serviceVisits c5Job).map (fun v => v.id) = [1, 2] ∧
      ((schedulePayload c5Job c9Schedule).service.map (fun sv => sv.visits))
        = some (some [{ id := 1, appointmentDate := "2025-02-01", appointmentTime := "10:00",
                        status := "scheduled" }])) ∧
    (∀ (job : Job) (inputs : Inputs),
      ∃ sv v, (schedulePayload job inputs).service = some sv ∧ sv.visits = some [v] ∧
        v.id = 1 ∧ v.status = "scheduled") ∧
    (∀ (job : Job) (inputs : Inputs) (clock : Clock),
      (∃ sv, (startPayload job inputs clock.today clock.time).service = some sv ∧
        (sv.visits.getD []).map (fun v => v.id) = (serviceVisits job).map (fun v => v.id)) ∧
      (∃ sv, (completeContinuePayload job inputs clock.now).service = some sv ∧
        (sv.visits.getD []).map (fun v => v.id) = (serviceVisits job).map (fun v => v.id)) ∧
      (∃ sv, (finalizePayload job inputs clock.now).service = some sv ∧
        (sv.visits.getD []).map (fun v => v.id) = (serviceVisits job).map (fun v => v.id)) ∧
      (∃ sv, (continuePayload job inputs).service = some sv ∧
        (sv.visits.getD []).map (fun v => v.id)
          = (serviceVisits job).map (fun v => v.id) ++ [(serviceVisits job).length + 1]) ∧
      (∃ sv, (paymentContinuePayload job inputs).service = some sv ∧
        sv.visits.getD [] = serviceVisits job) ∧
      (∃ sv, (serviceClosePayload job inputs clock.now).service = some sv ∧
        sv.visits.getD [] = serviceVisits job)) := by
  refine ⟨⟨by decide, rfl, by decide, rfl, by decide, ?_⟩, ?_, ?_⟩
  · simp [schedulePayload, c9Schedule, strOr]
  · intro job inputs
    exact ⟨_, _, rfl, rfl, rfl, rfl⟩
  · intro job inputs clock
    refine ⟨⟨_, rfl, ?_⟩, ⟨_, rfl, ?_⟩, ⟨_, rfl, ?_⟩, ⟨_, rfl, ?_⟩,
      ⟨_, rfl, visits_of_serviceOf job⟩, ⟨_, rfl, visits_of_serviceOf job⟩⟩
    · exact startVisits_ids _ _ _ _
    · exact completeVisits_ids _ _ _
    · exact completeVisits_ids _ _ _
    · simp [continueVisits, newVisit]

theorem objGet_of_not_mem {α : Type} (o : List (String × α)) (k : String)
    (h : k ∉ o.map (fun kv => kv.1)) : objGet o k = none := by
  induction o with
  | nil => rfl
  | cons kv rest ih =>
    have hk : ¬ kv.1 = k := by
      intro heq
      apply h
      simp [heq]
    have hrest : k ∉ rest.map (fun kv => kv.1) := by
      intro hmem
      apply h
      simp only [List.map_cons, List.mem_cons]
      exact Or.inr hmem
    rw [objGet_cons, if_neg hk, ih hrest]

theorem sum_map_ite_nodup (keys : List String) (k0 : String) (a : ℚ) (f : String → ℚ)
    (hnodup : keys.Nodup) (hmem : k0 ∈ keys) (hzero : f k0 = 0) :
    (keys.map (fun k => if k0 = k then a else f k)).sum = a + (keys.map f).sum := by
  induction keys with
  | nil => simp at hmem
  | cons k rest ih =>
    have hnot : k ∉ rest := (List.nodup_cons.mp hnodup).1
    have hrest : rest.Nodup := (List.nodup_cons.mp hnodup).2
    by_cases hk : k0 = k
    · subst hk
      have hsame : rest.map (fun k => if k0 = k then a else f k) = rest.map f := by
        apply List.map_congr_left
        intro x hx
        have : ¬ k0 = x := fun h => hnot (h ▸ hx)
        simp [this]
      simp [hsame, hzero]
    · have hmem' : k0 ∈ rest := by
        rcases List.mem_cons.mp hmem with h | h
        · exact absurd h hk
        · exact h
      simp only [List.map_cons, List.sum_cons, if_neg hk, ih hrest hmem']
      ring

theorem sum_priceOf_keys (keys : List String) (prices : List (String × Option ℚ))
    (hkeys : keys.Nodup) (hnodup : (prices.map (fun kv => kv.1)).Nodup)
    (hsub : ∀ k ∈ prices.map (fun kv => kv.1), k ∈ keys) :
    (keys.map (priceOf prices)).sum = ((objValues prices).map numOr0).sum := by
  induction prices with
  | nil =>
    have hzero : priceOf [] = fun _ => (0 : ℚ) := by
      funext k
      rfl
    simp [hzero, objValues]
  | cons kv rest ih =>
    have hnot : kv.1 ∉ rest.map (fun kv => kv.1) := by
      simpa using (List.nodup_cons.mp hnodup).1
    have hrest : (rest.map (fun kv => kv.1)).Nodup := (List.nodup_cons.mp hnodup).2
    have hsub' : ∀ k ∈ rest.map (fun kv => kv.1), k ∈ keys := by
      intro k hk
      apply hsub
      simp only [List.map_cons, List.mem_cons]
      exact Or.inr hk
    have hmem : kv.1 ∈ keys := hsub kv.1 (by simp)
    have hfun : priceOf (kv :: rest) = fun k => if kv.1 = k then numOr0 kv.2
        else priceOf rest k := by
      funext k
      unfold priceOf
      rw [objGet_cons]
      split_ifs <;> rfl
    have hzero : priceOf rest kv.1 = 0 := by
      unfold priceOf
      rw [objGet_of_not_mem rest kv.1 hnot]
      rfl
    rw [hfun, sum_map_ite_nodup keys kv.1 (numOr0 kv.2) (priceOf rest) hkeys hmem hzero,
      ih hrest hsub']
    simp [objValues]

theorem foldl_objSet_fresh (g : String → Option ℚ) (keys : List String)
    (acc : List (String × Option ℚ)) (hnodup : keys.Nodup)
    (hfresh : ∀ k ∈ keys, k ∉ acc.map (fun kv => kv.1)) :
    keys.foldl (fun acc key => objSet acc key (g key)) acc
      = acc ++ keys.map (fun key => (key, g key)) := by
  induction keys generalizing acc with
  | nil => simp
  | cons k rest ih =>
    have hk : k ∉ acc.map (fun kv => kv.1) := hfresh k (List.mem_cons_self _ _)
    have hset : objSet acc k (g k) = acc ++ [(k, g k)] := by
      unfold objSet
      rw [if_neg]
      intro hany
      apply hk
      simp only [List.any_eq_true, beq_iff_eq] at hany
      obtain ⟨kv, hkv, heq⟩ := hany
      exact List.mem_map.mpr ⟨kv, hkv, heq⟩
    have hnot : k ∉ rest := (List.nodup_cons.mp hnodup).1
    rw [List.foldl_cons, hset, ih _ (List.nodup_cons.mp hnodup).2]
    · simp
    · intro x hx hmem
      simp only [List.map_append, List.map_cons, List.map_nil, List.mem_append,
        List.mem_singleton] at hmem
      rcases hmem with h | h
      · exact hfresh x (List.mem_cons_of_mem _ hx) h
      · exact hnot (h ▸ hx)

theorem newRolePrices_nodup (job : Job) (inputs : Inputs)
    (hkeys : (job.roles.map roleKey).Nodup) :
    newRolePrices job inputs
      = (job.roles.map roleKey).map (fun key =>
          (key, some (priceOf (offerRolePrices job) key - priceOf inputs.roleDiscounts key))) := by
  rw [newRolePrices_eq, foldl_objSet_fresh _ _ [] hkeys (by simp)]
  simp

theorem sum_newRolePrices (job : Job) (inputs : Inputs)
    (hkeys : (job.roles.map roleKey).Nodup) :
    ((objValues (newRolePrices job inputs)).map numOr0).sum
      = ((job.roles.map roleKey).map (priceOf (offerRolePrices job))).sum
        - ((job.roles.map roleKey).map (priceOf inputs.roleDiscounts)).sum := by
  rw [newRolePrices_nodup job inputs hkeys]
  generalize job.roles.map roleKey = keys
  induction keys with
  | nil => simp [objValues]
  | cons k rest ih =>
    simp only [objValues, List.map_cons, List.sum_cons, List.map_map] at ih ⊢
    rw [ih]
    simp only [numOr0, Option.getD_some]
    ring

/-- C21, as stated, fails. For `c21Job`, whose offer has the total 400 and no role prices (so
the invariant holds before), confirming a negotiation with a discount of 50 stores the total
350 next to the role prices `{pvc: -50}`, whose sum is -50. For `c21Stale`, whose offer
satisfies 400 = 100 + 300 but prices a role that the job does not have, confirming a
negotiation without discount stores the total 400 next to the role prices `{pvc: 100}`. -/
theorem negotiation_invariant_counterexample :
    (offerRolePrices c21Job = [] ∧
      offered c21Job { selectedStage := "pricing", inputs := c21Inputs }
        Action.confirmNegotiation = true ∧
      (negotiationPayload c21Job c21Inputs "2025-03-01").offer.map (fun o => o.total)
        = some (some 350) ∧
      (negotiationPayload c21Job c21Inputs "2025-03-01").offer.map (fun o => o.rolePrices)
        = some (some [("pvc", some (-50))]) ∧
      ((objValues [("pvc", some (-50 : ℚ))]).map numOr0).sum ≠ 350) ∧
    (numOr0 c21Stale.offer.total
        = ((objValues (offerRolePrices c21Stale)).map numOr0).sum ∧
      offered c21Stale { selectedStage := "pricing", inputs := { showNegotiationPanel := true } }
        Action.confirmNegotiation = true ∧
      (negotiationPayload c21Stale { showNegotiationPanel := true } "2025-03-01").offer.map
          (fun o => o.total) = some (some 400) ∧
      (negotiationPayload c21Stale { showNegotiationPanel := true } "2025-03-01").offer.map
          (fun o => o.rolePrices) = some (some [("pvc", some 100)]) ∧
      ((objValues [("pvc", some (100 : ℚ))]).map numOr0).sum ≠ 400) := by
  have ho1 : originalTotal c21Job = 400 := by
    norm_num [originalTotal, c21Job, numOrElse, numOr0, Offer.total]
  have ho2 : originalTotal c21Stale = 400 := by
    norm_num [originalTotal, c21Stale, numOrElse, numOr0, Offer.total]
  have hpvc : roleKey { id := some "pvc", name := "PVC" } = "pvc" := by decide
  refine ⟨⟨rfl, ?_, ?_, ?_, ?_⟩, ⟨?_, ?_, ?_, ?_, ?_⟩⟩
  · simp [offered, rendered, disabled, c21Inputs, ho1]
    decide
  · simp only [negotiationPayload, c21Job, Option.map_some', Offer.total]
    norm_num [finalTotal, originalTotal, totalDiscount, c21Job, c21Inputs, objValues, numOr0,
      numOrElse, Offer.total]
  · simp only [negotiationPayload, c21Job, Option.map_some', Offer.rolePrices]
    simp only [newRolePrices, List.foldl_cons, List.foldl_nil, hpvc]
    norm_num [objSet, priceOf, objGet, offerRolePrices, Offer.rolePrices, c21Inputs, numOr0]
  · norm_num [objValues, numOr0]
  · norm_num [c21Stale, offerRolePrices, Offer.total, Offer.rolePrices, objValues, numOr0]
  · simp [offered, rendered, disabled, ho2]
    decide
  · simp only [negotiationPayload, c21Stale, Option.map_some', Offer.total]
    norm_num [finalTotal, originalTotal, totalDiscount, objValues, numOr0,
      numOrElse, Offer.total]
  · simp only [negotiationPayload, c21Stale, Option.map_some', Offer.rolePrices]
    simp only [newRolePrices, List.foldl_cons, List.foldl_nil, hpvc]
    norm_num [objSet, priceOf, objGet, offerRolePrices, Offer.rolePrices, numOr0]
  · norm_num [objValues, numOr0]

/-- C21, amended: the pricing transition stores, for every entered map of role prices, an
offer whose total is the sum of its role prices. The negotiation transition stores an offer
whose total is the sum of its new role prices whenever the role keys of the job are pairwise
distinct, the role prices of the offer and the entered discounts are keyed by roles of the job
(each key once), and the total of the offer is the sum of its role prices. For role prices
100 and 300 and a discount of 150 on the first role the new offer has the role prices -50 and
300 and the total 250. -/
theorem offer_total_invariant :
    (∀ (inputs : Inputs) (clock : Clock),
      ∃ offer, (pricingPayload inputs clock).offer = some offer ∧
        (pricingPayload inputs clock).status = some "FIYAT_VERILDI" ∧
        offer.rolePrices = some inputs.rolePrices ∧
        offer.total = some (((objValues inputs.rolePrices).map numOr0).sum)) ∧
    (∀ (job : Job) (inputs : Inputs) (now : String),
      (job.roles.map roleKey).Nodup →
      ((offerRolePrices job).map (fun kv => kv.1)).Nodup →
      (∀ k ∈ (offerRolePrices job).map (fun kv => kv.1), k ∈ job.roles.map roleKey) →
      (inputs.roleDiscounts.map (fun kv => kv.1)).Nodup →
      (∀ k ∈ inputs.roleDiscounts.map (fun kv => kv.1), k ∈ job.roles.map roleKey) →
      numOr0 job.offer.total = ((objValues (offerRolePrices job)).map numOr0).sum →
      ∃ offer rolePrices, (negotiationPayload job inputs now).offer = some offer ∧
        offer.rolePrices = some rolePrices ∧
        offer.total = some (((objValues rolePrices).map numOr0).sum)) ∧
    (∃ offer, (negotiationPayload c20Job c20Inputs "2025-03-01").offer = some offer ∧
      offer.rolePrices = some [("pvc", some (-50)), ("cam", some 300)] ∧
      offer.total = some 250) := by
  have hneg : ∀ (job : Job) (inputs : Inputs),
      (job.roles.map roleKey).Nodup →
      ((offerRolePrices job).map (fun kv => kv.1)).Nodup →
      (∀ k ∈ (offerRolePrices job).map (fun kv => kv.1), k ∈ job.roles.map roleKey) →
      (inputs.roleDiscounts.map (fun kv => kv.1)).Nodup →
      (∀ k ∈ inputs.roleDiscounts.map (fun kv => kv.1), k ∈ job.roles.map roleKey) →
      numOr0 job.offer.total = ((objValues (offerRolePrices job)).map numOr0).sum →
      finalTotal job inputs = ((objValues (newRolePrices job inputs)).map numOr0).sum := by
    intro job inputs hkeys hpn hps hdn hds htotal
    have hp := sum_priceOf_keys _ _ hkeys hpn hps
    have hd := sum_priceOf_keys _ _ hkeys hdn hds
    have horig : originalTotal job = ((objValues (offerRolePrices job)).map numOr0).sum := by
      unfold originalTotal numOrElse
      rw [foldl_add_eq_sum, zero_add]
      split_ifs with h0
      · rw [← hp, List.map_map]
        rfl
      · exact htotal
    rw [sum_newRolePrices job inputs hkeys, hp, hd, finalTotal, horig, totalDiscount,
      foldl_add_eq_sum, zero_add]
  refine ⟨?_, ?_, ?_⟩
  · intro inputs clock
    refine ⟨_, rfl, rfl, rfl, ?_⟩
    simp [Offer.total, foldl_add_eq_sum]
  · intro job inputs now hkeys hpn hps hdn hds htotal
    refine ⟨_, newRolePrices job inputs, rfl, ?_, ?_⟩
    · cases job.offer; rfl
    · have h := hneg job inputs hkeys hpn hps hdn hds htotal
      cases hoffer : job.offer
      simp only [Offer.total]
      rw [← h]
  · have hkeys : (c20Job.roles.map roleKey).Nodup := by decide
    have hprices : newRolePrices c20Job c20Inputs
        = [("pvc", some (-50)), ("cam", some 300)] := by
      rw [newRolePrices_nodup c20Job c20Inputs hkeys]
      have hk : c20Job.roles.map roleKey = ["pvc", "cam"] := by decide
      rw [hk]
      have hne : ¬ "pvc" = "cam" := by decide
      have hne' : ¬ "cam" = "pvc" := by decide
      simp only [priceOf, objGet_cons, objGet_nil, offerRolePrices, Offer.rolePrices, c20Job,
        c20Inputs, numOr0, List.map_cons, List.map_nil, if_true, if_neg hne, if_neg hne',
        Option.getD_some, Option.getD_none]
      norm_num
    refine ⟨_, rfl, ?_, ?_⟩
    · simp only [c20Job, Offer.rolePrices]
      exact congrArg some hprices
    · simp only [c20Job, Offer.total]
      norm_num [finalTotal, originalTotal, totalDiscount, c20Job, c20Inputs, objValues, numOr0,
        numOrElse, Offer.total]

theorem jsRound_nearest (x : ℚ) : (jsRound x : ℚ) - 1 / 2 ≤ x ∧ x < (jsRound x : ℚ) + 1 / 2 := by
  unfold jsRound
  constructor
  · have := Int.floor_le (x + 1 / 2)
    linarith
  · have := Int.lt_floor_add_one (x + 1 / 2)
    linarith

theorem jsRound_between (x : ℚ) (m M : ℤ) (hm : (m : ℚ) ≤ x) (hM : x ≤ (M : ℚ)) :
    m ≤ jsRound x ∧ jsRound x ≤ M := by
  unfold jsRound
  constructor
  · rw [Int.le_floor]
    linarith
  · rw [Int.floor_le_iff]
    linarith

theorem chequeDays_nonneg (dateOf : String → ℚ) (today : ℚ) (c : ChequeLine) :
    0 ≤ chequeDays dateOf today c := by
  unfold chequeDays
  exact le_max_left _ _

theorem sum_weighted_bounds (dateOf : String → ℚ) (today : ℚ) (lines : List ChequeLine)
    (m M : ℤ) (hamt : ∀ c ∈ lines, 0 ≤ numOr0 c.amount)
    (hdays : ∀ c ∈ lines, m ≤ chequeDays dateOf today c ∧ chequeDays dateOf today c ≤ M) :
    (m : ℚ) * (lines.map (fun c => numOr0 c.amount)).sum
        ≤ (lines.map (fun c => numOr0 c.amount * (chequeDays dateOf today c : ℚ))).sum ∧
      (lines.map (fun c => numOr0 c.amount * (chequeDays dateOf today c : ℚ))).sum
        ≤ (M : ℚ) * (lines.map (fun c => numOr0 c.amount)).sum := by
  induction lines with
  | nil => simp
  | cons c rest ih =>
    have ha : 0 ≤ numOr0 c.amount := hamt c (List.mem_cons_self _ _)
    have hd := hdays c (List.mem_cons_self _ _)
    have hd1 : (m : ℚ) ≤ (chequeDays dateOf today c : ℚ) := by exact_mod_cast hd.1
    have hd2 : (chequeDays dateOf today c : ℚ) ≤ (M : ℚ) := by exact_mod_cast hd.2
    obtain ⟨h1, h2⟩ := ih (fun x hx => hamt x (List.mem_cons_of_mem _ hx))
      (fun x hx => hdays x (List.mem_cons_of_mem _ hx))
    simp only [List.map_cons, List.sum_cons]
    constructor
    · nlinarith [mul_le_mul_of_nonneg_left hd1 ha]
    · nlinarith [mul_le_mul_of_nonneg_left hd2 ha]

theorem avgChequeDays_eq (dateOf : String → ℚ) (today : ℚ) (inputs : Inputs) :
    avgChequeDays dateOf today inputs
      = if (inputs.chequeLines.map (fun c => numOr0 c.amount)).sum ≤ 0 then 0
        else jsRound
          ((inputs.chequeLines.map
              (fun c => numOr0 c.amount * (chequeDays dateOf today c : ℚ))).sum
            / (inputs.chequeLines.map (fun c => numOr0 c.amount)).sum) := by
  simp only [avgChequeDays, foldl_add_eq_sum, zero_add]

/-- C26: for cheque lines whose amounts are not negative, `avgChequeDays` is 0 when there is
no cheque line or the amounts sum to zero, and otherwise the amount-weighted mean of the day
counts of the lines, rounded to the nearest whole number. The day count of a line is
`max(0, round((due - today) / one day))`, which is 0 for a line without a due date. The result
is never negative, and for positive amounts it lies between any lower and upper bound of the
day counts of the lines, in particular between the smallest and the largest of them. -/
theorem avgChequeDays_weighted_mean (dateOf : String → ℚ) (today : ℚ) (inputs : Inputs)
    (hamt : ∀ c ∈ inputs.chequeLines, 0 ≤ numOr0 c.amount) :
    avgChequeDays dateOf today inputs
        = (if inputs.chequeLines = []
              ∨ (inputs.chequeLines.map (fun c => numOr0 c.amount)).sum = 0 then 0
          else jsRound
            ((inputs.chequeLines.map
                (fun c => numOr0 c.amount * (chequeDays dateOf today c : ℚ))).sum
              / (inputs.chequeLines.map (fun c => numOr0 c.amount)).sum)) ∧
      (∀ c : ChequeLine,
        chequeDays dateOf today c
            = max 0 (jsRound (((if c.due = "" then today else dateOf c.due) - today)
                / (1000 * 60 * 60 * 24))) ∧
          (c.due = "" → chequeDays dateOf today c = 0)) ∧
      (∀ x : ℚ, (jsRound x : ℚ) - 1 / 2 ≤ x ∧ x < (jsRound x : ℚ) + 1 / 2) ∧
      0 ≤ avgChequeDays dateOf today inputs ∧
      (∀ m M : ℤ, inputs.chequeLines ≠ [] →
        (∀ c ∈ inputs.chequeLines, 0 < numOr0 c.amount) →
        (∀ c ∈ inputs.chequeLines,
          m ≤ chequeDays dateOf today c ∧ chequeDays dateOf today c ≤ M) →
        m ≤ avgChequeDays dateOf today inputs ∧ avgChequeDays dateOf today inputs ≤ M) := by
  have hsum : 0 ≤ (inputs.chequeLines.map (fun c => numOr0 c.amount)).sum := by
    apply List.sum_nonneg
    intro x hx
    obtain ⟨c, hc, rfl⟩ := List.mem_map.mp hx
    exact hamt c hc
  refine ⟨?_, ?_, jsRound_nearest, ?_, ?_⟩
  · rw [avgChequeDays_eq]
    by_cases hnil : inputs.chequeLines = []
    · simp [hnil]
    · by_cases hzero : (inputs.chequeLines.map (fun c => numOr0 c.amount)).sum = 0
      · simp [hzero]
      · have hpos : ¬ (inputs.chequeLines.map (fun c => numOr0 c.amount)).sum ≤ 0 :=
          fun hle => hzero (le_antisymm hle hsum)
        simp [hnil, hzero, hpos]
  · intro c
    refine ⟨rfl, ?_⟩
    intro hdue
    simp [chequeDays, hdue, jsRound]
    norm_num
  · rw [avgChequeDays_eq]
    split_ifs with hle
    · exact le_refl 0
    · have hpos : 0 < (inputs.chequeLines.map (fun c => numOr0 c.amount)).sum :=
        not_le.mp hle
      have hb := sum_weighted_bounds dateOf today inputs.chequeLines 0
        0 hamt
      have hw : 0 ≤ (inputs.chequeLines.map
          (fun c => numOr0 c.amount * (chequeDays dateOf today c : ℚ))).sum := by
        apply List.sum_nonneg
        intro x hx
        obtain ⟨c, hc, rfl⟩ := List.mem_map.mp hx
        exact mul_nonneg (hamt c hc) (by exact_mod_cast chequeDays_nonneg dateOf today c)
      unfold jsRound
      rw [Int.floor_nonneg]
      have := div_nonneg hw (le_of_lt hpos)
      linarith
  · intro m M hne hpos hdays
    have hlt : 0 < (inputs.chequeLines.map (fun c => numOr0 c.amount)).sum := by
      cases hl : inputs.chequeLines with
      | nil => exact absurd hl hne
      | cons c rest =>
        rw [hl] at hpos hamt
        have hc := hpos c (List.mem_cons_self _ _)
        have hrest : 0 ≤ (rest.map (fun c => numOr0 c.amount)).sum := by
          apply List.sum_nonneg
          intro x hx
          obtain ⟨d, hd, rfl⟩ := List.mem_map.mp hx
          exact hamt d (List.mem_cons_of_mem _ hd)
        simp only [List.map_cons, List.sum_cons]
        linarith
    obtain ⟨h1, h2⟩ := sum_weighted_bounds dateOf today inputs.chequeLines m M hamt hdays
    rw [avgChequeDays_eq, if_neg (not_le.mpr hlt)]
    apply jsRound_between
    · rw [le_div_iff₀ hlt]
      exact h1
    · rw [div_le_iff₀ hlt]
      exact h2

/-- C26 at two cheques, 1000 due in 10 days and 3000 due in 30 days: the average term is 25
days, between 10 and 30. -/
theorem avgChequeDays_weighted_mean_witness :
    (∀ c ∈ c26Inputs.chequeLines, 0 ≤ numOr0 c.amount) ∧
      avgChequeDays c26DateOf 0 c26Inputs = 25 ∧
      10 ≤ avgChequeDays c26DateOf 0 c26Inputs ∧ avgChequeDays c26DateOf 0 c26Inputs ≤ 30 := by
  have hamt : ∀ c ∈ c26Inputs.chequeLines, 0 ≤ numOr0 c.amount := by
    intro c hc
    simp only [c26Inputs, List.mem_cons, List.mem_singleton, List.not_mem_nil, or_false] at hc
    rcases hc with rfl | rfl <;> norm_num [numOr0]
  have hthm := avgChequeDays_weighted_mean c26DateOf 0 c26Inputs hamt
  have hd1 : chequeDays c26DateOf 0
      { amount := some 1000, due := "2025-03-11", bank := "", branch := "", number := "" }
      = 10 := by
    simp [chequeDays, c26DateOf, jsRound]
    norm_num
  have hd2 : chequeDays c26DateOf 0
      { amount := some 3000, due := "2025-03-31", bank := "", branch := "", number := "" }
      = 30 := by
    simp [chequeDays, c26DateOf, jsRound]
    norm_num
  have hbounds := hthm.2.2.2.2 10 30 (by simp [c26Inputs]) (by
    intro c hc
    simp only [c26Inputs, List.mem_cons, List.mem_singleton, List.not_mem_nil, or_false] at hc
    rcases hc with rfl | rfl <;> norm_num [numOr0]) (by
    intro c hc
    simp only [c26Inputs, List.mem_cons, List.mem_singleton, List.not_mem_nil, or_false] at hc
    rcases hc with rfl | rfl
    · rw [hd1]; decide
    · rw [hd2]; decide)
  refine ⟨hamt, ?_, hbounds⟩
  have hsum : (c26Inputs.chequeLines.map (fun c => numOr0 c.amount)).sum = 4000 := by
    norm_num [c26Inputs, numOr0]
  have hweighted : (c26Inputs.chequeLines.map
      (fun c => numOr0 c.amount * (chequeDays c26DateOf 0 c : ℚ))).sum = 100000 := by
    simp only [c26Inputs, List.map_cons, List.map_nil, hd1, hd2]
    norm_num [numOr0]
  rw [hthm.1, hsum, hweighted, if_neg (by simp [c26Inputs])]
  norm_num [jsRound]

theorem pushLog_no_throw (store : LogStore) (st : StepperState) (entry : LogEntry) :
    (pushLog store st entry).2 = none := by
  unfold pushLog
  split <;> rfl

theorem pushLog_state (store : LogStore) (st : StepperState) (entry : LogEntry) :
    (pushLog store st entry).1.view = st.view ∧
      (pushLog store st entry).1.actionError = st.actionError ∧
      ∃ extra, (pushLog store st entry).1.calls = st.calls ++ extra ∧
        ∀ c ∈ extra, c = Call.addJobLog entry ∨ c = Call.getJobLogs entry.jobId := by
  unfold pushLog pushLogTry
  cases hadd : store.addJobLog entry with
  | error err =>
    simp only []
    exact ⟨trivial, trivial, [Call.addJobLog entry], rfl, by simp⟩
  | ok u =>
    cases hget : store.getJobLogs entry.jobId with
    | error err =>
      simp only []
      exact ⟨trivial, trivial, [Call.addJobLog entry, Call.getJobLogs entry.jobId], by simp, by simp⟩
    | ok fresh =>
      simp only []
      exact ⟨trivial, trivial, [Call.addJobLog entry, Call.getJobLogs entry.jobId], by simp, by simp⟩

theorem foldl_pushLog_state (store : LogStore) (entries : List LogEntry) (st : StepperState) :
    (entries.foldl (fun s entry => (pushLog store s entry).1) st).view = st.view ∧
      (entries.foldl (fun s entry => (pushLog store s entry).1) st).actionError
        = st.actionError ∧
      ∃ extra, (entries.foldl (fun s entry => (pushLog store s entry).1) st).calls
          = st.calls ++ extra := by
  induction entries generalizing st with
  | nil => exact ⟨rfl, rfl, [], by simp⟩
  | cons entry rest ih =>
    obtain ⟨hv, he, extra, hc⟩ := ih (pushLog store st entry).1
    obtain ⟨hv1, he1, extra1, hc1, _⟩ := pushLog_state store st entry
    simp only [List.foldl_cons]
    exact ⟨hv.trans hv1, he.trans he1, extra1 ++ extra, by rw [hc, hc1, List.append_assoc]⟩

/-- C27: when the transition function handed to `act` succeeds, then for every behaviour of
the log store (each of `addJobLog` and `getJobLogs` may throw) no error leaves the `try` block
of `act`, the normalized updated job is handed to `onUpdated`, `actionError` is left empty and
`actionLoading` is cleared; and no error ever leaves `pushLog`. -/
theorem act_logging_best_effort (store : LogStore) (job : Job) (st : StepperState)
    (fn : Transition) (logMeta : LogMeta) (updated : RawJob)
    (hguard : fn.guard = none) (hremote : fn.remote = Except.ok updated) :
    (actTry store job st fn logMeta).2 = none ∧
      Call.onUpdated (normalizeJob updated) ∈ (act store job st fn logMeta).calls ∧
      (act store job st fn logMeta).actionError = "" ∧
      (act store job st fn logMeta).view.actionLoading = false ∧
      (∀ (s : StepperState) (entry : LogEntry), (pushLog store s entry).2 = none) := by
  obtain ⟨hv, he, extra, hc⟩ := foldl_pushLog_state store fn.logs
    { st with
      view := { st.view with actionLoading := true }
      actionError := ""
      calls := st.calls ++ [Call.store] }
  have hrun : runTransition store
      { st with view := { st.view with actionLoading := true }, actionError := "" } fn
      = (fn.logs.foldl (fun s entry => (pushLog store s entry).1)
          { st with
            view := { st.view with actionLoading := true }
            actionError := ""
            calls := st.calls ++ [Call.store] }, Except.ok updated) := by
    simp [runTransition, hguard, hremote]
  generalize hst3 : fn.logs.foldl (fun s entry => (pushLog store s entry).1)
      { st with
        view := { st.view with actionLoading := true }
        actionError := ""
        calls := st.calls ++ [Call.store] } = st3 at hv he hc hrun
  obtain ⟨hv5, he5, extra5, hc5, _⟩ := pushLog_state store
    { st3 with calls := st3.calls ++ [Call.onUpdated (normalizeJob updated)] }
    (actLogEntry job logMeta)
  have hno := pushLog_no_throw store
    { st3 with calls := st3.calls ++ [Call.onUpdated (normalizeJob updated)] }
    (actLogEntry job logMeta)
  generalize hp : pushLog store
    { st3 with calls := st3.calls ++ [Call.onUpdated (normalizeJob updated)] }
    (actLogEntry job logMeta) = p at hv5 he5 hc5 hno
  obtain ⟨st5, thrown⟩ := p
  simp only at hv5 he5 hc5 hno
  subst hno
  have htry : actTry store job st fn logMeta
      = if shouldAutoAdvance (normalizeJob updated) logMeta then
          ({ st5 with view := advanceToNextStage job st5.view (normalizeJob updated) }, none)
        else (st5, none) := by
    simp only [actTry, hrun, hp]
  refine ⟨?_, ?_, ?_, ?_, pushLog_no_throw store⟩
  · rw [htry]
    split_ifs <;> rfl
  · simp only [act, htry]
    split_ifs <;> simp [hc5]
  · simp only [act, htry]
    split_ifs <;> simp [he5, he]
  · simp only [act, htry]

/-- C27 at a log store whose `addJobLog` always throws. -/
theorem act_logging_best_effort_witness :
    (actTry c27Store c27Job c27State { remote := Except.ok c27Updated } {}).2 = none ∧
      Call.onUpdated (normalizeJob c27Updated)
        ∈ (act c27Store c27Job c27State { remote := Except.ok c27Updated } {}).calls ∧
      (act c27Store c27Job c27State { remote := Except.ok c27Updated } {}).actionError = "" ∧
      (act c27Store c27Job c27State { remote := Except.ok c27Updated } {}).view.actionLoading
        = false ∧
      (∀ (s : StepperState) (entry : LogEntry), (pushLog c27Store s entry).2 = none) :=
  act_logging_best_effort c27Store c27Job c27State { remote := Except.ok c27Updated } {}
    c27Updated rfl rfl

/-- C28: when the transition function handed to `act` fails, either before calling the job
store or because the store refuses its call, `act` makes no call beyond that single call of
the store (no `onUpdated`, no `addJobLog`, no second call of the store), leaves the logs and
the view as they were apart from clearing `actionLoading`, so the cursor does not move, and
sets `actionError` to `toMessage(err) || 'İşlem başarısız'`, which is `toMessage(err)` whenever
that text is not empty. -/
theorem act_failure_atomic (store : LogStore) (job : Job) (st : StepperState)
    (fn : Transition) (logMeta : LogMeta) (err : Thrown)
    (hfail : fn.guard = some err ∨ (fn.guard = none ∧ fn.remote = Except.error err)) :
    (act store job st fn logMeta).calls
        = st.calls ++ (if fn.guard = none then [Call.store] else []) ∧
      (∀ c ∈ (act store job st fn logMeta).calls, c ∈ st.calls ∨ c = Call.store) ∧
      (act store job st fn logMeta).logs = st.logs ∧
      (act store job st fn logMeta).view = { st.view with actionLoading := false } ∧
      (act store job st fn logMeta).view.selectedStage = st.view.selectedStage ∧
      (act store job st fn logMeta).actionError = strOr (toMessage err) "İşlem başarısız" ∧
      (toMessage err ≠ "" → (act store job st fn logMeta).actionError = toMessage err) := by
  have hcalls : (act store job st fn logMeta).calls
      = st.calls ++ (if fn.guard = none then [Call.store] else []) := by
    rcases hfail with hg | ⟨hg, hr⟩
    · simp [act, actTry, runTransition, hg]
    · simp [act, actTry, runTransition, hg, hr]
  have herr : (act store job st fn logMeta).actionError
      = strOr (toMessage err) "İşlem başarısız" := by
    rcases hfail with hg | ⟨hg, hr⟩
    · simp [act, actTry, runTransition, hg]
    · simp [act, actTry, runTransition, hg, hr]
  refine ⟨hcalls, ?_, ?_, ?_, ?_, herr, ?_⟩
  · intro c hc
    rw [hcalls] at hc
    rcases List.mem_append.mp hc with h | h
    · exact Or.inl h
    · split_ifs at h
      · exact Or.inr (by simpa using h)
      · simp at h
  · rcases hfail with hg | ⟨hg, hr⟩
    · simp [act, actTry, runTransition, hg]
    · simp [act, actTry, runTransition, hg, hr]
  · rcases hfail with hg | ⟨hg, hr⟩
    · simp [act, actTry, runTransition, hg]
    · simp [act, actTry, runTransition, hg, hr]
  · rcases hfail with hg | ⟨hg, hr⟩
    · simp [act, actTry, runTransition, hg]
    · simp [act, actTry, runTransition, hg, hr]
  · intro hne
    rw [herr, strOr, if_neg hne]

/-- C28 at a call refused by the store with the message 'Sunucu hatası'. -/
theorem act_failure_atomic_witness :
    (act c27Store c27Job c27State c28Refused {}).calls = [Call.store] ∧
      (act c27Store c27Job c27State c28Refused {}).logs = [] ∧
      (act c27Store c27Job c27State c28Refused {}).view.selectedStage = "measure" ∧
      (act c27Store c27Job c27State c28Refused {}).actionError = "Sunucu hatası" := by
  have h := act_failure_atomic c27Store c27Job c27State c28Refused {}
    (Thrown.object "Sunucu hatası" "" "") (Or.inr ⟨rfl, rfl⟩)
  exact ⟨h.1, h.2.2.1, h.2.2.2.2.1, h.2.2.2.2.2.2 (by decide)⟩

theorem currentStage_id_mem (job : Job) :
    ((currentStage job).map (fun stage => stage.id)).getD ""
      ∈ (STAGE_FLOW ++ SERVICE_STAGE_FLOW).map (fun stage => stage.id) := by
  obtain ⟨stage, hstage⟩ := findStage_first (strOr job.status "OLCU_RANDEVU_BEKLIYOR")
    (activeFlow job.startType) (activeFlow_ne_nil job.startType)
  have hmem := findStage_mem _ _ stage hstage
  have hflow : stage ∈ STAGE_FLOW ++ SERVICE_STAGE_FLOW := by
    rcases activeFlow_cases job.startType with h | h
    · rw [h] at hmem
      exact List.mem_append_right _ hmem
    · rw [h] at hmem
      exact List.mem_append_left _ hmem
  unfold currentStage
  rw [hstage]
  exact List.mem_map_of_mem _ hflow

theorem advanceToNextStage_mem (job : Job) (view : View) (updatedJob : Job)
    (h : view.selectedStage ∈ (STAGE_FLOW ++ SERVICE_STAGE_FLOW).map (fun stage => stage.id)) :
    (advanceToNextStage job view updatedJob).selectedStage
      ∈ (STAGE_FLOW ++ SERVICE_STAGE_FLOW).map (fun stage => stage.id) := by
  unfold advanceToNextStage
  simp only []
  split
  · rename_i newStage current hnew _
    split_ifs
    · have hmem := findStage_mem _ _ newStage hnew
      have hflow : newStage ∈ STAGE_FLOW ++ SERVICE_STAGE_FLOW := by
        split_ifs at hmem
        · exact List.mem_append_right _ hmem
        · exact List.mem_append_left _ hmem
      exact List.mem_map_of_mem _ hflow
    · exact h
  · exact h

theorem applyCursorOp_mem (view : View) (op : CursorOp)
    (h : view.selectedStage ∈ (STAGE_FLOW ++ SERVICE_STAGE_FLOW).map (fun stage => stage.id)) :
    (applyCursorOp view op).selectedStage
      ∈ (STAGE_FLOW ++ SERVICE_STAGE_FLOW).map (fun stage => stage.id) := by
  cases op with
  | jobChanged job => exact currentStage_id_mem job
  | advance job updatedJob => exact advanceToNextStage_mem job view updatedJob h
  | mark job index =>
    simp only [applyCursorOp]
    cases hget : (activeFlow job.startType)[index]? with
    | none => exact h
    | some stage =>
      have hmem : stage ∈ activeFlow job.startType := List.getElem?_mem hget
      have hflow : stage ∈ STAGE_FLOW ++ SERVICE_STAGE_FLOW := by
        rcases activeFlow_cases job.startType with h' | h'
        · rw [h'] at hmem
          exact List.mem_append_right _ hmem
        · rw [h'] at hmem
          exact List.mem_append_left _ hmem
      exact List.mem_map_of_mem _ hflow

theorem foldl_applyCursorOp_mem (ops : List CursorOp) (view : View)
    (h : view.selectedStage ∈ (STAGE_FLOW ++ SERVICE_STAGE_FLOW).map (fun stage => stage.id)) :
    (ops.foldl applyCursorOp view).selectedStage
      ∈ (STAGE_FLOW ++ SERVICE_STAGE_FLOW).map (fun stage => stage.id) := by
  induction ops generalizing view with
  | nil => exact h
  | cons op rest ih => exact ih _ (applyCursorOp_mem view op h)

/-- C29, evaluated on the code: the stock reservation panel is gated on the id `approval`,
which is the id of no stage of either flow, and the stage `stock` has no panel; every other
stage id has a panel and every other gate id is a stage id. The view cursor only ever holds
the id of a stage of a flow (initial value, job change, advance after a transition, click on
the process map), so the stock panel is never rendered and 'Rezervasyonu Kaydet' is never
offered. For `c29Job`, in `STOK_BEKLIYOR`, the cursor starts on `stock` and no panel is
rendered. -/
theorem stock_panel_never_shown :
    (("approval", false) ∈ PANEL_GATES ∧
      "approval" ∉ (STAGE_FLOW ++ SERVICE_STAGE_FLOW).map (fun stage => stage.id)) ∧
    ("stock" ∈ STAGE_FLOW.map (fun stage => stage.id) ∧
      "stock" ∉ PANEL_GATES.map (fun gate => gate.1)) ∧
    (∀ id ∈ (STAGE_FLOW ++ SERVICE_STAGE_FLOW).map (fun stage => stage.id),
      id ≠ "stock" → id ∈ PANEL_GATES.map (fun gate => gate.1)) ∧
    (∀ id ∈ PANEL_GATES.map (fun gate => gate.1),
      id ≠ "approval" → id ∈ (STAGE_FLOW ++ SERVICE_STAGE_FLOW).map (fun stage => stage.id)) ∧
    (∀ (job : Job) (view : View),
      rendered job view Action.saveReservation = panelShown job view ("approval", false)) ∧
    (∀ (job : Job) (ops : List CursorOp),
      (ops.foldl applyCursorOp (initialView job)).selectedStage
        ∈ (STAGE_FLOW ++ SERVICE_STAGE_FLOW).map (fun stage => stage.id)) ∧
    (∀ (job shown : Job) (ops : List CursorOp) (view : View),
      view.selectedStage = (ops.foldl applyCursorOp (initialView job)).selectedStage →
      panelShown shown view ("approval", false) = false ∧
        offered shown view Action.saveReservation = false) ∧
    ((currentStage c29Job).map (fun stage => stage.id) = some "stock" ∧
      (initialView c29Job).selectedStage = "stock" ∧
      (∀ gate ∈ PANEL_GATES, panelShown c29Job (initialView c29Job) gate = false) ∧
      offered c29Job { selectedStage := "stock", reservedLines := [c3Line] }
        Action.saveReservation = false) := by
  have hcursor : ∀ (job : Job) (ops : List CursorOp),
      (ops.foldl applyCursorOp (initialView job)).selectedStage
        ∈ (STAGE_FLOW ++ SERVICE_STAGE_FLOW).map (fun stage => stage.id) := by
    intro job ops
    exact foldl_applyCursorOp_mem ops (initialView job) (currentStage_id_mem job)
  have hnot : "approval" ∉ (STAGE_FLOW ++ SERVICE_STAGE_FLOW).map (fun stage => stage.id) := by
    decide
  refine ⟨⟨by decide, hnot⟩, ⟨by decide, by decide⟩, by decide, by decide, ?_, hcursor, ?_, ?_⟩
  · intro job view
    simp [rendered, panelShown]
  · intro job shown ops view hview
    have hne : view.selectedStage ≠ "approval" := by
      intro heq
      apply hnot
      rw [← heq, hview]
      exact hcursor job ops
    constructor
    · simp [panelShown, hne]
    · simp [offered, rendered, hne]
  · refine ⟨by decide, by decide, by decide, by decide⟩

end JobsList
